import Mathlib

/-!
# PowerMem (Go SDK): deduplication, retention and ranked search

A shallow embedding of `powermem-go/pkg/{storage,storage/sqlite,embedder,llm,intelligence,core}`.

Conventions of the embedding:

* Go packages become namespaces (`storage`, `sqlite`, `embedder`, `llm`, `intelligence`,
  `core`), and every definition keeps the name of the Go function it embeds.
* `float64` is embedded as an ordered field `F` with exact arithmetic; `math.Sqrt` and
  `math.Exp` are passed as the explicit arguments `sqrt` and `exp`.  Theorems that need
  the analytic meaning of these two functions are stated over the reals with `Real.sqrt`
  and `Real.exp`.
* Where the rounding of `float64` decides a property, the namespace `rounded` holds the same
  functions with a rounding function `fl` applied to the exact result of every operation, and
  the namespace `binary64` holds the rounding of IEEE 754 binary64 on the rationals
  (`binary64.round`, `binary64.sqrt`) and the underflow of `math.Exp` (`binary64.exp`).
* `int64` record identifiers are integers; `time.Time` is an integer count of nanoseconds
  on one wall clock and `time.Duration` is a signed 64-bit count of nanoseconds.
* Collaborators reached through Go interfaces (the vector store, the embedder, the ID
  generator) act on an explicit state of type `σ`; every call that the orchestrator or the
  dedup manager makes on a collaborator is appended to a trace.
* `sync.RWMutex` serialises the operations; the embedding describes one operation at a time.
* Go `error` values are compared by content; `Error.Unwrap` and `Error.Is` follow
  `errors.Unwrap` and `errors.Is`.
* A Go call that may panic returns an `Outcome`; the collaborator constructors that
  `NewClient` invokes are recorded as a list of `Constructor` calls, and whether a constructor
  fails is given by the argument `construct`.
-/

set_option autoImplicit false

/-- Go `time.Time`: nanoseconds since the zero `time.Time`, on one wall clock. -/
abbrev Time := Int

/-- Go `map[string]interface{}`: keys with their values, the values kept as opaque text. -/
abbrev Metadata := List (String × String)

/-- Go `error` values that the packages build. -/
inductive Error where
  | new (msg : String)
  | wrapf (msg : String) (cause : Error)
  | memoryError (Op : String) (Err : Error)
  deriving DecidableEq, Repr

namespace storage

/-- Record type `storage.Memory`. -/
structure Memory (F : Type) where
  ID : Int
  UserID : String
  AgentID : String
  Content : String
  Embedding : List F
  SparseEmbedding : List (Int × F)
  Metadata : Metadata
  CreatedAt : Time
  UpdatedAt : Time
  RetentionStrength : F
  LastAccessedAt : Option Time
  Score : F
  deriving DecidableEq, Repr

/-- Options `storage.SearchOptions`. -/
structure SearchOptions (F : Type) where
  UserID : String
  AgentID : String
  Limit : Int
  MinScore : F
  Filters : Metadata
  deriving DecidableEq, Repr

/-- Options `storage.GetAllOptions`. -/
structure GetAllOptions where
  UserID : String
  AgentID : String
  Limit : Int
  Offset : Int
  deriving DecidableEq, Repr

/-- Options `storage.DeleteAllOptions`. -/
structure DeleteAllOptions where
  UserID : String
  AgentID : String
  deriving DecidableEq, Repr

/-- Interface `storage.VectorStore`, its methods acting on a collaborator state `σ`
(`CreateIndex` is not used by the core and is left out). -/
structure VectorStore (σ F : Type) where
  Insert : Memory F → σ → Option Error × σ
  Search : List F → SearchOptions F → σ → Except Error (List (Memory F)) × σ
  Get : Int → σ → Except Error (Memory F) × σ
  Update : Int → String → List F → σ → Except Error (Memory F) × σ
  Delete : Int → σ → Option Error × σ
  GetAll : GetAllOptions → σ → Except Error (List (Memory F)) × σ
  DeleteAll : DeleteAllOptions → σ → Option Error × σ
  Close : σ → Option Error × σ

end storage

/-- One call made on a collaborator. -/
inductive Call (F : Type) where
  | embed (text : String)
  | generate
  | insert (memory : storage.Memory F)
  | search (embedding : List F) (opts : storage.SearchOptions F)
  | get (id : Int)
  | update (id : Int) (content : String) (embedding : List F)
  | delete (id : Int)
  | getAll (opts : storage.GetAllOptions)
  | deleteAll (opts : storage.DeleteAllOptions)
  | close (who : String)
  deriving DecidableEq, Repr

/-- The collaborators' state together with the trace of the calls made so far. -/
structure World (σ F : Type) where
  env : σ
  log : List (Call F)

/-- Runs one collaborator call and records it in the trace. -/
def World.call {σ F α : Type} (w : World σ F) (c : Call F) (op : σ → α × σ) : α × World σ F :=
  ((op w.env).1, { env := (op w.env).2, log := w.log ++ [c] })

/-- Whether a call is a store `Insert`. -/
def Call.isInsert {F : Type} : Call F → Bool
  | .insert _ => true
  | _ => false

/-- Whether a call is a store `Update`. -/
def Call.isUpdate {F : Type} : Call F → Bool
  | .update _ _ _ => true
  | _ => false

/-- Whether a call is an ID generation. -/
def Call.isGenerate {F : Type} : Call F → Bool
  | .generate => true
  | _ => false

namespace sqlite

variable {F : Type} [LinearOrderedField F]

/-- Function `cosineSimilarity` of `sqlite/client.go`; the loop over `i` accumulates the three
sums over the index range of `a`. -/
def cosineSimilarity (sqrt : F → F) (a b : List F) : F :=
  if a.length ≠ b.length then 0
  else
    let dotProduct := ((a.zip b).map (fun p => p.1 * p.2)).sum
    let normA := (a.map (fun x => x * x)).sum
    let normB := (b.map (fun x => x * x)).sum
    if normA = 0 ∨ normB = 0 then 0
    else dotProduct / (sqrt normA * sqrt normB)

/-- Inner loop of `sortByScore`, `for j := 0; j < k; j++ { if m[j].Score < m[j+1].Score { swap } }`:
the list is the slice from position `j` on, and each step fixes position `j`. -/
def bubblePass : Nat → List (storage.Memory F) → List (storage.Memory F)
  | k + 1, x :: y :: rest =>
    if x.Score < y.Score then y :: bubblePass k (x :: rest) else x :: bubblePass k (y :: rest)
  | _, l => l

/-- Outer loop of `sortByScore`, `for i := 0; i < n-1; i++`, each round running the inner loop
with bound `n-i-1`. -/
def bubbleSort (memories : List (storage.Memory F)) : List (storage.Memory F) :=
  (List.range (memories.length - 1)).foldl
    (fun ms i => bubblePass (memories.length - i - 1) ms) memories

/-- Function `sortByScore`: bubble sort by descending score, then the cut at `limit`. -/
def sortByScore (memories : List (storage.Memory F)) (limit : Int) : List (storage.Memory F) :=
  let sorted := bubbleSort memories
  if 0 < limit ∧ (sorted.length : Int) > limit then sorted.take limit.toNat else sorted

/-- A row of the table created by `initTables`. -/
structure Row (F : Type) where
  id : Int
  user_id : String
  agent_id : String
  content : String
  embedding : List F
  metadata : Metadata
  created_at : Time
  updated_at : Time
  retention_strength : F
  last_accessed_at : Option Time
  deriving DecidableEq, Repr

/-- State behind `sqlite.Client`: the rows of the table, and the clock that `time.Now()` and
`CURRENT_TIMESTAMP` read (reading number `tick` returns `clock tick`). -/
structure Client (F : Type) where
  rows : List (Row F)
  clock : Nat → Time
  tick : Nat

/-- Function `buildWhereClause` of `sqlite/utils.go`, as the predicate that the generated
`WHERE` clause evaluates on a row (the `filters` argument is not read by the source). -/
def buildWhereClause (userID agentID : String) (_filters : Metadata) (r : Row F) : Bool :=
  (if userID ≠ "" then decide (r.user_id = userID) else true) &&
  (if agentID ≠ "" then decide (r.agent_id = agentID) else true)

/-- Method `scanMemory`: a row read back as a `storage.Memory` (score and sparse embedding are
not columns and keep their zero values). -/
def scanMemory (r : Row F) : storage.Memory F :=
  { ID := r.id, UserID := r.user_id, AgentID := r.agent_id, Content := r.content,
    Embedding := r.embedding, SparseEmbedding := [], Metadata := r.metadata,
    CreatedAt := r.created_at, UpdatedAt := r.updated_at,
    RetentionStrength := r.retention_strength, LastAccessedAt := r.last_accessed_at,
    Score := 0 }

/-- The rows in the order of `ORDER BY id`. -/
def orderById (rows : List (Row F)) : List (Row F) :=
  rows.insertionSort (fun a b => a.id ≤ b.id)

/-- The rows in the order of `ORDER BY created_at DESC`. -/
def orderByCreatedAtDesc (rows : List (Row F)) : List (Row F) :=
  rows.insertionSort (fun a b => b.created_at ≤ a.created_at)

/-- Method `Insert`: fails on a primary-key conflict, otherwise appends the row, with
`created_at` from `time.Now()`, `updated_at` from its column default and no last access. -/
def Insert (memory : storage.Memory F) (c : Client F) : Option Error × Client F :=
  if c.rows.any (fun r => decide (r.id = memory.ID)) then
    (some (.wrapf "Insert" (.new "UNIQUE constraint failed")), { c with tick := c.tick + 1 })
  else
    (none,
      { c with
        rows := c.rows ++
          [{ id := memory.ID, user_id := memory.UserID, agent_id := memory.AgentID,
             content := memory.Content, embedding := memory.Embedding,
             metadata := memory.Metadata, created_at := c.clock c.tick,
             updated_at := c.clock (c.tick + 1),
             retention_strength := memory.RetentionStrength, last_accessed_at := none }],
        tick := c.tick + 2 })

/-- Method `Search`: full scan in `id` order, cosine score per row, the `MinScore` filter, then
`sortByScore` with the limit. -/
def Search (sqrt : F → F) (embedding : List F) (opts : storage.SearchOptions F) (c : Client F) :
    Except Error (List (storage.Memory F)) × Client F :=
  let rows := orderById (c.rows.filter (buildWhereClause opts.UserID opts.AgentID opts.Filters))
  let scored := rows.map (fun r =>
    { scanMemory r with Score := cosineSimilarity sqrt embedding (scanMemory r).Embedding })
  let memories := scored.filter (fun m => decide (m.Score ≥ opts.MinScore))
  (.ok (sortByScore memories opts.Limit), c)

/-- Method `Get`. -/
def Get (id : Int) (c : Client F) : Except Error (storage.Memory F) × Client F :=
  match c.rows.find? (fun r => decide (r.id = id)) with
  | none => (.error (.new "Get: not found"), c)
  | some r => (.ok (scanMemory r), c)

/-- Method `Update`: rewrites `content`, `embedding` and `updated_at` of the rows with the given
id, reports not-found when no row was affected, and otherwise reads the row back with `Get`. -/
def Update (id : Int) (content : String) (embedding : List F) (c : Client F) :
    Except Error (storage.Memory F) × Client F :=
  let c1 : Client F :=
    { c with
      rows := c.rows.map (fun r =>
        if r.id = id then
          { r with content := content, embedding := embedding, updated_at := c.clock c.tick }
        else r),
      tick := c.tick + 1 }
  if c.rows.any (fun r => decide (r.id = id)) then Get id c1
  else (.error (.new "Update: not found"), c1)

/-- Method `Delete`. -/
def Delete (id : Int) (c : Client F) : Option Error × Client F :=
  if c.rows.any (fun r => decide (r.id = id)) then
    (none, { c with rows := c.rows.filter (fun r => decide (r.id ≠ id)) })
  else (some (.new "Delete: not found"), c)

/-- Method `GetAll`: `ORDER BY created_at DESC LIMIT ? OFFSET ?` (a negative `LIMIT` means no
limit and a negative `OFFSET` means none, as in SQLite). -/
def GetAll (opts : storage.GetAllOptions) (c : Client F) :
    Except Error (List (storage.Memory F)) × Client F :=
  let rows := orderByCreatedAtDesc (c.rows.filter (buildWhereClause opts.UserID opts.AgentID []))
  let page := rows.drop opts.Offset.toNat
  let page := if opts.Limit < 0 then page else page.take opts.Limit.toNat
  (.ok (page.map scanMemory), c)

/-- Method `DeleteAll`. -/
def DeleteAll (opts : storage.DeleteAllOptions) (c : Client F) : Option Error × Client F :=
  (none,
    { c with rows := c.rows.filter (fun r => !buildWhereClause opts.UserID opts.AgentID [] r) })

/-- Method `Close`. -/
def Close (c : Client F) : Option Error × Client F := (none, c)

/-- The SQLite client as a `storage.VectorStore`. -/
def store (sqrt : F → F) : storage.VectorStore (Client F) F :=
  { Insert := Insert, Search := Search sqrt, Get := Get, Update := Update, Delete := Delete,
    GetAll := GetAll, DeleteAll := DeleteAll, Close := Close }

end sqlite

namespace embedder

/-- Interface `embedder.Provider` (the methods the core calls). -/
structure Provider (σ F : Type) where
  Embed : String → σ → Except Error (List F) × σ
  Close : σ → Option Error × σ

end embedder

namespace intelligence

variable {σ F : Type} [LinearOrderedField F]

/-- Record type `intelligence.Memory`. -/
structure Memory (F : Type) where
  ID : Int
  UserID : String
  AgentID : String
  Content : String
  Embedding : List F
  Metadata : Metadata
  CreatedAt : Time
  UpdatedAt : Time
  RetentionStrength : F
  LastAccessedAt : Option Time
  Score : F
  deriving DecidableEq, Repr

/-- Struct `DedupManager`. -/
structure DedupManager (σ F : Type) where
  store : storage.VectorStore σ F
  threshold : F

/-- Constructor `NewDedupManager`: a zero threshold is replaced by 0.95. -/
def NewDedupManager (store : storage.VectorStore σ F) (threshold : F) : DedupManager σ F :=
  { store := store, threshold := if threshold = 0 then 0.95 else threshold }

/-- The loop of `CheckDuplicate` over the search results: the first result whose score reaches
the threshold decides; without one the answer is `(false, 0)`. -/
def firstDuplicate (threshold : F) : List (storage.Memory F) → Bool × Int
  | [] => (false, 0)
  | mem :: rest => if mem.Score ≥ threshold then (true, mem.ID) else firstDuplicate threshold rest

/-- Method `DedupManager.CheckDuplicate`, returning `(isDuplicate, id, err)`. -/
def DedupManager.CheckDuplicate (m : DedupManager σ F) (embedding : List F)
    (userID agentID : String) (w : World σ F) : (Bool × Int × Option Error) × World σ F :=
  let opts : storage.SearchOptions F :=
    { UserID := userID, AgentID := agentID, Limit := 5, MinScore := 0, Filters := [] }
  match w.call (.search embedding opts) (m.store.Search embedding opts) with
  | (.error err, w1) => ((false, 0, some err), w1)
  | (.ok memories, w1) =>
    (((firstDuplicate m.threshold memories).1, (firstDuplicate m.threshold memories).2, none), w1)

/-- Function `normalizeVector`. -/
def normalizeVector (sqrt : F → F) (v : List F) : List F :=
  let sum := (v.map (fun val => val * val)).sum
  let norm := sqrt sum
  if norm = 0 then v else v.map (fun val => val / norm)

/-- Function `averageEmbeddings`. -/
def averageEmbeddings (sqrt : F → F) (e1 e2 : List F) : List F :=
  if e1.length ≠ e2.length then e1
  else normalizeVector sqrt ((e1.zip e2).map (fun p => (p.1 + p.2) / 2))

/-- Method `DedupManager.MergeMemories`. -/
def DedupManager.MergeMemories (sqrt : F → F) (m : DedupManager σ F) (existingID : Int)
    (newContent : String) (newEmbedding : List F) (w : World σ F) :
    Except Error (Memory F) × World σ F :=
  match w.call (.get existingID) (m.store.Get existingID) with
  | (.error err, w1) => (.error err, w1)
  | (.ok existing, w1) =>
    let mergedContent := existing.Content ++ " " ++ newContent
    let mergedEmbedding := averageEmbeddings sqrt existing.Embedding newEmbedding
    match w1.call (.update existingID mergedContent mergedEmbedding)
        (m.store.Update existingID mergedContent mergedEmbedding) with
    | (.error err, w2) => (.error err, w2)
    | (.ok updated, w2) =>
      (.ok
        { ID := updated.ID, UserID := updated.UserID, AgentID := updated.AgentID,
          Content := updated.Content, Embedding := updated.Embedding,
          Metadata := updated.Metadata, CreatedAt := updated.CreatedAt,
          UpdatedAt := updated.UpdatedAt, RetentionStrength := updated.RetentionStrength,
          LastAccessedAt := updated.LastAccessedAt, Score := updated.Score }, w2)

/-- Function `CosineSimilarity` of `intelligence/dedup.go`. -/
def CosineSimilarity (sqrt : F → F) (a b : List F) : F :=
  if a.length ≠ b.length then 0
  else
    let dotProduct := ((a.zip b).map (fun p => p.1 * p.2)).sum
    let normA := (a.map (fun x => x * x)).sum
    let normB := (b.map (fun x => x * x)).sum
    if normA = 0 ∨ normB = 0 then 0
    else dotProduct / (sqrt normA * sqrt normB)

/-- Go `time.Duration`: signed 64-bit nanoseconds. -/
abbrev Duration := Int

/-- Largest `time.Duration`. -/
def maxDuration : Duration := 2 ^ 63 - 1

/-- Smallest `time.Duration`. -/
def minDuration : Duration := -(2 ^ 63)

/-- Constant `time.Hour` in nanoseconds. -/
def Hour : Duration := 3600000000000

/-- Go `t.Sub(u)`: the difference `t - u`, saturated to the range of `time.Duration`. -/
def Sub (t u : Time) : Duration :=
  if t - u > maxDuration then maxDuration
  else if t - u < minDuration then minDuration
  else t - u

/-- Go `d.Hours()`: whole hours plus the remaining nanoseconds as a fraction of an hour. -/
def Hours (d : Duration) : F :=
  ((Int.tdiv d Hour : Int) : F) + ((Int.tmod d Hour : Int) : F) / (60 * 60 * 1000000000)

/-- Struct `EbbinghausManager`. -/
structure EbbinghausManager (F : Type) where
  decayRate : F
  reinforcementFactor : F

/-- Constructor `NewEbbinghausManager`. -/
def NewEbbinghausManager (decayRate reinforcementFactor : F) : EbbinghausManager F :=
  { decayRate := decayRate, reinforcementFactor := reinforcementFactor }

/-- Method `EbbinghausManager.CalculateRetention`; `now` is the reading of `time.Now()`. -/
def EbbinghausManager.CalculateRetention (exp : F → F) (m : EbbinghausManager F) (now : Time)
    (createdAt : Time) (lastAccessedAt : Option Time) : F :=
  let timeElapsed : Duration :=
    match lastAccessedAt with
    | some t => Sub now t
    | none => Sub now createdAt
  let hoursElapsed : F := Hours timeElapsed
  exp (-m.decayRate * hoursElapsed / 24.0)

/-- Method `EbbinghausManager.Reinforce`. -/
def EbbinghausManager.Reinforce (m : EbbinghausManager F) (currentStrength : F) : F :=
  let newStrength := currentStrength + m.reinforcementFactor * (1.0 - currentStrength)
  if newStrength > 1.0 then 1.0 else newStrength

/-- Method `EbbinghausManager.ShouldArchive`. -/
def EbbinghausManager.ShouldArchive (_m : EbbinghausManager F) (retentionStrength : F)
    (threshold : F) : Bool :=
  let threshold := if threshold = 0 then 0.2 else threshold
  decide (retentionStrength < threshold)

/-- Go conversion of a `float64` to an integer type: the fraction is discarded (truncation
toward zero). -/
def truncate [FloorRing F] (x : F) : Int := if 0 ≤ x then ⌊x⌋ else ⌈x⌉

/-- Go `int64` arithmetic: the result wraps around modulo 2^64. -/
def wrapInt64 (z : Int) : Int := (z + 2 ^ 63) % 2 ^ 64 - 2 ^ 63

/-- Method `EbbinghausManager.CalculateNextReview`; `now` is the reading of `time.Now()`,
`time.Duration(hoursUntilReview)` is the conversion of the float to `int64`, and the product
with `time.Hour` is an `int64` product. -/
def EbbinghausManager.CalculateNextReview [FloorRing F] (_m : EbbinghausManager F) (now : Time)
    (retentionStrength : F) : Time :=
  let hoursUntilReview : F := 24.0 * (1.0 + retentionStrength * 10.0)
  now + wrapInt64 (truncate hoursUntilReview * Hour)

end intelligence

namespace core

variable {σ F : Type} [LinearOrderedField F]

/-- Record type `core.Memory`. -/
structure Memory (F : Type) where
  ID : Int
  UserID : String
  AgentID : String
  Content : String
  Embedding : List F
  SparseEmbedding : List (Int × F)
  Metadata : Metadata
  CreatedAt : Time
  UpdatedAt : Time
  RetentionStrength : F
  LastAccessedAt : Option Time
  Score : F
  deriving DecidableEq, Repr

/-- Type `MemoryScope`. -/
inductive MemoryScope where
  | ScopePrivate
  | ScopeAgentGroup
  | ScopeGlobal
  deriving DecidableEq, Repr

/-- Struct `AddOptions`. -/
structure AddOptions where
  UserID : String
  AgentID : String
  Metadata : Metadata
  Infer : Bool
  Scope : MemoryScope
  deriving DecidableEq, Repr

/-- Type `AddOption`. -/
abbrev AddOption := AddOptions → AddOptions

/-- Option `WithUserID`. -/
def WithUserID (userID : String) : AddOption := fun opts => { opts with UserID := userID }

/-- Option `WithAgentID`. -/
def WithAgentID (agentID : String) : AddOption := fun opts => { opts with AgentID := agentID }

/-- Option `WithMetadata`. -/
def WithMetadata (metadata : Metadata) : AddOption := fun opts => { opts with Metadata := metadata }

/-- Option `WithInfer`. -/
def WithInfer (infer : Bool) : AddOption := fun opts => { opts with Infer := infer }

/-- Option `WithScope`. -/
def WithScope (scope : MemoryScope) : AddOption := fun opts => { opts with Scope := scope }

/-- Function `applyAddOptions`. -/
def applyAddOptions (opts : List AddOption) : AddOptions :=
  opts.foldl (fun options opt => opt options)
    { UserID := "", AgentID := "", Metadata := [], Infer := false, Scope := .ScopePrivate }

/-- Struct `SearchOptions` of the core. -/
structure SearchOptions (F : Type) where
  UserID : String
  AgentID : String
  Limit : Int
  Filters : Metadata
  MinScore : F
  IncludeArchived : Bool

/-- Type `SearchOption`. -/
abbrev SearchOption (F : Type) := SearchOptions F → SearchOptions F

/-- Option `WithUserIDForSearch`. -/
def WithUserIDForSearch (userID : String) : SearchOption F :=
  fun opts => { opts with UserID := userID }

/-- Option `WithAgentIDForSearch`. -/
def WithAgentIDForSearch (agentID : String) : SearchOption F :=
  fun opts => { opts with AgentID := agentID }

/-- Option `WithLimit`. -/
def WithLimit (limit : Int) : SearchOption F := fun opts => { opts with Limit := limit }

/-- Option `WithMinScore`. -/
def WithMinScore (score : F) : SearchOption F := fun opts => { opts with MinScore := score }

/-- Function `applySearchOptions`. -/
def applySearchOptions (opts : List (SearchOption F)) : SearchOptions F :=
  opts.foldl (fun options opt => opt options)
    { UserID := "", AgentID := "", Limit := 10, Filters := [], MinScore := 0.0,
      IncludeArchived := false }

/-- Struct `GetAllOptions` of the core. -/
structure GetAllOptions where
  UserID : String
  AgentID : String
  Limit : Int
  Offset : Int

/-- Type `GetAllOption`. -/
abbrev GetAllOption := GetAllOptions → GetAllOptions

/-- Option `WithUserIDForGetAll`. -/
def WithUserIDForGetAll (userID : String) : GetAllOption :=
  fun opts => { opts with UserID := userID }

/-- Option `WithAgentIDForGetAll`. -/
def WithAgentIDForGetAll (agentID : String) : GetAllOption :=
  fun opts => { opts with AgentID := agentID }

/-- Option `WithLimitForGetAll`. -/
def WithLimitForGetAll (limit : Int) : GetAllOption := fun opts => { opts with Limit := limit }

/-- Option `WithOffset`. -/
def WithOffset (offset : Int) : GetAllOption := fun opts => { opts with Offset := offset }

/-- Function `applyGetAllOptions`. -/
def applyGetAllOptions (opts : List GetAllOption) : GetAllOptions :=
  opts.foldl (fun options opt => opt options)
    { UserID := "", AgentID := "", Limit := 100, Offset := 0 }

/-- Function `NewMemoryError`. -/
def NewMemoryError (op : String) (err : Option Error) : Option Error :=
  match err with
  | none => none
  | some e => some (.memoryError op e)

/-- Function `toStorageMemory`. -/
def toStorageMemory (m : Memory F) : storage.Memory F :=
  { ID := m.ID, UserID := m.UserID, AgentID := m.AgentID, Content := m.Content,
    Embedding := m.Embedding, SparseEmbedding := m.SparseEmbedding, Metadata := m.Metadata,
    CreatedAt := m.CreatedAt, UpdatedAt := m.UpdatedAt,
    RetentionStrength := m.RetentionStrength, LastAccessedAt := m.LastAccessedAt,
    Score := m.Score }

/-- Function `fromStorageMemory`. -/
def fromStorageMemory (m : storage.Memory F) : Memory F :=
  { ID := m.ID, UserID := m.UserID, AgentID := m.AgentID, Content := m.Content,
    Embedding := m.Embedding, SparseEmbedding := m.SparseEmbedding, Metadata := m.Metadata,
    CreatedAt := m.CreatedAt, UpdatedAt := m.UpdatedAt,
    RetentionStrength := m.RetentionStrength, LastAccessedAt := m.LastAccessedAt,
    Score := m.Score }

/-- Function `fromStorageMemories`. -/
def fromStorageMemories (memories : List (storage.Memory F)) : List (Memory F) :=
  memories.map fromStorageMemory

/-- Function `fromIntelligenceMemory`. -/
def fromIntelligenceMemory (m : intelligence.Memory F) : Memory F :=
  { ID := m.ID, UserID := m.UserID, AgentID := m.AgentID, Content := m.Content,
    Embedding := m.Embedding, SparseEmbedding := [], Metadata := m.Metadata,
    CreatedAt := m.CreatedAt, UpdatedAt := m.UpdatedAt,
    RetentionStrength := m.RetentionStrength, LastAccessedAt := m.LastAccessedAt,
    Score := m.Score }

/-- Struct `core.Client`: the collaborators the operations use (`snowflakeNode` is the ID
generator, `Generate().Int64()`). -/
structure Client (σ F : Type) where
  storage : storage.VectorStore σ F
  embedder : embedder.Provider σ F
  dedupManager : Option (intelligence.DedupManager σ F)
  snowflakeNode : σ → Int × σ

/-- Step 3 of `Client.Add` (building the record and inserting it), reached when no merge takes
place: generates the ID, builds the record and calls the store's `Insert`. -/
def Client.addInsert (c : Client σ F) (addOpts : AddOptions) (content : String)
    (embedding : List F) (w : World σ F) : (Option (Memory F) × Option Error) × World σ F :=
  let g := w.call .generate c.snowflakeNode
  let memory : Memory F :=
    { ID := g.1, UserID := addOpts.UserID, AgentID := addOpts.AgentID, Content := content,
      Embedding := embedding, SparseEmbedding := [], Metadata := addOpts.Metadata,
      CreatedAt := 0, UpdatedAt := 0, RetentionStrength := 1.0, LastAccessedAt := none,
      Score := 0 }
  match g.2.call (.insert (toStorageMemory memory)) (c.storage.Insert (toStorageMemory memory)) with
  | (some err, w1) => ((none, NewMemoryError "Add" (some err)), w1)
  | (none, w1) => ((some memory, none), w1)

/-- Method `Client.Add`; `ctxErr` is `ctx.Err()` at the `select` on `ctx.Done()` (`none` while
the context is live), and the result is Go's pair `(memory, err)`. -/
def Client.Add (sqrt : F → F) (c : Client σ F) (ctxErr : Option Error) (content : String)
    (opts : List AddOption) (w : World σ F) : (Option (Memory F) × Option Error) × World σ F :=
  let addOpts := applyAddOptions opts
  match ctxErr with
  | some e => ((none, some e), w)
  | none =>
    match w.call (.embed content) (c.embedder.Embed content) with
    | (.error err, w1) => ((none, NewMemoryError "Add" (some err)), w1)
    | (.ok embedding, w1) =>
      match addOpts.Infer, c.dedupManager with
      | true, some dm =>
        match dm.CheckDuplicate embedding addOpts.UserID addOpts.AgentID w1 with
        | ((_, _, some err), w2) => ((none, NewMemoryError "Add" (some err)), w2)
        | ((true, existingID, none), w2) =>
          match dm.MergeMemories sqrt existingID content embedding w2 with
          | (.error err, w3) => ((none, NewMemoryError "Add" (some err)), w3)
          | (.ok merged, w3) => ((some (fromIntelligenceMemory merged), none), w3)
        | ((false, _, none), w2) => c.addInsert addOpts content embedding w2
      | _, _ => c.addInsert addOpts content embedding w1

/-- Method `Client.Search` of the core. -/
def Client.Search (c : Client σ F) (query : String) (opts : List (SearchOption F))
    (w : World σ F) : (Option (List (Memory F)) × Option Error) × World σ F :=
  let searchOpts := applySearchOptions opts
  match w.call (.embed query) (c.embedder.Embed query) with
  | (.error err, w1) => ((none, NewMemoryError "Search" (some err)), w1)
  | (.ok queryEmbedding, w1) =>
    let storageOpts : storage.SearchOptions F :=
      { UserID := searchOpts.UserID, AgentID := searchOpts.AgentID, Limit := searchOpts.Limit,
        MinScore := searchOpts.MinScore, Filters := searchOpts.Filters }
    match w1.call (.search queryEmbedding storageOpts)
        (c.storage.Search queryEmbedding storageOpts) with
    | (.error err, w2) => ((none, NewMemoryError "Search" (some err)), w2)
    | (.ok memories, w2) => ((some (fromStorageMemories memories), none), w2)

/-- Method `Client.GetAll` of the core. -/
def Client.GetAll (c : Client σ F) (opts : List GetAllOption) (w : World σ F) :
    (Option (List (Memory F)) × Option Error) × World σ F :=
  let getAllOpts := applyGetAllOptions opts
  let storageOpts : storage.GetAllOptions :=
    { UserID := getAllOpts.UserID, AgentID := getAllOpts.AgentID, Limit := getAllOpts.Limit,
      Offset := getAllOpts.Offset }
  match w.call (.getAll storageOpts) (c.storage.GetAll storageOpts) with
  | (.error err, w1) => ((none, NewMemoryError "GetAll" (some err)), w1)
  | (.ok memories, w1) => ((some (fromStorageMemories memories), none), w1)

end core

namespace core

variable {F : Type} [LinearOrderedField F]

/-- Struct `IntelligenceConfig` (the fields read by `NewClient`). -/
structure IntelligenceConfig (F : Type) where
  Enabled : Bool
  DecayRate : F
  ReinforcementFactor : F
  DuplicateThreshold : F

/-- The tail of `NewClient`, from the point where the collaborators have been initialised: the
client holds them, and gets a dedup manager over the same store when intelligence is configured
and enabled. -/
def NewClientWith {σ : Type} (store : storage.VectorStore σ F) (embedderProvider : embedder.Provider σ F)
    (node : σ → Int × σ) (cfgIntelligence : Option (IntelligenceConfig F)) : Client σ F :=
  { storage := store, embedder := embedderProvider, snowflakeNode := node,
    dedupManager :=
      match cfgIntelligence with
      | some cfg =>
        if cfg.Enabled then some (intelligence.NewDedupManager store cfg.DuplicateThreshold)
        else none
      | none => none }

/-- Collaborator state of a client over the SQLite store: the database, and the ID generator as
the sequence `ids` of the identifiers it hands out, `issued` of them so far. -/
structure Env (F : Type) where
  db : sqlite.Client F
  ids : Nat → Int
  issued : Nat

/-- The SQLite store acting on the database inside an `Env`. -/
def envStore (sqrt : F → F) : storage.VectorStore (Env F) F :=
  { Insert := fun m s => ((sqlite.Insert m s.db).1, { s with db := (sqlite.Insert m s.db).2 }),
    Search := fun e o s =>
      ((sqlite.Search sqrt e o s.db).1, { s with db := (sqlite.Search sqrt e o s.db).2 }),
    Get := fun i s => ((sqlite.Get i s.db).1, { s with db := (sqlite.Get i s.db).2 }),
    Update := fun i t e s =>
      ((sqlite.Update i t e s.db).1, { s with db := (sqlite.Update i t e s.db).2 }),
    Delete := fun i s => ((sqlite.Delete i s.db).1, { s with db := (sqlite.Delete i s.db).2 }),
    GetAll := fun o s => ((sqlite.GetAll o s.db).1, { s with db := (sqlite.GetAll o s.db).2 }),
    DeleteAll := fun o s =>
      ((sqlite.DeleteAll o s.db).1, { s with db := (sqlite.DeleteAll o s.db).2 }),
    Close := fun s => ((sqlite.Close s.db).1, { s with db := (sqlite.Close s.db).2 }) }

/-- An embedding provider that answers every text with the vector `embed text`. -/
def envEmbedder (embed : String → List F) : embedder.Provider (Env F) F :=
  { Embed := fun text s => (.ok (embed text), s), Close := fun s => (none, s) }

/-- The ID generator of an `Env`: hands out the next identifier of the sequence. -/
def envNode (s : Env F) : Int × Env F := (s.ids s.issued, { s with issued := s.issued + 1 })

/-- A client over the SQLite store with intelligence enabled at the given duplicate
threshold. -/
def sqliteClient (sqrt : F → F) (embed : String → List F) (threshold : F) : Client (Env F) F :=
  NewClientWith (envStore sqrt) (envEmbedder embed) envNode
    (some { Enabled := true, DecayRate := 0.1, ReinforcementFactor := 0.3,
            DuplicateThreshold := threshold })

/-- A freshly opened client on an empty database. -/
def emptyWorld (clock : Nat → Time) (ids : Nat → Int) : World (Env F) F :=
  { env := { db := { rows := [], clock := clock, tick := 0 }, ids := ids, issued := 0 },
    log := [] }

end core

namespace Examples

/-- A search result with the given id and score (every other field is immaterial). -/
def scored (id : Int) (score : ℚ) : storage.Memory ℚ :=
  { ID := id, UserID := "u1", AgentID := "", Content := "", Embedding := [],
    SparseEmbedding := [], Metadata := [], CreatedAt := 0, UpdatedAt := 0,
    RetentionStrength := 1, LastAccessedAt := none, Score := score }

/-- A stored record of user "u1" and agent "a1" with embedding `(1, 0)`. -/
def agentRow : sqlite.Row ℝ :=
  { id := 1, user_id := "u1", agent_id := "a1", content := "likes tea", embedding := [1, 0],
    metadata := [], created_at := 0, updated_at := 0, retention_strength := 1,
    last_accessed_at := none }

/-- A SQLite table holding `agentRow` only. -/
def agentWorld : World (sqlite.Client ℝ) ℝ :=
  { env := { rows := [agentRow], clock := fun n => n, tick := 0 }, log := [] }

end Examples

namespace Examples

variable {F : Type} [LinearOrderedField F]

/-- An embedder for three texts: "a" is `(1, 0)`, "b" is `(35/37, 12/37)` and every other text
is `(96719/97969, 15600/97969)`; all three are unit vectors. -/
def driftEmbed : String → List F := fun s =>
  if s = "a" then [1, 0]
  else if s = "b" then [35 / 37, 12 / 37]
  else [96719 / 97969, 15600 / 97969]

/-- The options `user="u1", infer=true`. -/
def driftOpts : List core.AddOption := [core.WithUserID "u1", core.WithInfer true]

/-- The stored record of text "a". -/
def driftRowA : sqlite.Row F :=
  { id := 1, user_id := "u1", agent_id := "", content := "a", embedding := [1, 0],
    metadata := [], created_at := 0, updated_at := 1, retention_strength := 1.0,
    last_accessed_at := none }

/-- The stored record of text "b". -/
def driftRowB : sqlite.Row F :=
  { id := 2, user_id := "u1", agent_id := "", content := "b",
    embedding := [35 / 37, 12 / 37], metadata := [], created_at := 2, updated_at := 3,
    retention_strength := 1.0, last_accessed_at := none }

/-- The record of text "a" after text "c" has been merged into it. -/
def driftRowAC : sqlite.Row F :=
  { id := 1, user_id := "u1", agent_id := "", content := "a c",
    embedding := [312 / 313, 25 / 313], metadata := [], created_at := 0, updated_at := 4,
    retention_strength := 1.0, last_accessed_at := none }

/-- Collaborator state after the first `Add`. -/
def driftEnv1 : core.Env F :=
  { db := { rows := [driftRowA], clock := fun n => n, tick := 2 },
    ids := fun n => n + 1, issued := 1 }

/-- Collaborator state after the second `Add`. -/
def driftEnv2 : core.Env F :=
  { db := { rows := [driftRowA, driftRowB], clock := fun n => n, tick := 4 },
    ids := fun n => n + 1, issued := 2 }

end Examples

namespace Examples

/-- A store stub whose `Search` always answers with the list `ms` and whose other methods
succeed without any effect (`Get` and `Update` answer with the first record of `ms` that has
the requested id). -/
def fixedStore (ms : List (storage.Memory ℚ)) : storage.VectorStore Unit ℚ :=
  { Insert := fun _ s => (none, s),
    Search := fun _ _ s => (.ok ms, s),
    Get := fun id s =>
      match ms.find? (fun m => decide (m.ID = id)) with
      | some m => (.ok m, s)
      | none => (.error (.new "Get: not found"), s),
    Update := fun id content embedding s =>
      match ms.find? (fun m => decide (m.ID = id)) with
      | some m => (.ok { m with Content := content, Embedding := embedding }, s)
      | none => (.error (.new "Update: not found"), s),
    Delete := fun _ s => (none, s),
    GetAll := fun _ s => (.ok ms, s),
    DeleteAll := fun _ s => (none, s),
    Close := fun s => (none, s) }

/-- Three search results in the store's order, with scores 0.5, 0.97 and 0.99. -/
def threeResults : List (storage.Memory ℚ) :=
  [scored 7 (1 / 2), scored 8 (97 / 100), scored 9 (99 / 100)]

end Examples


/-- Method `Unwrap`, as `errors.Unwrap` sees it: a `MemoryError` gives its `Err`, an error built
by `fmt.Errorf` with `%w` gives the wrapped error, and every other error gives nil. -/
def Error.Unwrap : Error → Option Error
  | .new _ => none
  | .wrapf _ cause => some cause
  | .memoryError _ err => some err

/-- Go `errors.Is(err, target)`: walks the `Unwrap` chain of `err` looking for `target`.  Errors
are compared by their content; the sentinel errors of the core have pairwise distinct
messages. -/
def Error.Is : Error → Error → Bool
  | .new msg, target => decide (Error.new msg = target)
  | .wrapf msg cause, target => decide (Error.wrapf msg cause = target) || Error.Is cause target
  | .memoryError op err, target =>
    decide (Error.memoryError op err = target) || Error.Is err target

namespace llm

/-- Interface `llm.Provider` (the method the core calls). -/
structure Provider (σ : Type) where
  Close : σ → Option Error × σ

end llm

namespace core

variable {σ F : Type} [LinearOrderedField F]

/-- Sentinel `ErrNotFound`. -/
def ErrNotFound : Error := .new "memory not found"

/-- Sentinel `ErrInvalidConfig`. -/
def ErrInvalidConfig : Error := .new "invalid configuration"

/-- Struct `DeleteAllOptions` of the core. -/
structure DeleteAllOptions where
  UserID : String
  AgentID : String

/-- Type `DeleteAllOption`. -/
abbrev DeleteAllOption := DeleteAllOptions → DeleteAllOptions

/-- Option `WithUserIDForDeleteAll`. -/
def WithUserIDForDeleteAll (userID : String) : DeleteAllOption :=
  fun opts => { opts with UserID := userID }

/-- Option `WithAgentIDForDeleteAll`. -/
def WithAgentIDForDeleteAll (agentID : String) : DeleteAllOption :=
  fun opts => { opts with AgentID := agentID }

/-- Function `applyDeleteAllOptions`. -/
def applyDeleteAllOptions (opts : List DeleteAllOption) : DeleteAllOptions :=
  opts.foldl (fun options opt => opt options) { UserID := "", AgentID := "" }

/-- Method `Client.Get` of the core. -/
def Client.Get (c : Client σ F) (id : Int) (w : World σ F) :
    (Option (Memory F) × Option Error) × World σ F :=
  match w.call (.get id) (c.storage.Get id) with
  | (.error err, w1) => ((none, NewMemoryError "Get" (some err)), w1)
  | (.ok memory, w1) => ((some (fromStorageMemory memory), none), w1)

/-- Method `Client.Update` of the core. -/
def Client.Update (c : Client σ F) (id : Int) (content : String) (w : World σ F) :
    (Option (Memory F) × Option Error) × World σ F :=
  match w.call (.embed content) (c.embedder.Embed content) with
  | (.error err, w1) => ((none, NewMemoryError "Update" (some err)), w1)
  | (.ok embedding, w1) =>
    match w1.call (.update id content embedding) (c.storage.Update id content embedding) with
    | (.error err, w2) => ((none, NewMemoryError "Update" (some err)), w2)
    | (.ok memory, w2) => ((some (fromStorageMemory memory), none), w2)

/-- Method `Client.Delete` of the core. -/
def Client.Delete (c : Client σ F) (id : Int) (w : World σ F) : Option Error × World σ F :=
  match w.call (.delete id) (c.storage.Delete id) with
  | (some err, w1) => (NewMemoryError "Delete" (some err), w1)
  | (none, w1) => (none, w1)

/-- Method `Client.DeleteAll` of the core. -/
def Client.DeleteAll (c : Client σ F) (opts : List DeleteAllOption) (w : World σ F) :
    Option Error × World σ F :=
  let deleteAllOpts := applyDeleteAllOptions opts
  let storageOpts : storage.DeleteAllOptions :=
    { UserID := deleteAllOpts.UserID, AgentID := deleteAllOpts.AgentID }
  match w.call (.deleteAll storageOpts) (c.storage.DeleteAll storageOpts) with
  | (some err, w1) => (NewMemoryError "DeleteAll" (some err), w1)
  | (none, w1) => (none, w1)

/-- The fields `storage`, `llm` and `embedder` of `core.Client` as `Close` reads them: each is a
Go interface value, `none` when it is nil. -/
structure Collaborators (σ F : Type) where
  storage : Option (storage.VectorStore σ F)
  llm : Option (llm.Provider σ)
  embedder : Option (embedder.Provider σ F)

/-- One step of `Client.Close`: closes the collaborator when it is not nil and appends its
failure, if any, to `errs`. -/
def closeOne (who : String) (close : Option (σ → Option Error × σ)) (errs : List Error)
    (w : World σ F) : List Error × World σ F :=
  match close with
  | none => (errs, w)
  | some op =>
    match w.call (.close who) op with
    | (some err, w1) => (errs ++ [err], w1)
    | (none, w1) => (errs, w1)

/-- Method `Client.Close`: closes the store, the LLM and the embedder in this order, collecting
the failures, and returns the first of them. -/
def Close (c : Collaborators σ F) (w : World σ F) : Option Error × World σ F :=
  let r1 := closeOne "storage" (c.storage.map (fun s => s.Close)) [] w
  let r2 := closeOne "llm" (c.llm.map (fun l => l.Close)) r1.1 r1.2
  let r3 := closeOne "embedder" (c.embedder.map (fun e => e.Close)) r2.1 r2.2
  if r3.1.length > 0 then (r3.1.head?, r3.2) else (none, r3.2)

/-- Method `Client.Close` on a client built by `NewClient`, whose store and embedder are set;
`llmProvider` is the client's `llm` field. -/
def Client.Close (c : Client σ F) (llmProvider : Option (llm.Provider σ)) (w : World σ F) :
    Option Error × World σ F :=
  core.Close
    ({ storage := some c.storage, llm := llmProvider, embedder := some c.embedder } :
      Collaborators σ F) w

end core

namespace core

variable {F : Type} [LinearOrderedField F]

/-- A value held in a Go `map[string]interface{}`, by its dynamic type: a `string`, an `int`, or
a value of any other type (a `float64`, which is what JSON decoding gives for a number, a
`bool`, ...). -/
inductive ConfigValue where
  | str (s : String)
  | int (n : Int)
  | other (goType : String)
  deriving DecidableEq, Repr

/-- Struct `LLMConfig` (the fields read by `NewClient`). -/
structure LLMConfig where
  Provider : String
  APIKey : String
  Model : String
  BaseURL : String
  deriving DecidableEq, Repr

/-- Struct `EmbedderConfig` (the fields read by `NewClient`). -/
structure EmbedderConfig where
  Provider : String
  APIKey : String
  Model : String
  BaseURL : String
  Dimensions : Int
  deriving DecidableEq, Repr

/-- Struct `VectorStoreConfig`. -/
structure VectorStoreConfig where
  Provider : String
  Config : List (String × ConfigValue)
  deriving DecidableEq, Repr

/-- Struct `Config` (the fields read by `Validate` and `NewClient`); `Intelligence` is a
pointer, `none` when nil. -/
structure Config (F : Type) where
  LLM : LLMConfig
  Embedder : EmbedderConfig
  VectorStore : VectorStoreConfig
  Intelligence : Option (IntelligenceConfig F)

/-- Method `Config.Validate`. -/
def Config.Validate (c : Config F) : Option Error :=
  if c.LLM.Provider = "" then NewMemoryError "Validate" (some ErrInvalidConfig)
  else if c.Embedder.Provider = "" then NewMemoryError "Validate" (some ErrInvalidConfig)
  else if c.VectorStore.Provider = "" then NewMemoryError "Validate" (some ErrInvalidConfig)
  else none

/-- The way a Go call ends: it returns a value, or it panics. -/
inductive Outcome (α : Type) where
  | returned (value : α)
  | panicked (reason : String)
  deriving DecidableEq, Repr

/-- Sequencing of Go evaluations: a panic in the first one ends the whole evaluation. -/
def Outcome.bind {α β : Type} (x : Outcome α) (f : α → Outcome β) : Outcome β :=
  match x with
  | .returned a => f a
  | .panicked reason => .panicked reason

/-- Go `config[key].(string)`: the single-value type assertion panics when the key is missing
(the map yields a nil interface) and when the value is not a `string`. -/
def assertString (config : List (String × ConfigValue)) (key : String) : Outcome String :=
  match config.lookup key with
  | some (.str s) => .returned s
  | some (.int _) => .panicked ("interface conversion: interface \x7b\x7d is int, not string")
  | some (.other t) =>
    .panicked ("interface conversion: interface \x7b\x7d is " ++ t ++ ", not string")
  | none => .panicked ("interface conversion: interface \x7b\x7d is nil, not string")

/-- Go `config[key].(int)`: panics when the key is missing and when the value is not an `int`. -/
def assertInt (config : List (String × ConfigValue)) (key : String) : Outcome Int :=
  match config.lookup key with
  | some (.int n) => .returned n
  | some (.str _) => .panicked ("interface conversion: interface \x7b\x7d is string, not int")
  | some (.other t) =>
    .panicked ("interface conversion: interface \x7b\x7d is " ++ t ++ ", not int")
  | none => .panicked ("interface conversion: interface \x7b\x7d is nil, not int")

/-- Go `s, ok := config[key].(string)`: the comma-ok form never panics. -/
def assertStringOk (config : List (String × ConfigValue)) (key : String) : Option String :=
  match config.lookup key with
  | some (.str s) => some s
  | _ => none

/-- A call of a collaborator constructor (`NewClient` of a storage, LLM or embedder package) with
the configuration it is given. -/
inductive Constructor where
  | oceanbase (Host : String) (Port : Int) (User Password DBName CollectionName : String)
      (EmbeddingModelDims : Int)
  | sqlite (DBPath CollectionName : String) (EmbeddingModelDims : Int)
  | postgres (Host : String) (Port : Int) (User Password DBName CollectionName : String)
      (EmbeddingModelDims : Int) (SSLMode : String)
  | llm (pkg APIKey Model BaseURL : String)
  | embedder (pkg APIKey Model BaseURL : String) (Dimensions : Int)
  deriving DecidableEq, Repr

/-- Runs a collaborator constructor: the call is recorded in `log`, and `construct` tells
whether it fails.  A collaborator is identified by the constructor call that made it. -/
def runConstructor (construct : Constructor → Option Error) (call : Constructor)
    (log : List Constructor) : Outcome (Except Error Constructor) × List Constructor :=
  match construct call with
  | some err => (.returned (.error err), log ++ [call])
  | none => (.returned (.ok call), log ++ [call])

/-- Evaluation of the configuration literal that `initStorage` passes to the store's
constructor, field by field in source order. -/
def storageConstructor (cfg : VectorStoreConfig) : Option (Outcome Constructor) :=
  if cfg.Provider = "oceanbase" then
    some
      ((assertString cfg.Config "host").bind fun host =>
        (assertInt cfg.Config "port").bind fun port =>
        (assertString cfg.Config "user").bind fun user =>
        (assertString cfg.Config "password").bind fun password =>
        (assertString cfg.Config "db_name").bind fun dbName =>
        (assertString cfg.Config "collection_name").bind fun collectionName =>
        (assertInt cfg.Config "embedding_model_dims").bind fun dims =>
        .returned (.oceanbase host port user password dbName collectionName dims))
  else if cfg.Provider = "sqlite" then
    some
      ((assertString cfg.Config "db_path").bind fun dbPath =>
        (assertString cfg.Config "collection_name").bind fun collectionName =>
        (assertInt cfg.Config "embedding_model_dims").bind fun dims =>
        .returned (.sqlite dbPath collectionName dims))
  else if cfg.Provider = "postgres" then
    let sslMode :=
      match assertStringOk cfg.Config "ssl_mode" with
      | some s => s
      | none => "disable"
    some
      ((assertString cfg.Config "host").bind fun host =>
        (assertInt cfg.Config "port").bind fun port =>
        (assertString cfg.Config "user").bind fun user =>
        (assertString cfg.Config "password").bind fun password =>
        (assertString cfg.Config "db_name").bind fun dbName =>
        (assertString cfg.Config "collection_name").bind fun collectionName =>
        (assertInt cfg.Config "embedding_model_dims").bind fun dims =>
        .returned (.postgres host port user password dbName collectionName dims sslMode))
  else none

/-- Function `initStorage`: the `switch` on the provider name; the `default` branch is the one
that reports `ErrInvalidConfig`. -/
def initStorage (construct : Constructor → Option Error) (cfg : VectorStoreConfig)
    (log : List Constructor) : Outcome (Except Error Constructor) × List Constructor :=
  match storageConstructor cfg with
  | some (.returned call) => runConstructor construct call log
  | some (.panicked reason) => (.panicked reason, log)
  | none =>
    (.returned (.error (.memoryError "initStorage" ErrInvalidConfig)), log)

/-- Function `initLLM`. -/
def initLLM (construct : Constructor → Option Error) (cfg : LLMConfig)
    (log : List Constructor) : Outcome (Except Error Constructor) × List Constructor :=
  if cfg.Provider = "openai" ∨ cfg.Provider = "qwen" ∨ cfg.Provider = "deepseek" ∨
      cfg.Provider = "ollama" ∨ cfg.Provider = "anthropic" then
    runConstructor construct (.llm cfg.Provider cfg.APIKey cfg.Model cfg.BaseURL) log
  else (.returned (.error (.memoryError "initLLM" ErrInvalidConfig)), log)

/-- Function `initEmbedder`. -/
def initEmbedder (construct : Constructor → Option Error) (cfg : EmbedderConfig)
    (log : List Constructor) : Outcome (Except Error Constructor) × List Constructor :=
  if cfg.Provider = "openai" ∨ cfg.Provider = "qwen" then
    runConstructor construct
      (.embedder cfg.Provider cfg.APIKey cfg.Model cfg.BaseURL cfg.Dimensions) log
  else (.returned (.error (.memoryError "initEmbedder" ErrInvalidConfig)), log)

/-- The client that `NewClient` returns: its collaborators, each identified by the constructor
call that made it, and the managers set when intelligence is configured and enabled. -/
structure NewClientResult (F : Type) where
  storage : Constructor
  llm : Constructor
  embedder : Constructor
  dedupThreshold : Option F
  ebbinghausManager : Option (intelligence.EbbinghausManager F)

/-- Function `NewClient`: validates the configuration, then builds the store, the LLM and the
embedder in this order, stopping at the first failure (`snowflake.NewNode(1)` does not fail:
node 1 is within the generator's range).  `log` records the constructors invoked. -/
def NewClient (construct : Constructor → Option Error) (cfg : Config F)
    (log : List Constructor) : Outcome (Except Error (NewClientResult F)) × List Constructor :=
  match cfg.Validate with
  | some err => (.returned (.error err), log)
  | none =>
    match initStorage construct cfg.VectorStore log with
    | (.panicked reason, log1) => (.panicked reason, log1)
    | (.returned (.error err), log1) => (.returned (.error err), log1)
    | (.returned (.ok store), log1) =>
      match initLLM construct cfg.LLM log1 with
      | (.panicked reason, log2) => (.panicked reason, log2)
      | (.returned (.error err), log2) => (.returned (.error err), log2)
      | (.returned (.ok llmProvider), log2) =>
        match initEmbedder construct cfg.Embedder log2 with
        | (.panicked reason, log3) => (.panicked reason, log3)
        | (.returned (.error err), log3) => (.returned (.error err), log3)
        | (.returned (.ok embedderProvider), log3) =>
          let enabled :=
            match cfg.Intelligence with
            | some i => i.Enabled
            | none => false
          (.returned (.ok
            { storage := store, llm := llmProvider, embedder := embedderProvider,
              dedupThreshold :=
                if enabled then cfg.Intelligence.map (fun i => i.DuplicateThreshold) else none,
              ebbinghausManager :=
                if enabled then
                  cfg.Intelligence.map
                    (fun i => intelligence.NewEbbinghausManager i.DecayRate i.ReinforcementFactor)
                else none }), log3)

end core

namespace Examples

/-- A configuration naming supported providers, with the SQLite store configured by `config`. -/
def sqliteConfig (llmProvider : String) (config : List (String × core.ConfigValue)) :
    core.Config ℚ :=
  { LLM := { Provider := llmProvider, APIKey := "k", Model := "m", BaseURL := "" },
    Embedder := { Provider := "openai", APIKey := "k", Model := "e", BaseURL := "",
                  Dimensions := 3 },
    VectorStore := { Provider := "sqlite", Config := config },
    Intelligence := none }

/-- A complete SQLite store configuration. -/
def sqliteKeys : List (String × core.ConfigValue) :=
  [("db_path", .str "mem.db"), ("collection_name", .str "memories"),
   ("embedding_model_dims", .int 3)]

/-- The same configuration as JSON decoding delivers it: the number is a `float64`. -/
def sqliteKeysFromJSON : List (String × core.ConfigValue) :=
  [("db_path", .str "mem.db"), ("collection_name", .str "memories"),
   ("embedding_model_dims", .other "float64")]

end Examples

namespace binary64

/-- Rounding of a rational to the nearest integer, a tie going to the even neighbour. -/
def nearestEven (x : ℚ) : ℤ :=
  if x - ⌊x⌋ < 1 / 2 then ⌊x⌋
  else if 1 / 2 < x - ⌊x⌋ then ⌊x⌋ + 1
  else if ⌊x⌋ % 2 = 0 then ⌊x⌋ else ⌊x⌋ + 1

/-- Rounding of a positive rational to 53 significant bits, to nearest, ties to even: the
rational is scaled by a power of two into `[2^52, 2^53)` and rounded to an integer there. -/
def roundPos (q : ℚ) : ℚ :=
  (nearestEven (q / 2 ^ (Int.log 2 q - 52)) : ℚ) * 2 ^ (Int.log 2 q - 52)

/-- The rounding that every `float64` operation of Go applies to its exact result (IEEE 754
binary64, round to nearest, ties to even).  The exponent range is not limited: overflow to
infinity and the subnormal numbers are left out. -/
def round (q : ℚ) : ℚ :=
  if q = 0 then 0 else if 0 < q then roundPos q else -roundPos (-q)

/-- Go `math.Sqrt` on a `float64`: the square root rounded to 53 significant bits (0 for a
non-positive argument, where Go gives 0 or NaN). -/
def sqrt (q : ℚ) : ℚ :=
  if q ≤ 0 then 0
  else
    let k : ℤ := Int.log 2 q / 2 - 52
    let t : ℚ := q / 4 ^ k
    let m0 : ℕ := Nat.sqrt ⌊t⌋₊
    let m : ℕ := if ((m0 : ℚ) + 1 / 2) ^ 2 < t then m0 + 1 else m0
    (m : ℚ) * 2 ^ k

/-- Go `math.Exp` as far as its underflow goes: below the constant `Underflow` of `math/exp.go`
the result is 0, and elsewhere it is the value of `exp`. -/
def exp {F : Type} [LinearOrderedField F] (exp : F → F) (x : F) : F :=
  if x < -745.13321910194110842 then 0 else exp x

end binary64

namespace rounded

variable {F : Type} [LinearOrderedField F]

/-- Method `EbbinghausManager.Reinforce` of `intelligence/ebbinghaus.go` with the rounding of
`float64` made explicit: `fl` is applied to the exact result of each arithmetic operation
(`fl = id` is exact arithmetic, `fl = binary64.round` is `float64`). -/
def Reinforce (fl : F → F) (m : intelligence.EbbinghausManager F) (currentStrength : F) : F :=
  let newStrength :=
    fl (currentStrength + fl (m.reinforcementFactor * fl (1.0 - currentStrength)))
  if newStrength > 1.0 then 1.0 else newStrength

/-- The loop `for ... { acc += term }` from `acc = 0`, each addition rounded. -/
def accumulate (fl : F → F) (terms : List F) : F :=
  terms.foldl (fun acc term => fl (acc + term)) 0

/-- Function `CosineSimilarity` of `intelligence/dedup.go` with the rounding of `float64` made
explicit: `fl` is applied to the exact result of each multiplication, addition and division,
and `sqrt` is `math.Sqrt`.  Each product is rounded before it is added, as the compiler does on
amd64 (no fused multiply-add). -/
def CosineSimilarity (fl sqrt : F → F) (a b : List F) : F :=
  if a.length ≠ b.length then 0
  else
    let dotProduct := accumulate fl ((a.zip b).map (fun p => fl (p.1 * p.2)))
    let normA := accumulate fl (a.map (fun x => fl (x * x)))
    let normB := accumulate fl (b.map (fun x => fl (x * x)))
    if normA = 0 ∨ normB = 0 then 0
    else fl (dotProduct / fl (sqrt normA * sqrt normB))

end rounded


namespace Examples

/-- A client over `fixedStore threeResults` with a dedup manager at threshold 0.95, an embedder
that answers every text with the empty vector and an ID generator that always hands out 1. -/
def fixedClient : core.Client Unit ℚ :=
  { storage := fixedStore threeResults,
    embedder := { Embed := fun _ s => (.ok [], s), Close := fun s => (none, s) },
    dedupManager := some (intelligence.NewDedupManager (fixedStore threeResults) (95 / 100)),
    snowflakeNode := fun s => (1, s) }

end Examples

section Helpers

variable {σ F : Type} [LinearOrderedField F]

theorem firstDuplicate_true_iff (t : F) (ms : List (storage.Memory F)) :
    (intelligence.firstDuplicate t ms).1 = true ↔ ∃ x ∈ ms, x.Score ≥ t := by
  induction ms with
  | nil => simp [intelligence.firstDuplicate]
  | cons a rest ih =>
    by_cases h : a.Score ≥ t
    · simp only [intelligence.firstDuplicate, if_pos h, List.mem_cons, true_iff]
      exact ⟨a, Or.inl rfl, h⟩
    · simp only [intelligence.firstDuplicate, if_neg h, ih, List.mem_cons]
      constructor
      · rintro ⟨x, hx, hs⟩
        exact ⟨x, Or.inr hx, hs⟩
      · rintro ⟨x, hx | hx, hs⟩
        · exact absurd (hx ▸ hs) h
        · exact ⟨x, hx, hs⟩

theorem firstDuplicate_first (t : F) (ms : List (storage.Memory F))
    (h : (intelligence.firstDuplicate t ms).1 = true) :
    ∃ pre x post, ms = pre ++ x :: post ∧ (∀ y ∈ pre, y.Score < t) ∧ x.Score ≥ t ∧
      (intelligence.firstDuplicate t ms).2 = x.ID := by
  induction ms with
  | nil => simp [intelligence.firstDuplicate] at h
  | cons a rest ih =>
    by_cases ha : a.Score ≥ t
    · refine ⟨[], a, rest, rfl, by simp, ha, ?_⟩
      simp [intelligence.firstDuplicate, if_pos ha]
    · simp only [intelligence.firstDuplicate, if_neg ha] at h ⊢
      obtain ⟨pre, x, post, hms, hpre, hx, hid⟩ := ih h
      refine ⟨a :: pre, x, post, by simp [hms], ?_, hx, hid⟩
      intro y hy
      rcases List.mem_cons.1 hy with rfl | hy
      · exact lt_of_not_ge ha
      · exact hpre y hy

theorem firstDuplicate_none (t : F) (ms : List (storage.Memory F))
    (h : ∀ x ∈ ms, x.Score < t) : intelligence.firstDuplicate t ms = (false, 0) := by
  induction ms with
  | nil => rfl
  | cons a rest ih =>
    have ha : ¬ a.Score ≥ t := not_le.2 (h a (List.mem_cons_self _ _))
    simp only [intelligence.firstDuplicate, if_neg ha]
    exact ih (fun x hx => h x (List.mem_cons_of_mem _ hx))

end Helpers

/-- C2: over the list `ms` that the store's search returns, `CheckDuplicate` of a manager built
by `NewDedupManager` (threshold `t`: the configured value, or 0.95 for a configured 0) reports
no error, answers `true` exactly when some result has score at least `t`, then returns the ID of
the first such result in the store's order, and answers `(false, 0)` when no result reaches `t`
(in particular on the empty list). -/
theorem C2_check_duplicate_first_above_threshold {σ F : Type} [LinearOrderedField F]
    (store : storage.VectorStore σ F) (configured : F) (embedding : List F)
    (userID agentID : String) (w : World σ F) (ms : List (storage.Memory F))
    (hsearch : (store.Search embedding
      { UserID := userID, AgentID := agentID, Limit := 5, MinScore := 0, Filters := [] }
      w.env).1 = .ok ms) :
    let t : F := if configured = 0 then 0.95 else configured
    let r := ((intelligence.NewDedupManager store configured).CheckDuplicate
      embedding userID agentID w).1
    r.2.2 = none ∧
    (r.1 = true ↔ ∃ x ∈ ms, x.Score ≥ t) ∧
    (r.1 = true → ∃ pre x post, ms = pre ++ x :: post ∧ (∀ y ∈ pre, y.Score < t) ∧
      x.Score ≥ t ∧ r.2.1 = x.ID) ∧
    ((∀ x ∈ ms, x.Score < t) → r.1 = false ∧ r.2.1 = 0) := by
  intro t r
  have hr : r = ((intelligence.firstDuplicate t ms).1, (intelligence.firstDuplicate t ms).2,
      none) := by
    simp only [r, intelligence.DedupManager.CheckDuplicate, World.call,
      intelligence.NewDedupManager]
    split
    · next err w1 heq =>
      simp only [Prod.mk.injEq] at heq
      rw [hsearch] at heq
      exact absurd heq.1 (by simp)
    · next memories w1 heq =>
      simp only [Prod.mk.injEq] at heq
      rw [hsearch] at heq
      have : ms = memories := by simpa using heq.1
      subst this
      rfl
  rw [hr]
  refine ⟨rfl, firstDuplicate_true_iff t ms, firstDuplicate_first t ms, ?_⟩
  intro h
  rw [firstDuplicate_none t ms h]
  exact ⟨rfl, rfl⟩

section SortHelpers

variable {F : Type} [LinearOrderedField F]

theorem bubblePass_perm (k : Nat) (l : List (storage.Memory F)) :
    (sqlite.bubblePass k l).Perm l := by
  induction k generalizing l with
  | zero => cases l <;> simp [sqlite.bubblePass]
  | succ k ih =>
    match l with
    | [] => simp [sqlite.bubblePass]
    | [x] => simp [sqlite.bubblePass]
    | x :: y :: rest =>
      simp only [sqlite.bubblePass]
      split
      · exact ((ih (x :: rest)).cons y).trans (List.Perm.swap x y rest)
      · exact (ih (y :: rest)).cons x

theorem bubblePass_append (k : Nat) (p s : List (storage.Memory F)) (h : k < p.length) :
    sqlite.bubblePass k (p ++ s) = sqlite.bubblePass k p ++ s := by
  induction k generalizing p with
  | zero => cases p <;> simp [sqlite.bubblePass]
  | succ k ih =>
    match p, h with
    | [x], h => simp at h
    | x :: y :: rest, h =>
      rw [List.cons_append, List.cons_append]
      simp only [sqlite.bubblePass]
      have h1 : k < (x :: rest).length := by simp at h ⊢; omega
      have h2 : k < (y :: rest).length := by simp at h ⊢; omega
      have e1 := ih (x :: rest) h1
      have e2 := ih (y :: rest) h2
      simp only [List.cons_append] at e1 e2
      split
      · rw [e1]; rfl
      · rw [e2]; rfl

theorem bubblePass_last (k : Nat) (l : List (storage.Memory F)) (h : l.length = k + 1) :
    ∃ q m, sqlite.bubblePass k l = q ++ [m] ∧ ∀ a ∈ l, m.Score ≤ a.Score := by
  induction k generalizing l with
  | zero =>
    match l, h with
    | [x], _ => exact ⟨[], x, by simp [sqlite.bubblePass], by simp⟩
  | succ k ih =>
    match l, h with
    | x :: y :: rest, h =>
      simp only [sqlite.bubblePass]
      have hx : (x :: rest).length = k + 1 := by simp at h ⊢; omega
      have hy : (y :: rest).length = k + 1 := by simp at h ⊢; omega
      split
      · next hlt =>
        obtain ⟨q, m, hq, hm⟩ := ih (x :: rest) hx
        refine ⟨y :: q, m, by simp [hq], ?_⟩
        intro a ha
        have hmx : m.Score ≤ x.Score := hm x (List.mem_cons_self _ _)
        rcases List.mem_cons.1 ha with rfl | ha
        · exact hmx
        · rcases List.mem_cons.1 ha with rfl | ha
          · exact le_trans hmx (le_of_lt hlt)
          · exact hm a (List.mem_cons_of_mem _ ha)
      · next hnlt =>
        obtain ⟨q, m, hq, hm⟩ := ih (y :: rest) hy
        refine ⟨x :: q, m, by simp [hq], ?_⟩
        intro a ha
        have hmy : m.Score ≤ y.Score := hm y (List.mem_cons_self _ _)
        rcases List.mem_cons.1 ha with rfl | ha
        · exact le_trans hmy (not_lt.1 hnlt)
        · exact hm a ha

/-- State of the outer loop of `sortByScore` after `j` rounds: an unsorted front of `n - j`
records followed by the `j` lowest records in descending order. -/
theorem bubble_rounds (n : Nat) (ms : List (storage.Memory F)) (hn : ms.length = n) (j : Nat)
    (hj : j ≤ n - 1) :
    ∃ p s, (List.range j).foldl (fun l i => sqlite.bubblePass (n - i - 1) l) ms = p ++ s ∧
      s.length = j ∧ (p ++ s).Perm ms ∧ s.Pairwise (fun a b => b.Score ≤ a.Score) ∧
      ∀ a ∈ p, ∀ b ∈ s, b.Score ≤ a.Score := by
  induction j with
  | zero => exact ⟨ms, [], by simp, rfl, by simp, List.Pairwise.nil, by simp⟩
  | succ j ih =>
    obtain ⟨p, s, hfold, hlen, hperm, hsorted, hle⟩ := ih (by omega)
    have hplen : p.length = (n - j - 1) + 1 := by
      have := hperm.length_eq
      simp only [List.length_append] at this
      omega
    obtain ⟨q, m, hq, hm⟩ := bubblePass_last (n - j - 1) p hplen
    have hqp : (q ++ [m]).Perm p := hq ▸ bubblePass_perm (n - j - 1) p
    refine ⟨q, m :: s, ?_, by simp [hlen], ?_, ?_, ?_⟩
    · rw [List.range_succ, List.foldl_append, hfold]
      simp only [List.foldl_cons, List.foldl_nil]
      rw [bubblePass_append _ _ _ (by omega), hq]
      simp
    · have : (q ++ m :: s) = (q ++ [m]) ++ s := by simp
      rw [this]
      exact (hqp.append_right s).trans hperm
    · refine List.Pairwise.cons ?_ hsorted
      intro b hb
      exact hle m (hqp.subset (by simp)) b hb
    · intro a ha b hb
      have hap : a ∈ p := hqp.subset (by simp [ha])
      rcases List.mem_cons.1 hb with rfl | hb
      · exact hm a hap
      · exact hle a hap b hb

theorem bubbleSort_perm (ms : List (storage.Memory F)) : (sqlite.bubbleSort ms).Perm ms := by
  obtain ⟨p, s, hfold, _, hperm, _, _⟩ := bubble_rounds ms.length ms rfl (ms.length - 1) le_rfl
  unfold sqlite.bubbleSort
  rw [hfold]
  exact hperm

theorem bubbleSort_sorted (ms : List (storage.Memory F)) :
    (sqlite.bubbleSort ms).Pairwise (fun a b => b.Score ≤ a.Score) := by
  obtain ⟨p, s, hfold, hlen, hperm, hsorted, hle⟩ :=
    bubble_rounds ms.length ms rfl (ms.length - 1) le_rfl
  unfold sqlite.bubbleSort
  rw [hfold]
  have hp : p.length ≤ 1 := by
    have := hperm.length_eq
    simp only [List.length_append] at this
    omega
  rw [List.pairwise_append]
  refine ⟨?_, hsorted, hle⟩
  match p, hp with
  | [], _ => exact List.Pairwise.nil
  | [x], _ => exact List.pairwise_singleton _ _

theorem sortByScore_eq (ms : List (storage.Memory F)) (limit : Int) :
    sqlite.sortByScore ms limit =
      if 0 < limit then (sqlite.bubbleSort ms).take limit.toNat else sqlite.bubbleSort ms := by
  unfold sqlite.sortByScore
  by_cases h : 0 < limit
  · by_cases h2 : ((sqlite.bubbleSort ms).length : Int) > limit
    · simp [h, h2]
    · simp only [h, h2, and_false, if_false, if_true]
      rw [List.take_of_length_le]
      omega
  · simp [h]

end SortHelpers

section TraceHelpers

variable {σ F : Type} [LinearOrderedField F]

theorem checkDuplicate_log (dm : intelligence.DedupManager σ F) (e : List F) (u a : String)
    (w : World σ F) :
    (dm.CheckDuplicate e u a w).2.log = w.log ++ [.search e
      { UserID := u, AgentID := a, Limit := 5, MinScore := 0, Filters := [] }] := by
  simp only [intelligence.DedupManager.CheckDuplicate, World.call]
  split <;> next heq => simp only [Prod.mk.injEq] at heq; rw [← heq.2]

theorem checkDuplicate_env (dm : intelligence.DedupManager σ F) (e : List F) (u a : String)
    (w : World σ F) :
    (dm.CheckDuplicate e u a w).2.env = (dm.store.Search e
      { UserID := u, AgentID := a, Limit := 5, MinScore := 0, Filters := [] } w.env).2 := by
  simp only [intelligence.DedupManager.CheckDuplicate, World.call]
  split <;> next heq => simp only [Prod.mk.injEq] at heq; rw [← heq.2]

theorem mergeMemories_log_grows (sqrt : F → F) (dm : intelligence.DedupManager σ F) (id : Int)
    (content : String) (e : List F) (w : World σ F) :
    ∃ l, (dm.MergeMemories sqrt id content e w).2.log = w.log ++ l ∧
      l.filter Call.isInsert = [] ∧ l.filter Call.isGenerate = [] := by
  cases hget : (dm.store.Get id w.env).1 with
  | error err =>
    simp only [intelligence.DedupManager.MergeMemories, World.call, hget]
    exact ⟨[Call.get id], rfl, by simp [Call.isInsert], by simp [Call.isGenerate]⟩
  | ok existing =>
    cases hupd : (dm.store.Update id (existing.Content ++ " " ++ content)
        (intelligence.averageEmbeddings sqrt existing.Embedding e) (dm.store.Get id w.env).2).1 with
    | error err =>
      simp only [intelligence.DedupManager.MergeMemories, World.call, hget, hupd]
      exact ⟨[Call.get id, Call.update id (existing.Content ++ " " ++ content)
        (intelligence.averageEmbeddings sqrt existing.Embedding e)], by simp,
        by simp [Call.isInsert], by simp [Call.isGenerate]⟩
    | ok updated =>
      simp only [intelligence.DedupManager.MergeMemories, World.call, hget, hupd]
      exact ⟨[Call.get id, Call.update id (existing.Content ++ " " ++ content)
        (intelligence.averageEmbeddings sqrt existing.Embedding e)], by simp,
        by simp [Call.isInsert], by simp [Call.isGenerate]⟩

theorem addInsert_ok (c : core.Client σ F) (addOpts : core.AddOptions) (content : String)
    (embedding : List F) (w : World σ F) (mem : core.Memory F)
    (h : (c.addInsert addOpts content embedding w).1 = (some mem, none)) :
    (c.addInsert addOpts content embedding w).2.log
      = w.log ++ [.generate, .insert (core.toStorageMemory mem)] ∧
    mem = { ID := (c.snowflakeNode w.env).1, UserID := addOpts.UserID,
            AgentID := addOpts.AgentID, Content := content, Embedding := embedding,
            SparseEmbedding := [], Metadata := addOpts.Metadata, CreatedAt := 0, UpdatedAt := 0,
            RetentionStrength := 1.0, LastAccessedAt := none, Score := 0 } := by
  cases hins : (c.storage.Insert (core.toStorageMemory
      { ID := (c.snowflakeNode w.env).1, UserID := addOpts.UserID,
        AgentID := addOpts.AgentID, Content := content, Embedding := embedding,
        SparseEmbedding := [], Metadata := addOpts.Metadata, CreatedAt := 0, UpdatedAt := 0,
        RetentionStrength := 1.0, LastAccessedAt := none, Score := 0 })
      (c.snowflakeNode w.env).2).1 with
  | some err =>
    simp only [core.Client.addInsert, World.call, hins, core.NewMemoryError] at h
    simp at h
  | none =>
    simp only [core.Client.addInsert, World.call, hins] at h ⊢
    simp only [Prod.mk.injEq, Option.some.injEq, and_true] at h
    subst h
    simp

theorem mergeMemories_env (sqrt : F → F) (dm : intelligence.DedupManager σ F) (id : Int)
    (c : String) (v : List F) (w : World σ F) (e updated : storage.Memory F)
    (hget : (dm.store.Get id w.env).1 = .ok e)
    (hupd : (dm.store.Update id (e.Content ++ " " ++ c)
      (intelligence.averageEmbeddings sqrt e.Embedding v) (dm.store.Get id w.env).2).1
        = .ok updated) :
    (dm.MergeMemories sqrt id c v w).2.env = (dm.store.Update id (e.Content ++ " " ++ c)
      (intelligence.averageEmbeddings sqrt e.Embedding v) (dm.store.Get id w.env).2).2 := by
  simp only [intelligence.DedupManager.MergeMemories, World.call, hget, hupd]

end TraceHelpers

section MergeShape

variable {σ F : Type} [LinearOrderedField F]

/-- A successful `MergeMemories` has read the record with `Get`, has written the merged content
and embedding with one `Update`, leaves the state that this `Update` left, and returns the
record that this `Update` returned. -/
theorem mergeMemories_ok (sqrt : F → F) (dm : intelligence.DedupManager σ F) (id : Int)
    (content : String) (emb : List F) (w : World σ F) (merged : intelligence.Memory F)
    (h : (dm.MergeMemories sqrt id content emb w).1 = .ok merged) :
    ∃ existing updated, (dm.store.Get id w.env).1 = .ok existing ∧
      (dm.store.Update id (existing.Content ++ " " ++ content)
        (intelligence.averageEmbeddings sqrt existing.Embedding emb)
        (dm.store.Get id w.env).2).1 = .ok updated ∧
      (dm.MergeMemories sqrt id content emb w).2 =
        { env := (dm.store.Update id (existing.Content ++ " " ++ content)
            (intelligence.averageEmbeddings sqrt existing.Embedding emb)
            (dm.store.Get id w.env).2).2,
          log := w.log ++ [.get id, .update id (existing.Content ++ " " ++ content)
            (intelligence.averageEmbeddings sqrt existing.Embedding emb)] } ∧
      merged =
        { ID := updated.ID, UserID := updated.UserID, AgentID := updated.AgentID,
          Content := updated.Content, Embedding := updated.Embedding,
          Metadata := updated.Metadata, CreatedAt := updated.CreatedAt,
          UpdatedAt := updated.UpdatedAt, RetentionStrength := updated.RetentionStrength,
          LastAccessedAt := updated.LastAccessedAt, Score := updated.Score } := by
  cases hget : (dm.store.Get id w.env).1 with
  | error err =>
    simp only [intelligence.DedupManager.MergeMemories, World.call, hget] at h
    simp at h
  | ok existing =>
    cases hupd : (dm.store.Update id (existing.Content ++ " " ++ content)
        (intelligence.averageEmbeddings sqrt existing.Embedding emb)
        (dm.store.Get id w.env).2).1 with
    | error err =>
      simp only [intelligence.DedupManager.MergeMemories, World.call, hget, hupd] at h
      simp at h
    | ok updated =>
      refine ⟨existing, updated, rfl, hupd, ?_, ?_⟩
      · simp only [intelligence.DedupManager.MergeMemories, World.call, hget, hupd]
        simp
      · simp only [intelligence.DedupManager.MergeMemories, World.call, hget, hupd] at h
        exact (Except.ok.inj h).symm

end MergeShape

/-- C1: a successful `Add` either merges or inserts, and it merges exactly when `infer` is set,
a dedup manager is configured and `CheckDuplicate` reports a duplicate. In the merge case the
calls made are the embedding, the duplicate search, `Get` of the matched id and one `Update` of
that id with the merged content and embedding (no `Insert`, no ID generation), the state left
is the one that this `Update` left, and the result is the record that `MergeMemories` returned,
built from the record the `Update` returned. In every other successful case the calls contain
exactly one ID generation and exactly one `Insert`, of the returned record, which carries the
generated ID, the given content, user_id, agent_id and metadata, the embedder's embedding and
`retention_strength = 1.0`. -/
theorem C1_add_merges_iff_duplicate_else_inserts {σ F : Type} [LinearOrderedField F]
    (sqrt : F → F) (c : core.Client σ F) (content : String) (opts : List core.AddOption)
    (w : World σ F) (mem : core.Memory F)
    (hok : (c.Add sqrt none content opts w).1 = (some mem, none)) :
    let addOpts := core.applyAddOptions opts
    let w1 := (w.call (.embed content) (c.embedder.Embed content)).2
    let calls := (c.Add sqrt none content opts w).2.log.drop w.log.length
    ∃ embedding, (c.embedder.Embed content w.env).1 = .ok embedding ∧
      let dup : Prop := addOpts.Infer = true ∧ ∃ dm, c.dedupManager = some dm ∧
        (dm.CheckDuplicate embedding addOpts.UserID addOpts.AgentID w1).1.1 = true
      let wpre : World σ F :=
        match addOpts.Infer, c.dedupManager with
        | true, some dm => (dm.CheckDuplicate embedding addOpts.UserID addOpts.AgentID w1).2
        | _, _ => w1
      (calls.filter Call.isInsert = [] ↔ dup) ∧
      (dup → (∃ dm id merged, c.dedupManager = some dm ∧
          (dm.CheckDuplicate embedding addOpts.UserID addOpts.AgentID w1).1 = (true, id, none) ∧
          (dm.MergeMemories sqrt id content embedding wpre).1 = .ok merged ∧
          mem = core.fromIntelligenceMemory merged ∧
          (c.Add sqrt none content opts w).2
            = (dm.MergeMemories sqrt id content embedding wpre).2 ∧
          ∃ existing updated, (dm.store.Get id wpre.env).1 = .ok existing ∧
            (dm.store.Update id (existing.Content ++ " " ++ content)
              (intelligence.averageEmbeddings sqrt existing.Embedding embedding)
              (dm.store.Get id wpre.env).2).1 = .ok updated ∧
            calls = [.embed content,
              .search embedding
                { UserID := addOpts.UserID, AgentID := addOpts.AgentID, Limit := 5,
                  MinScore := 0, Filters := [] },
              .get id,
              .update id (existing.Content ++ " " ++ content)
                (intelligence.averageEmbeddings sqrt existing.Embedding embedding)] ∧
            (c.Add sqrt none content opts w).2.env
              = (dm.store.Update id (existing.Content ++ " " ++ content)
                  (intelligence.averageEmbeddings sqrt existing.Embedding embedding)
                  (dm.store.Get id wpre.env).2).2 ∧
            mem.ID = updated.ID ∧ mem.Content = updated.Content ∧
            mem.Embedding = updated.Embedding) ∧
        calls.filter Call.isInsert = [] ∧ calls.filter Call.isGenerate = []) ∧
      (¬ dup →
        calls.filter Call.isInsert = [.insert (core.toStorageMemory mem)] ∧
        calls.filter Call.isGenerate = [.generate] ∧
        mem.ID = (c.snowflakeNode wpre.env).1 ∧ mem.Content = content ∧
        mem.UserID = addOpts.UserID ∧ mem.AgentID = addOpts.AgentID ∧
        mem.Metadata = addOpts.Metadata ∧ mem.Embedding = embedding ∧
        mem.RetentionStrength = 1.0) := by
  intro addOpts w1 calls
  cases hemb : (c.embedder.Embed content w.env).1 with
  | error err =>
    exfalso
    simp only [core.Client.Add, World.call, hemb, core.NewMemoryError] at hok
    simp at hok
  | ok embedding =>
    refine ⟨embedding, rfl, ?_⟩
    intro dup wpre
    have hlen : ∀ l : List (Call F), (w.log ++ l).drop w.log.length = l := by
      intro l; simp
    have hw1log : w1.log = w.log ++ [.embed content] := rfl
    -- the two outcomes, each settling the three parts of the statement
    have insertCase : ∀ (w2 : World σ F) (l2 : List (Call F)), ¬ dup → wpre = w2 →
        w2.log = w.log ++ l2 → l2.filter Call.isInsert = [] → l2.filter Call.isGenerate = [] →
        c.Add sqrt none content opts w = c.addInsert addOpts content embedding w2 →
        (calls.filter Call.isInsert = [] ↔ dup) ∧
        (dup → (∃ dm id merged, c.dedupManager = some dm ∧
            (dm.CheckDuplicate embedding addOpts.UserID addOpts.AgentID w1).1
              = (true, id, none) ∧
            (dm.MergeMemories sqrt id content embedding wpre).1 = .ok merged ∧
            mem = core.fromIntelligenceMemory merged ∧
          (c.Add sqrt none content opts w).2
            = (dm.MergeMemories sqrt id content embedding wpre).2 ∧
          ∃ existing updated, (dm.store.Get id wpre.env).1 = .ok existing ∧
            (dm.store.Update id (existing.Content ++ " " ++ content)
              (intelligence.averageEmbeddings sqrt existing.Embedding embedding)
              (dm.store.Get id wpre.env).2).1 = .ok updated ∧
            calls = [.embed content,
              .search embedding
                { UserID := addOpts.UserID, AgentID := addOpts.AgentID, Limit := 5,
                  MinScore := 0, Filters := [] },
              .get id,
              .update id (existing.Content ++ " " ++ content)
                (intelligence.averageEmbeddings sqrt existing.Embedding embedding)] ∧
            (c.Add sqrt none content opts w).2.env
              = (dm.store.Update id (existing.Content ++ " " ++ content)
                  (intelligence.averageEmbeddings sqrt existing.Embedding embedding)
                  (dm.store.Get id wpre.env).2).2 ∧
            mem.ID = updated.ID ∧ mem.Content = updated.Content ∧
            mem.Embedding = updated.Embedding) ∧
          calls.filter Call.isInsert = [] ∧ calls.filter Call.isGenerate = []) ∧
        (¬ dup →
          calls.filter Call.isInsert = [.insert (core.toStorageMemory mem)] ∧
          calls.filter Call.isGenerate = [.generate] ∧
          mem.ID = (c.snowflakeNode wpre.env).1 ∧ mem.Content = content ∧
          mem.UserID = addOpts.UserID ∧ mem.AgentID = addOpts.AgentID ∧
          mem.Metadata = addOpts.Metadata ∧ mem.Embedding = embedding ∧
          mem.RetentionStrength = 1.0) := by
      intro w2 l2 hnd hwpre hlog hni hng hadd
      rw [hadd] at hok
      obtain ⟨hl, hm⟩ := addInsert_ok c addOpts content embedding w2 mem hok
      have hcalls : calls = l2 ++ [.generate, .insert (core.toStorageMemory mem)] := by
        show ((c.Add sqrt none content opts w).2.log.drop w.log.length) = _
        rw [hadd, hl, hlog, List.append_assoc, hlen]
      have hI : calls.filter Call.isInsert = [.insert (core.toStorageMemory mem)] := by
        rw [hcalls, List.filter_append, hni]; simp [Call.isInsert]
      have hG : calls.filter Call.isGenerate = [.generate] := by
        rw [hcalls, List.filter_append, hng]; simp [Call.isGenerate]
      refine ⟨⟨fun h => ?_, fun h => absurd h hnd⟩, fun h => absurd h hnd, fun _ => ?_⟩
      · rw [hI] at h; simp at h
      · refine ⟨hI, hG, ?_⟩
        rw [hwpre, hm]
        exact ⟨rfl, rfl, rfl, rfl, rfl, rfl, rfl⟩
    rcases Bool.eq_false_or_eq_true addOpts.Infer with hinf | hinf
    rotate_left
    · have hnd : ¬ dup := fun h => by
        have h1 : addOpts.Infer = true := h.1
        rw [hinf] at h1
        exact absurd h1 (by simp)
      have hadd : c.Add sqrt none content opts w = c.addInsert addOpts content embedding w1 := by
        have hinf2 : (core.applyAddOptions opts).Infer = false := hinf
        simp only [core.Client.Add, World.call, hemb, hinf2]
        rfl
      have hwpre : wpre = w1 := by
        show (match addOpts.Infer, c.dedupManager with
          | true, some dm => (dm.CheckDuplicate embedding addOpts.UserID addOpts.AgentID w1).2
          | _, _ => w1) = w1
        rw [hinf]
      exact insertCase w1 [.embed content] hnd hwpre hw1log (by simp [Call.isInsert])
        (by simp [Call.isGenerate]) hadd
    · have hdmCases : c.dedupManager = none ∨ ∃ dm, c.dedupManager = some dm := by
        cases c.dedupManager <;> simp
      rcases hdmCases with hdm | ⟨dm, hdm⟩
      · have hnd : ¬ dup := fun h => by
          obtain ⟨_, dm, h2, _⟩ := h
          rw [hdm] at h2
          exact absurd h2 (by simp)
        have hadd : c.Add sqrt none content opts w
            = c.addInsert addOpts content embedding w1 := by
          have hinf2 : (core.applyAddOptions opts).Infer = true := hinf
          simp only [core.Client.Add, World.call, hemb, hinf2, hdm]
          rfl
        have hwpre : wpre = w1 := by
          show (match addOpts.Infer, c.dedupManager with
            | true, some dm => (dm.CheckDuplicate embedding addOpts.UserID addOpts.AgentID w1).2
            | _, _ => w1) = w1
          rw [hinf, hdm]
        exact insertCase w1 [.embed content] hnd hwpre hw1log (by simp [Call.isInsert])
          (by simp [Call.isGenerate]) hadd
      · have hwpre : wpre
            = (dm.CheckDuplicate embedding addOpts.UserID addOpts.AgentID w1).2 := by
          show (match addOpts.Infer, c.dedupManager with
            | true, some dm => (dm.CheckDuplicate embedding addOpts.UserID addOpts.AgentID w1).2
            | _, _ => w1) = _
          rw [hinf, hdm]
        have hcdlog := checkDuplicate_log dm embedding addOpts.UserID addOpts.AgentID w1
        rw [hw1log, List.append_assoc] at hcdlog
        have hinf2 : (core.applyAddOptions opts).Infer = true := hinf
        rcases hcd : dm.CheckDuplicate embedding addOpts.UserID addOpts.AgentID w1 with
          ⟨⟨b, id, oe⟩, w2⟩
        have hcd2 : dm.CheckDuplicate embedding (core.applyAddOptions opts).UserID
            (core.applyAddOptions opts).AgentID
            { env := (c.embedder.Embed content w.env).2, log := w.log ++ [.embed content] }
            = ((b, id, oe), w2) := hcd
        rw [hcd] at hwpre hcdlog
        cases oe with
        | some err =>
          exfalso
          simp only [core.Client.Add, World.call, hemb, hinf2, hdm, hcd2,
            core.NewMemoryError] at hok
          simp at hok
        | none =>
          cases b with
          | false =>
            have hnd : ¬ dup := fun h => by
              obtain ⟨_, dm2, h2, h3⟩ := h
              rw [hdm] at h2
              cases h2
              rw [hcd] at h3
              exact absurd h3 (by simp)
            have hadd : c.Add sqrt none content opts w
                = c.addInsert addOpts content embedding w2 := by
              simp only [core.Client.Add, World.call, hemb, hinf2, hdm, hcd2]
            exact insertCase w2 _ hnd hwpre hcdlog (by simp [Call.isInsert])
              (by simp [Call.isGenerate]) hadd
          | true =>
            have hd : dup := ⟨hinf, dm, hdm, by rw [hcd]⟩
            obtain ⟨l, hl, hli, hlg⟩ := mergeMemories_log_grows sqrt dm id content embedding w2
            rcases hmm : dm.MergeMemories sqrt id content embedding w2 with ⟨res, w3⟩
            rw [hmm] at hl
            cases res with
            | error err =>
              exfalso
              simp only [core.Client.Add, World.call, hemb, hinf2, hdm, hcd2, hmm,
                core.NewMemoryError] at hok
              simp at hok
            | ok merged =>
              have hadd : c.Add sqrt none content opts w
                  = ((some (core.fromIntelligenceMemory merged), none), w3) := by
                simp only [core.Client.Add, World.call, hemb, hinf2, hdm, hcd2, hmm]
              rw [hadd] at hok
              have hmem : mem = core.fromIntelligenceMemory merged := by
                simp only [Prod.mk.injEq, Option.some.injEq, and_true] at hok
                exact hok.symm
              have hcalls : calls = [.embed content, .search embedding
                  { UserID := addOpts.UserID, AgentID := addOpts.AgentID, Limit := 5,
                    MinScore := 0, Filters := [] }] ++ l := by
                show ((c.Add sqrt none content opts w).2.log.drop w.log.length) = _
                rw [hadd]
                show w3.log.drop w.log.length = _
                rw [hl, hcdlog, List.append_assoc, hlen]
                rfl
              have hI : calls.filter Call.isInsert = [] := by
                rw [hcalls, List.filter_append, hli]; simp [Call.isInsert]
              have hG : calls.filter Call.isGenerate = [] := by
                rw [hcalls, List.filter_append, hlg]; simp [Call.isGenerate]
              have hm1 : (dm.MergeMemories sqrt id content embedding w2).1 = .ok merged := by
                rw [hmm]
              obtain ⟨existing, updated, hget, hupd, hworld, hmerged⟩ :=
                mergeMemories_ok sqrt dm id content embedding w2 merged hm1
              rw [hmm] at hworld
              have hw3 : w3 =
                  { env := (dm.store.Update id (existing.Content ++ " " ++ content)
                      (intelligence.averageEmbeddings sqrt existing.Embedding embedding)
                      (dm.store.Get id w2.env).2).2,
                    log := w2.log ++ [.get id, .update id (existing.Content ++ " " ++ content)
                      (intelligence.averageEmbeddings sqrt existing.Embedding embedding)] } :=
                hworld
              have hl2 : l = [.get id, .update id (existing.Content ++ " " ++ content)
                  (intelligence.averageEmbeddings sqrt existing.Embedding embedding)] := by
                have h1 : w3.log = w2.log ++ [.get id,
                    .update id (existing.Content ++ " " ++ content)
                      (intelligence.averageEmbeddings sqrt existing.Embedding embedding)] := by
                  rw [hw3]
                rw [hl] at h1
                exact List.append_cancel_left h1
              refine ⟨⟨fun _ => hd, fun _ => hI⟩, fun _ => ⟨⟨dm, id, merged, hdm, ?_, ?_, hmem,
                ?_, existing, updated, ?_, ?_, ?_, ?_, ?_, ?_, ?_⟩, hI, hG⟩,
                fun h => absurd hd h⟩
              · rw [hcd]
              · rw [hwpre, hmm]
              · rw [hadd, hwpre, hmm]
              · rw [hwpre]
                exact hget
              · rw [hwpre]
                exact hupd
              · rw [hcalls, hl2]
                rfl
              · rw [hadd, hwpre]
                show w3.env = _
                rw [hw3]
              · rw [hmem, hmerged]
                rfl
              · rw [hmem, hmerged]
                rfl
              · rw [hmem, hmerged]
                rfl

/-- C4: when the store's `Get` returns the existing record `e` and the store's `Update`
succeeds, `MergeMemories` makes exactly the calls `Get(id)` and then one
`Update(id, e.content + " " + c, averageEmbeddings(e.embedding, v))`, and returns the record
that this `Update` returned. -/
theorem C4_merge_memories_one_update {σ F : Type} [LinearOrderedField F] (sqrt : F → F)
    (dm : intelligence.DedupManager σ F) (id : Int) (c : String) (v : List F) (w : World σ F)
    (e updated : storage.Memory F)
    (hget : (dm.store.Get id w.env).1 = .ok e)
    (hupd : (dm.store.Update id (e.Content ++ " " ++ c)
      (intelligence.averageEmbeddings sqrt e.Embedding v) (dm.store.Get id w.env).2).1
        = .ok updated) :
    (dm.MergeMemories sqrt id c v w).2.log = w.log ++
      [.get id, .update id (e.Content ++ " " ++ c)
        (intelligence.averageEmbeddings sqrt e.Embedding v)] ∧
    (dm.MergeMemories sqrt id c v w).2.env = (dm.store.Update id (e.Content ++ " " ++ c)
      (intelligence.averageEmbeddings sqrt e.Embedding v) (dm.store.Get id w.env).2).2 ∧
    (dm.MergeMemories sqrt id c v w).1 = .ok
      { ID := updated.ID, UserID := updated.UserID, AgentID := updated.AgentID,
        Content := updated.Content, Embedding := updated.Embedding,
        Metadata := updated.Metadata, CreatedAt := updated.CreatedAt,
        UpdatedAt := updated.UpdatedAt, RetentionStrength := updated.RetentionStrength,
        LastAccessedAt := updated.LastAccessedAt, Score := updated.Score } := by
  simp only [intelligence.DedupManager.MergeMemories, World.call, hget, hupd]
  simp

section SqliteHelpers

variable {F : Type} [LinearOrderedField F]

theorem sqlite_get_state (id : Int) (c : sqlite.Client F) : (sqlite.Get id c).2 = c := by
  unfold sqlite.Get
  split <;> rfl

theorem sqlite_update_rows (id : Int) (content : String) (e : List F) (c : sqlite.Client F) :
    (sqlite.Update id content e c).2.rows = c.rows.map (fun r =>
      if r.id = id then
        { r with content := content, embedding := e, updated_at := c.clock c.tick }
      else r) := by
  unfold sqlite.Update
  simp only
  split
  · rw [sqlite_get_state]
  · rfl

end SqliteHelpers

/-- C5: a successful `MergeMemories` over the SQLite store leaves the table with the same rows
in the same order, where every row keeps its id, created_at, user_id, agent_id, metadata,
retention_strength and last_accessed_at, and every row other than the merged one is unchanged;
only content, embedding and updated_at of the merged record change. -/
theorem C5_merge_changes_only_content_embedding_updated_at {F : Type} [LinearOrderedField F]
    (sqrt : F → F) (threshold : F) (id : Int) (content : String) (v : List F)
    (w : World (sqlite.Client F) F) (merged : intelligence.Memory F)
    (hok : ((intelligence.NewDedupManager (sqlite.store sqrt) threshold).MergeMemories
      sqrt id content v w).1 = .ok merged) :
    List.Forall₂
      (fun r r' : sqlite.Row F =>
        r'.id = r.id ∧ r'.created_at = r.created_at ∧ r'.user_id = r.user_id ∧
        r'.agent_id = r.agent_id ∧ r'.metadata = r.metadata ∧
        r'.retention_strength = r.retention_strength ∧
        r'.last_accessed_at = r.last_accessed_at ∧ (r.id ≠ id → r' = r))
      w.env.rows
      ((intelligence.NewDedupManager (sqlite.store sqrt) threshold).MergeMemories
        sqrt id content v w).2.env.rows := by
  cases hget : ((intelligence.NewDedupManager (sqlite.store sqrt) threshold).store.Get
      id w.env).1 with
  | error err =>
    simp only [intelligence.DedupManager.MergeMemories, World.call, hget] at hok
    simp at hok
  | ok e =>
    cases hupd : ((intelligence.NewDedupManager (sqlite.store sqrt) threshold).store.Update id
        (e.Content ++ " " ++ content) (intelligence.averageEmbeddings sqrt e.Embedding v)
        ((intelligence.NewDedupManager (sqlite.store sqrt) threshold).store.Get
          id w.env).2).1 with
    | error err =>
      simp only [intelligence.DedupManager.MergeMemories, World.call, hget, hupd] at hok
      simp at hok
    | ok updated =>
      rw [(mergeMemories_env sqrt _ id content v w e updated hget hupd)]
      show List.Forall₂ _ w.env.rows (sqlite.Update id _ _ (sqlite.Get id w.env).2).2.rows
      rw [sqlite_get_state, sqlite_update_rows, List.forall₂_map_right_iff, List.forall₂_same]
      intro r _
      by_cases h : r.id = id
      · simp [h]
      · simp [h]

section SearchHelpers

variable {F : Type} [LinearOrderedField F]

theorem mem_sortByScore {x : storage.Memory F} {l : List (storage.Memory F)} {limit : Int}
    (h : x ∈ sqlite.sortByScore l limit) : x ∈ l := by
  rw [sortByScore_eq] at h
  split at h
  · exact (bubbleSort_perm l).subset (List.mem_of_mem_take h)
  · exact (bubbleSort_perm l).subset h

omit [LinearOrderedField F] in
theorem mem_orderById {r : sqlite.Row F} {rows : List (sqlite.Row F)} :
    r ∈ sqlite.orderById rows ↔ r ∈ rows :=
  (List.perm_insertionSort _ rows).mem_iff

/-- Every result of the SQLite `Search` is a stored row that satisfies the `WHERE` clause, read
back with its cosine score, and that score reaches `MinScore`. -/
theorem sqlite_search_results (sqrt : F → F) (e : List F) (opts : storage.SearchOptions F)
    (c : sqlite.Client F) :
    ∃ ms, (sqlite.Search sqrt e opts c).1 = .ok ms ∧ (sqlite.Search sqrt e opts c).2 = c ∧
      ∀ x ∈ ms, ∃ r ∈ c.rows,
        sqlite.buildWhereClause opts.UserID opts.AgentID opts.Filters r = true ∧
        x = { sqlite.scanMemory r with Score := sqlite.cosineSimilarity sqrt e r.embedding } ∧
        x.Score ≥ opts.MinScore := by
  refine ⟨_, rfl, rfl, ?_⟩
  intro x hx
  have hx1 := mem_sortByScore hx
  rw [List.mem_filter] at hx1
  obtain ⟨hx2, hscore⟩ := hx1
  rw [List.mem_map] at hx2
  obtain ⟨r, hr, rfl⟩ := hx2
  rw [mem_orderById, List.mem_filter] at hr
  exact ⟨r, hr.1, hr.2, rfl, by simpa using hscore⟩

omit [LinearOrderedField F] in
theorem buildWhereClause_scope {u a : String} {f : Metadata} {r : sqlite.Row F}
    (h : sqlite.buildWhereClause u a f r = true) :
    (u ≠ "" → r.user_id = u) ∧ (a ≠ "" → r.agent_id = a) := by
  unfold sqlite.buildWhereClause at h
  rw [Bool.and_eq_true] at h
  constructor
  · intro hu
    simpa [hu] using h.1
  · intro ha
    simpa [ha] using h.2

theorem checkDuplicate_of_search_ok {σ : Type} (dm : intelligence.DedupManager σ F)
    (e : List F) (u a : String) (w : World σ F) (ms : List (storage.Memory F))
    (h : (dm.store.Search e
      { UserID := u, AgentID := a, Limit := 5, MinScore := 0, Filters := [] } w.env).1
        = .ok ms) :
    (dm.CheckDuplicate e u a w).1 = ((intelligence.firstDuplicate dm.threshold ms).1,
      (intelligence.firstDuplicate dm.threshold ms).2, none) := by
  simp only [intelligence.DedupManager.CheckDuplicate, World.call, h]

end SearchHelpers

/-- C3 (as stated) fails: over a SQLite table holding one record of user "u1" and agent "a1",
`CheckDuplicate` called for user "u1" with no agent (the empty string) reports that record as
the duplicate, although its agent_id is not the one passed in. -/
theorem C3_counterexample_empty_agent_matches_other_agent :
    ((intelligence.NewDedupManager (sqlite.store Real.sqrt) (0.95 : ℝ)).CheckDuplicate
      [1, 0] "u1" "" Examples.agentWorld).1 = (true, 1, none) ∧
    ∃ r ∈ Examples.agentWorld.env.rows, r.id = 1 ∧ r.user_id = "u1" ∧ r.agent_id = "a1" ∧
      r.agent_id ≠ "" := by
  constructor
  · simp [intelligence.DedupManager.CheckDuplicate, intelligence.NewDedupManager, World.call,
      sqlite.store, sqlite.Search, Examples.agentWorld, Examples.agentRow,
      sqlite.buildWhereClause, sqlite.orderById, sqlite.scanMemory, sqlite.cosineSimilarity,
      sqlite.sortByScore, sqlite.bubbleSort, intelligence.firstDuplicate]
    norm_num
  · exact ⟨Examples.agentRow, by simp [Examples.agentWorld], rfl, rfl, rfl, by decide⟩

/-- C3 (amended): when `CheckDuplicate(embedding, user_id, agent_id)` over the SQLite store
reports a duplicate, the matched id is the id of a stored record whose user_id equals the one
passed in if that is non-empty and whose agent_id equals the one passed in if that is non-empty
(an empty user_id or agent_id puts no condition on that column); with unique ids this holds of
every stored record with the matched id. -/
theorem C3_check_duplicate_scoped_when_nonempty {F : Type} [LinearOrderedField F]
    (sqrt : F → F) (threshold : F) (embedding : List F) (userID agentID : String)
    (w : World (sqlite.Client F) F) (id : Int)
    (hnodup : (w.env.rows.map (fun r => r.id)).Nodup)
    (hdup : ((intelligence.NewDedupManager (sqlite.store sqrt) threshold).CheckDuplicate
      embedding userID agentID w).1 = (true, id, none)) :
    (∃ r ∈ w.env.rows, r.id = id) ∧
    ∀ r ∈ w.env.rows, r.id = id →
      (userID ≠ "" → r.user_id = userID) ∧ (agentID ≠ "" → r.agent_id = agentID) := by
  obtain ⟨ms, hms, -, hres⟩ := sqlite_search_results sqrt embedding
    { UserID := userID, AgentID := agentID, Limit := 5, MinScore := 0, Filters := [] } w.env
  have heq := checkDuplicate_of_search_ok (intelligence.NewDedupManager (sqlite.store sqrt)
    threshold) embedding userID agentID w ms hms
  rw [hdup] at heq
  simp only [Prod.mk.injEq, and_true] at heq
  obtain ⟨pre, x, post, hsplit, -, -, hid⟩ := firstDuplicate_first _ ms heq.1.symm
  have hx : x ∈ ms := by rw [hsplit]; simp
  obtain ⟨r, hr, hwhere, hxr, -⟩ := hres x hx
  have hrid : r.id = id := by
    rw [heq.2, hid, hxr]
    rfl
  refine ⟨⟨r, hr, hrid⟩, ?_⟩
  intro r2 hr2 hr2id
  have : r2 = r := List.inj_on_of_nodup_map hnodup hr2 hr (hr2id.trans hrid.symm)
  rw [this]
  exact buildWhereClause_scope hwhere

/-- C8 (as stated) fails for `limit = 0`: over a table with one record, `Search` with
`Limit = 0` and `MinScore = 0` returns that record, which is more than `limit` results. -/
theorem C8_counterexample_limit_zero_returns_all :
    ∃ ms, (sqlite.Search Real.sqrt [1, 0]
        { UserID := "", AgentID := "", Limit := 0, MinScore := 0, Filters := [] }
        Examples.agentWorld.env).1 = .ok ms ∧
      ms.length = 1 ∧ ¬ ((ms.length : Int) ≤ 0) := by
  refine ⟨_, rfl, ?_⟩
  simp [Examples.agentWorld, Examples.agentRow, sqlite.buildWhereClause, sqlite.orderById,
    sqlite.scanMemory, sqlite.cosineSimilarity, sqlite.sortByScore, sqlite.bubbleSort]

/-- C8 (amended): for every table, query embedding and `SearchOptions`, the SQLite `Search`
succeeds; every returned result is a stored record matching the scope, carries as score the
cosine similarity between the query embedding and the record's embedding, and has
`score >= min_score`; when `limit > 0` at most `limit` results are returned, and when
`limit <= 0` nothing is cut: the results are all the matching records with
`score >= min_score`. -/
theorem C8_search_min_score_and_positive_limit {F : Type} [LinearOrderedField F]
    (sqrt : F → F) (embedding : List F) (opts : storage.SearchOptions F)
    (c : sqlite.Client F) :
    ∃ ms, (sqlite.Search sqrt embedding opts c).1 = .ok ms ∧
      (∀ x ∈ ms, x.Score ≥ opts.MinScore ∧
        ∃ r ∈ c.rows, sqlite.buildWhereClause opts.UserID opts.AgentID opts.Filters r = true ∧
          x.ID = r.id ∧ x.Embedding = r.embedding ∧
          x.Score = sqlite.cosineSimilarity sqrt embedding r.embedding) ∧
      (0 < opts.Limit → (ms.length : Int) ≤ opts.Limit) ∧
      (opts.Limit ≤ 0 → ms.Perm
        (((sqlite.orderById (c.rows.filter
            (sqlite.buildWhereClause opts.UserID opts.AgentID opts.Filters))).map
          (fun r => { sqlite.scanMemory r with
            Score := sqlite.cosineSimilarity sqrt embedding (sqlite.scanMemory r).Embedding })).filter
          (fun m => decide (m.Score ≥ opts.MinScore)))) := by
  obtain ⟨ms, hms, -, hres⟩ := sqlite_search_results sqrt embedding opts c
  have hsort : ms = sqlite.sortByScore
      (((sqlite.orderById (c.rows.filter
            (sqlite.buildWhereClause opts.UserID opts.AgentID opts.Filters))).map
          (fun r => { sqlite.scanMemory r with
            Score := sqlite.cosineSimilarity sqrt embedding (sqlite.scanMemory r).Embedding })).filter
          (fun m => decide (m.Score ≥ opts.MinScore))) opts.Limit := by
    have h1 : (sqlite.Search sqrt embedding opts c).1 = .ok (sqlite.sortByScore
      (((sqlite.orderById (c.rows.filter
            (sqlite.buildWhereClause opts.UserID opts.AgentID opts.Filters))).map
          (fun r => { sqlite.scanMemory r with
            Score := sqlite.cosineSimilarity sqrt embedding (sqlite.scanMemory r).Embedding })).filter
          (fun m => decide (m.Score ≥ opts.MinScore))) opts.Limit) := rfl
    rw [hms] at h1
    exact Except.ok.inj h1
  refine ⟨ms, hms, ?_, ?_, ?_⟩
  · intro x hx
    obtain ⟨r, hr, hw, hxr, hs⟩ := hres x hx
    refine ⟨hs, r, hr, hw, ?_, ?_, ?_⟩ <;> rw [hxr] <;> rfl
  · intro hpos
    rw [hsort, sortByScore_eq, if_pos hpos]
    have := List.length_take_le opts.Limit.toNat (sqlite.bubbleSort
      (((sqlite.orderById (c.rows.filter
            (sqlite.buildWhereClause opts.UserID opts.AgentID opts.Filters))).map
          (fun r => { sqlite.scanMemory r with
            Score := sqlite.cosineSimilarity sqrt embedding (sqlite.scanMemory r).Embedding })).filter
          (fun m => decide (m.Score ≥ opts.MinScore))))
    omega
  · intro hle
    rw [hsort, sortByScore_eq, if_neg (not_lt.2 hle)]
    exact bubbleSort_perm _

/-- C9 (as stated) fails for `limit = 0`: `sortByScore` of a one-record list with limit 0 returns
the record, not the sorted list cut to its first 0 elements. -/
theorem C9_counterexample_limit_zero_not_truncated :
    ¬ ∃ sorted : List (storage.Memory ℚ), sorted.Perm [Examples.scored 1 (1 / 2)] ∧
      sorted.Pairwise (fun a b => b.Score ≤ a.Score) ∧
      sqlite.sortByScore [Examples.scored 1 (1 / 2)] 0 = sorted.take (0 : Int).toNat := by
  rintro ⟨sorted, -, -, h⟩
  simp [sqlite.sortByScore, sqlite.bubbleSort] at h

/-- C9 (amended): for every input list and limit, `sortByScore` returns a permutation of the
input sorted in non-increasing score order, cut to its first `limit` elements when `limit > 0`
and not cut when `limit <= 0`; every record omitted by the cut has a score no higher than every
returned record; and a successful `Client.Search` of the core returns the store's results
converted one by one, in the same order and number. -/
theorem C9_sort_by_score_sorted_permutation_cut {σ F : Type} [LinearOrderedField F]
    (memories : List (storage.Memory F)) (limit : Int) (c : core.Client σ F) (query : String)
    (opts : List (core.SearchOption F)) (w : World σ F) :
    (∃ sorted : List (storage.Memory F), sorted.Perm memories ∧
      sorted.Pairwise (fun a b => b.Score ≤ a.Score) ∧
      sqlite.sortByScore memories limit
        = (if 0 < limit then sorted.take limit.toNat else sorted) ∧
      ∀ a ∈ sqlite.sortByScore memories limit,
        ∀ b ∈ (if 0 < limit then sorted.drop limit.toNat else []), b.Score ≤ a.Score) ∧
    (∀ rs, (c.Search query opts w).1 = (some rs, none) →
      ∃ queryEmbedding ms, (c.embedder.Embed query w.env).1 = .ok queryEmbedding ∧
        (c.storage.Search queryEmbedding
          { UserID := (core.applySearchOptions opts).UserID,
            AgentID := (core.applySearchOptions opts).AgentID,
            Limit := (core.applySearchOptions opts).Limit,
            MinScore := (core.applySearchOptions opts).MinScore,
            Filters := (core.applySearchOptions opts).Filters }
          (c.embedder.Embed query w.env).2).1 = .ok ms ∧
        rs = ms.map core.fromStorageMemory ∧ rs.length = ms.length) := by
  constructor
  · refine ⟨sqlite.bubbleSort memories, bubbleSort_perm memories, bubbleSort_sorted memories,
      sortByScore_eq memories limit, ?_⟩
    intro a ha b hb
    rw [sortByScore_eq] at ha
    by_cases hl : 0 < limit
    · rw [if_pos hl] at ha hb
      have hs := bubbleSort_sorted memories
      rw [← List.take_append_drop limit.toNat (sqlite.bubbleSort memories),
        List.pairwise_append] at hs
      exact hs.2.2 a ha b hb
    · rw [if_neg hl] at hb
      simp at hb
  · intro rs hrs
    cases hemb : (c.embedder.Embed query w.env).1 with
    | error err =>
      simp only [core.Client.Search, World.call, hemb, core.NewMemoryError] at hrs
      simp at hrs
    | ok queryEmbedding =>
      cases hsearch : (c.storage.Search queryEmbedding
          { UserID := (core.applySearchOptions opts).UserID,
            AgentID := (core.applySearchOptions opts).AgentID,
            Limit := (core.applySearchOptions opts).Limit,
            MinScore := (core.applySearchOptions opts).MinScore,
            Filters := (core.applySearchOptions opts).Filters }
          (c.embedder.Embed query w.env).2).1 with
      | error err =>
        simp only [core.Client.Search, World.call, hemb, hsearch, core.NewMemoryError] at hrs
        simp at hrs
      | ok ms =>
        simp only [core.Client.Search, World.call, hemb, hsearch] at hrs
        simp only [Prod.mk.injEq, Option.some.injEq, and_true] at hrs
        refine ⟨queryEmbedding, ms, rfl, hsearch, ?_, ?_⟩
        · rw [← hrs]; rfl
        · rw [← hrs]; simp [core.fromStorageMemories]

section TimeHelpers

variable {F : Type} [LinearOrderedField F]

theorem hours_eq (d : intelligence.Duration) :
    (intelligence.Hours d : F) = (d : F) / 3600000000000 := by
  unfold intelligence.Hours
  have h := Int.tdiv_add_tmod' d intelligence.Hour
  have hc : ((Int.tdiv d intelligence.Hour : Int) : F) * 3600000000000
      + ((Int.tmod d intelligence.Hour : Int) : F) = (d : F) := by
    have := congrArg (fun z : Int => (z : F)) h
    simp only [Int.cast_add, Int.cast_mul] at this
    rw [← this]
    simp [intelligence.Hour]
  rw [← hc]
  field_simp
  ring

theorem sub_in_range (t u : Time)
    (h : intelligence.minDuration ≤ t - u ∧ t - u ≤ intelligence.maxDuration) :
    intelligence.Sub t u = t - u := by
  unfold intelligence.Sub
  rw [if_neg (not_lt.2 h.2), if_neg (not_lt.2 h.1)]

theorem exp_neg_tenth_approx : |Real.exp (-(1 / 10)) - 0.9048| < 0.0001 := by
  have hx : |(-(1 / 10) : ℝ)| ≤ 1 := by
    rw [abs_neg, abs_of_nonneg] <;> norm_num
  have hb := Real.exp_bound hx (n := 4) (by norm_num)
  simp only [Finset.sum_range_succ, Finset.sum_range_zero, Nat.factorial] at hb
  rw [abs_neg, abs_of_nonneg (by norm_num : (0 : ℝ) ≤ 1 / 10)] at hb
  norm_num at hb
  rw [abs_le] at hb
  rw [abs_lt]
  constructor <;> linarith [hb.1, hb.2]

end TimeHelpers

/-- C10 (as stated) fails for timestamps more than about 292 years apart: with
`decay_rate = 0.00001`, `created_at` the zero `time.Time`, no last access and `now` exactly
17,750,000 hours later, `now.Sub(created_at)` saturates at the largest `time.Duration`, so the
result is not `exp(-decay_rate * t / 24)` for the `t = 17,750,000` hours that elapsed. -/
theorem C10_counterexample_duration_saturates :
    (63900000000000000000 - 0 : Int) = 17750000 * intelligence.Hour ∧
    (intelligence.NewEbbinghausManager (1 / 100000 : ℝ) (3 / 10)).CalculateRetention
      Real.exp 63900000000000000000 0 none ≠ Real.exp (-(1 / 100000) * 17750000 / 24) := by
  constructor
  · norm_num [intelligence.Hour]
  · intro h
    have h2 := Real.exp_injective h
    simp only [intelligence.NewEbbinghausManager, hours_eq] at h2
    have hs : intelligence.Sub 63900000000000000000 0 = 9223372036854775807 := by
      norm_num [intelligence.Sub, intelligence.maxDuration]
    rw [hs] at h2
    norm_num at h2

/-- C10 (amended): whenever the time from the reference timestamp (`last_accessed_at` when
present, `created_at` otherwise) to `now` fits in a `time.Duration`, `CalculateRetention`
returns `exp(-decay_rate * t / 24)` with `t` the number of hours from the reference timestamp to
`now`; in particular with `decay_rate = 0.1`, `created_at = now - 24h` and no last access it
returns `exp(-0.1)`, which is 0.9048 to four decimals. -/
theorem C10_calculate_retention_formula {F : Type} [LinearOrderedField F] (exp : F → F)
    (m : intelligence.EbbinghausManager F) (now createdAt : Time) (lastAccessedAt : Option Time)
    (hrange : intelligence.minDuration ≤ now - lastAccessedAt.getD createdAt ∧
      now - lastAccessedAt.getD createdAt ≤ intelligence.maxDuration) :
    m.CalculateRetention exp now createdAt lastAccessedAt
      = exp (-m.decayRate * (((now - lastAccessedAt.getD createdAt : Int) : F)
          / 3600000000000) / 24) ∧
    (∀ (reinforcementFactor : ℝ) (t : Time),
      (intelligence.NewEbbinghausManager (0.1 : ℝ) reinforcementFactor).CalculateRetention
        Real.exp t (t - 24 * intelligence.Hour) none = Real.exp (-0.1) ∧
      |Real.exp (-0.1) - 0.9048| < 0.0001) := by
  constructor
  · unfold intelligence.EbbinghausManager.CalculateRetention
    cases lastAccessedAt with
    | none =>
      simp only [Option.getD_none] at hrange
      simp only [Option.getD_none, sub_in_range _ _ hrange, hours_eq]
      norm_num
    | some t =>
      simp only [Option.getD_some] at hrange
      simp only [Option.getD_some, sub_in_range _ _ hrange, hours_eq]
      norm_num
  · intro rf t
    have hr : intelligence.minDuration ≤ t - (t - 24 * intelligence.Hour) ∧
        t - (t - 24 * intelligence.Hour) ≤ intelligence.maxDuration := by
      have e : t - (t - 24 * intelligence.Hour) = 24 * intelligence.Hour := sub_sub_cancel _ _
      rw [e]
      constructor <;> norm_num [intelligence.minDuration, intelligence.maxDuration,
        intelligence.Hour]
    have h01 : (-0.1 : ℝ) = -(1 / 10) := by norm_num
    refine ⟨?_, by rw [h01]; exact exp_neg_tenth_approx⟩
    unfold intelligence.EbbinghausManager.CalculateRetention
    simp only [sub_in_range _ _ hr, hours_eq, intelligence.NewEbbinghausManager]
    congr 1
    simp only [intelligence.Hour]
    push_cast
    ring_nf

section CosineHelpers

variable {F : Type} [LinearOrderedField F]

theorem zip_mul_sum_comm (a b : List F) :
    ((a.zip b).map (fun p => p.1 * p.2)).sum = ((b.zip a).map (fun p => p.1 * p.2)).sum := by
  induction a generalizing b with
  | nil => cases b <;> simp
  | cons x xs ih =>
    cases b with
    | nil => simp
    | cons y ys => simp [ih ys, mul_comm]

theorem sqlite_cosineSimilarity_comm (sqrt : F → F) (a b : List F) :
    sqlite.cosineSimilarity sqrt a b = sqlite.cosineSimilarity sqrt b a := by
  simp only [sqlite.cosineSimilarity, zip_mul_sum_comm a b]
  split_ifs <;> first | rfl | (exfalso; omega) | (exfalso; tauto) | (rw [mul_comm])

end CosineHelpers

/-- C6: starting from an empty SQLite store with dedup enabled at threshold 0.95, for every user
`u` and contents `c1`, `c2` whose embeddings have cosine similarity at least 0.95,
`Add(c1, user=u)` followed by `Add(c2, user=u, infer=true)` both succeed, the second returns the
record with the id assigned by the first and content `c1 + " " + c2`, the table is left with
exactly that one record, and `GetAll(user=u)` returns exactly that one record. -/
theorem C6_second_add_merges_into_first {F : Type} [LinearOrderedField F] (sqrt : F → F)
    (embed : String → List F) (clock : Nat → Time) (ids : Nat → Int) (u c1 c2 : String)
    (hsim : sqlite.cosineSimilarity sqrt (embed c1) (embed c2) ≥ 0.95) :
    let client := core.sqliteClient sqrt embed 0.95
    let r1 := client.Add sqrt none c1 [core.WithUserID u] (core.emptyWorld clock ids)
    let r2 := client.Add sqrt none c2 [core.WithUserID u, core.WithInfer true] r1.2
    let r3 := client.GetAll [core.WithUserIDForGetAll u] r2.2
    (∃ m1, r1.1 = (some m1, none) ∧ m1.ID = ids 0 ∧ m1.Content = c1) ∧
    (∃ m2, r2.1 = (some m2, none) ∧ m2.ID = ids 0 ∧ m2.UserID = u ∧
      m2.Content = c1 ++ " " ++ c2) ∧
    (∃ row, r2.2.env.db.rows = [row] ∧ row.id = ids 0 ∧ row.user_id = u ∧
      row.content = c1 ++ " " ++ c2) ∧
    (∃ m, r3.1 = (some [m], none) ∧ m.ID = ids 0 ∧ m.UserID = u ∧
      m.Content = c1 ++ " " ++ c2) := by
  intro client r1 r2 r3
  have hs : sqlite.cosineSimilarity sqrt (embed c2) (embed c1) ≥ 0.95 := by
    rw [sqlite_cosineSimilarity_comm]; exact hsim
  have h0 : (0 : F) ≤ sqlite.cosineSimilarity sqrt (embed c2) (embed c1) :=
    le_trans (by norm_num) hs
  have hthr : ¬ ((0.95 : F) = 0) := by norm_num
  have e1 : r1 = ((some
      { ID := ids 0, UserID := u, AgentID := "", Content := c1, Embedding := embed c1,
        SparseEmbedding := [], Metadata := [], CreatedAt := 0, UpdatedAt := 0,
        RetentionStrength := 1.0, LastAccessedAt := none, Score := 0 }, none),
      { env :=
          { db :=
              { rows :=
                  [{ id := ids 0, user_id := u, agent_id := "", content := c1,
                     embedding := embed c1, metadata := [], created_at := clock 0,
                     updated_at := clock 1, retention_strength := 1.0,
                     last_accessed_at := none }],
                clock := clock, tick := 2 },
            ids := ids, issued := 1 },
        log := [.embed c1, .generate, .insert
          { ID := ids 0, UserID := u, AgentID := "", Content := c1, Embedding := embed c1,
            SparseEmbedding := [], Metadata := [], CreatedAt := 0, UpdatedAt := 0,
            RetentionStrength := 1.0, LastAccessedAt := none, Score := 0 }] }) := by
    simp [r1, client, core.Client.Add, core.sqliteClient, core.NewClientWith, core.emptyWorld,
      core.applyAddOptions, core.WithUserID, World.call, core.envEmbedder, core.envStore,
      core.envNode, core.Client.addInsert, sqlite.Insert, core.toStorageMemory]
  have e2 : r2 = ((some
      { ID := ids 0, UserID := u, AgentID := "", Content := c1 ++ " " ++ c2,
        Embedding := intelligence.averageEmbeddings sqrt (embed c1) (embed c2),
        SparseEmbedding := [], Metadata := [], CreatedAt := clock 0, UpdatedAt := clock 2,
        RetentionStrength := 1.0, LastAccessedAt := none, Score := 0 }, none),
      { env :=
          { db :=
              { rows :=
                  [{ id := ids 0, user_id := u, agent_id := "", content := c1 ++ " " ++ c2,
                     embedding := intelligence.averageEmbeddings sqrt (embed c1) (embed c2),
                     metadata := [], created_at := clock 0,
                     updated_at := clock 2, retention_strength := 1.0,
                     last_accessed_at := none }],
                clock := clock, tick := 3 },
            ids := ids, issued := 1 },
        log := [.embed c1, .generate, .insert
          { ID := ids 0, UserID := u, AgentID := "", Content := c1, Embedding := embed c1,
            SparseEmbedding := [], Metadata := [], CreatedAt := 0, UpdatedAt := 0,
            RetentionStrength := 1.0, LastAccessedAt := none, Score := 0 },
          .embed c2,
          .search (embed c2)
            { UserID := u, AgentID := "", Limit := 5, MinScore := 0, Filters := [] },
          .get (ids 0),
          .update (ids 0) (c1 ++ " " ++ c2)
            (intelligence.averageEmbeddings sqrt (embed c1) (embed c2))] }) := by
    simp only [r2, e1]
    simp [client, core.Client.Add, core.sqliteClient, core.NewClientWith,
      core.applyAddOptions, core.WithUserID, core.WithInfer, World.call, core.envEmbedder,
      core.envStore, intelligence.DedupManager.CheckDuplicate, intelligence.NewDedupManager,
      sqlite.Search, sqlite.buildWhereClause, sqlite.orderById, sqlite.scanMemory,
      sqlite.sortByScore, sqlite.bubbleSort, sqlite.bubblePass, intelligence.firstDuplicate,
      hs, h0, hthr, intelligence.DedupManager.MergeMemories, sqlite.Get, sqlite.Update,
      core.fromIntelligenceMemory]
  have e3 : r3.1 = (some
      [{ ID := ids 0, UserID := u, AgentID := "", Content := c1 ++ " " ++ c2,
         Embedding := intelligence.averageEmbeddings sqrt (embed c1) (embed c2),
         SparseEmbedding := [], Metadata := [], CreatedAt := clock 0, UpdatedAt := clock 2,
         RetentionStrength := 1.0, LastAccessedAt := none, Score := 0 }], none) := by
    simp only [r3, e2]
    simp [client, core.Client.GetAll, core.sqliteClient, core.NewClientWith,
      core.applyGetAllOptions, core.WithUserIDForGetAll, World.call, core.envStore,
      sqlite.GetAll, sqlite.buildWhereClause, sqlite.orderByCreatedAtDesc, sqlite.scanMemory,
      core.fromStorageMemories, core.fromStorageMemory]
  refine ⟨⟨_, by rw [e1], rfl, rfl⟩, ⟨_, by rw [e2], rfl, rfl, rfl⟩, ⟨_, by rw [e2], rfl, rfl, rfl⟩,
    ⟨_, e3, rfl, rfl, rfl⟩⟩

section AddOverSqlite

variable {F : Type} [LinearOrderedField F]

theorem add_infer_no_duplicate {σ : Type} (sqrt : F → F) (c : core.Client σ F)
    (content : String) (opts : List core.AddOption) (w : World σ F)
    (dm : intelligence.DedupManager σ F) (emb : List F) (id : Int) (w2 : World σ F)
    (hinf : (core.applyAddOptions opts).Infer = true) (hdm : c.dedupManager = some dm)
    (hemb : (c.embedder.Embed content w.env).1 = .ok emb)
    (hcd : dm.CheckDuplicate emb (core.applyAddOptions opts).UserID
      (core.applyAddOptions opts).AgentID
      { env := (c.embedder.Embed content w.env).2, log := w.log ++ [.embed content] }
        = ((false, id, none), w2)) :
    c.Add sqrt none content opts w
      = c.addInsert (core.applyAddOptions opts) content emb w2 := by
  simp only [core.Client.Add, World.call, hemb, hinf, hdm, hcd]

theorem add_infer_duplicate {σ : Type} (sqrt : F → F) (c : core.Client σ F)
    (content : String) (opts : List core.AddOption) (w : World σ F)
    (dm : intelligence.DedupManager σ F) (emb : List F) (id : Int) (w2 : World σ F)
    (hinf : (core.applyAddOptions opts).Infer = true) (hdm : c.dedupManager = some dm)
    (hemb : (c.embedder.Embed content w.env).1 = .ok emb)
    (hcd : dm.CheckDuplicate emb (core.applyAddOptions opts).UserID
      (core.applyAddOptions opts).AgentID
      { env := (c.embedder.Embed content w.env).2, log := w.log ++ [.embed content] }
        = ((true, id, none), w2)) :
    (c.Add sqrt none content opts w).2 = (dm.MergeMemories sqrt id content emb w2).2 := by
  simp only [core.Client.Add, World.call, hemb, hinf, hdm, hcd]
  rcases dm.MergeMemories sqrt id content emb w2 with ⟨res, w3⟩
  cases res <;> rfl

theorem sqliteClient_addInsert_rows (sqrt : F → F) (embed : String → List F) (thr : F)
    (addOpts : core.AddOptions) (content : String) (emb : List F) (w : World (core.Env F) F) :
    ((core.sqliteClient sqrt embed thr).addInsert addOpts content emb w).2.env.db.rows
      = (if w.env.db.rows.any (fun r => decide (r.id = w.env.ids w.env.issued)) then
          w.env.db.rows
        else w.env.db.rows ++
          [{ id := w.env.ids w.env.issued, user_id := addOpts.UserID,
             agent_id := addOpts.AgentID, content := content, embedding := emb,
             metadata := addOpts.Metadata, created_at := w.env.db.clock w.env.db.tick,
             updated_at := w.env.db.clock (w.env.db.tick + 1), retention_strength := 1.0,
             last_accessed_at := none }]) := by
  by_cases h : w.env.db.rows.any (fun r => decide (r.id = w.env.ids w.env.issued)) = true
  · rw [if_pos h]
    simp only [core.Client.addInsert, core.sqliteClient, core.NewClientWith, World.call,
      core.envNode, core.envStore, sqlite.Insert, core.toStorageMemory, if_pos h]
  · rw [if_neg h]
    simp only [core.Client.addInsert, core.sqliteClient, core.NewClientWith, World.call,
      core.envNode, core.envStore, sqlite.Insert, core.toStorageMemory, if_neg h]

theorem sqliteClient_addInsert_fresh (sqrt : F → F) (embed : String → List F) (thr : F)
    (addOpts : core.AddOptions) (content : String) (emb : List F) (w : World (core.Env F) F)
    (h : w.env.db.rows.any (fun r => decide (r.id = w.env.ids w.env.issued)) = false) :
    ((core.sqliteClient sqrt embed thr).addInsert addOpts content emb w).2.env
      = { db :=
            { rows := w.env.db.rows ++
                [{ id := w.env.ids w.env.issued, user_id := addOpts.UserID,
                   agent_id := addOpts.AgentID, content := content, embedding := emb,
                   metadata := addOpts.Metadata, created_at := w.env.db.clock w.env.db.tick,
                   updated_at := w.env.db.clock (w.env.db.tick + 1),
                   retention_strength := 1.0, last_accessed_at := none }],
              clock := w.env.db.clock, tick := w.env.db.tick + 2 },
          ids := w.env.ids, issued := w.env.issued + 1 } := by
  have h' : ¬ (w.env.db.rows.any (fun r => decide (r.id = w.env.ids w.env.issued)) = true) := by
    rw [h]; simp
  simp only [core.Client.addInsert, core.sqliteClient, core.NewClientWith, World.call,
    core.envNode, core.envStore, sqlite.Insert, core.toStorageMemory, if_neg h']

end AddOverSqlite

section DriftExample

theorem World.eta {σ F : Type} (w : World σ F) : w = ⟨w.env, w.log⟩ := by
  cases w
  rfl

theorem drift_cos_b_a :
    sqlite.cosineSimilarity Real.sqrt [35 / 37, 12 / 37] [1, 0] = 35 / 37 := by
  simp [sqlite.cosineSimilarity]
  norm_num

theorem drift_cos_c_a :
    sqlite.cosineSimilarity Real.sqrt [96719 / 97969, 15600 / 97969] [1, 0]
      = 96719 / 97969 := by
  simp [sqlite.cosineSimilarity]
  norm_num

theorem drift_cos_c_b :
    sqlite.cosineSimilarity Real.sqrt [96719 / 97969, 15600 / 97969] [35 / 37, 12 / 37]
      = 3572365 / 3624853 := by
  simp [sqlite.cosineSimilarity]
  norm_num

theorem drift_average :
    intelligence.averageEmbeddings Real.sqrt [1, 0] [96719 / 97969, 15600 / 97969]
      = [312 / 313, 25 / 313] := by
  have hsqrt : Real.sqrt (97344 / 97969) = 312 / 313 := by
    rw [show (97344 / 97969 : ℝ) = (312 / 313) ^ 2 by norm_num]
    exact Real.sqrt_sq (by norm_num)
  simp [intelligence.averageEmbeddings, intelligence.normalizeVector]
  norm_num [hsqrt]

theorem drift_cos_ac_b :
    sqlite.cosineSimilarity Real.sqrt [312 / 313, 25 / 313] [35 / 37, 12 / 37]
      = 11220 / 11581 := by
  simp [sqlite.cosineSimilarity]
  norm_num

theorem drift_embed_a : Examples.driftEmbed (F := ℝ) "a" = [1, 0] := by
  simp [Examples.driftEmbed]

theorem drift_embed_b : Examples.driftEmbed (F := ℝ) "b" = [35 / 37, 12 / 37] := by
  simp [Examples.driftEmbed]

theorem drift_embed_c :
    Examples.driftEmbed (F := ℝ) "c" = [96719 / 97969, 15600 / 97969] := by
  simp [Examples.driftEmbed]

theorem drift_step1 :
    ((core.sqliteClient Real.sqrt Examples.driftEmbed 0.95).Add Real.sqrt none "a"
      Examples.driftOpts (core.emptyWorld (fun n => n) (fun n => n + 1))).2.env
      = Examples.driftEnv1 := by
  simp [drift_embed_a, Examples.driftOpts, Examples.driftEnv1, Examples.driftRowA,
    core.Client.Add, core.sqliteClient, core.NewClientWith,
    core.emptyWorld, core.applyAddOptions, core.WithUserID, core.WithInfer, World.call,
    core.envEmbedder, core.envStore, core.envNode, core.Client.addInsert, sqlite.Insert,
    core.toStorageMemory, intelligence.DedupManager.CheckDuplicate,
    intelligence.NewDedupManager, sqlite.Search, sqlite.orderById, sqlite.sortByScore,
    sqlite.bubbleSort, intelligence.firstDuplicate]

theorem drift_step2_check (l : List (Call ℝ)) :
    ((intelligence.NewDedupManager (core.envStore Real.sqrt) (0.95 : ℝ)).CheckDuplicate
      [35 / 37, 12 / 37] "u1" "" ⟨Examples.driftEnv1, l⟩)
      = ((false, 0, none), ⟨Examples.driftEnv1, l ++ [.search [35 / 37, 12 / 37]
          { UserID := "u1", AgentID := "", Limit := 5, MinScore := 0, Filters := [] }]⟩) := by
  norm_num [Examples.driftEnv1, Examples.driftRowA, World.call,
    core.envStore, intelligence.DedupManager.CheckDuplicate,
    intelligence.NewDedupManager, sqlite.Search, sqlite.buildWhereClause, sqlite.orderById,
    sqlite.scanMemory, sqlite.sortByScore, sqlite.bubbleSort, sqlite.bubblePass,
    intelligence.firstDuplicate, drift_cos_b_a]

theorem drift_step2 (l : List (Call ℝ)) :
    ((core.sqliteClient Real.sqrt Examples.driftEmbed 0.95).Add Real.sqrt none "b"
      Examples.driftOpts ⟨Examples.driftEnv1, l⟩).2.env = Examples.driftEnv2 := by
  have hemb : ((core.sqliteClient Real.sqrt Examples.driftEmbed 0.95).embedder.Embed "b"
      Examples.driftEnv1).1 = .ok [35 / 37, 12 / 37] := by
    simp [core.sqliteClient, core.NewClientWith, core.envEmbedder, drift_embed_b]
  have hadd := add_infer_no_duplicate Real.sqrt
    (core.sqliteClient Real.sqrt Examples.driftEmbed 0.95) "b" Examples.driftOpts
    ⟨Examples.driftEnv1, l⟩
    (intelligence.NewDedupManager (core.envStore Real.sqrt) (0.95 : ℝ)) [35 / 37, 12 / 37] 0
    ⟨Examples.driftEnv1, l ++ [Call.embed "b"] ++ [Call.search ([35 / 37, 12 / 37] : List ℝ)
      { UserID := "u1", AgentID := "", Limit := 5, MinScore := 0, Filters := [] }]⟩
    rfl rfl hemb (drift_step2_check (l ++ [Call.embed "b"]))
  rw [hadd, sqliteClient_addInsert_fresh Real.sqrt Examples.driftEmbed 0.95 _ "b" _ _
    (by simp [Examples.driftEnv1, Examples.driftRowA])]
  simp [Examples.driftEnv1, Examples.driftEnv2, Examples.driftRowA, Examples.driftRowB,
    core.applyAddOptions, Examples.driftOpts, core.WithUserID, core.WithInfer]

theorem drift_step3_check (l : List (Call ℝ)) :
    ((intelligence.NewDedupManager (core.envStore Real.sqrt) (0.95 : ℝ)).CheckDuplicate
      [96719 / 97969, 15600 / 97969] "u1" "" ⟨Examples.driftEnv2, l⟩)
      = ((true, 1, none), ⟨Examples.driftEnv2, l ++ [.search [96719 / 97969, 15600 / 97969]
          { UserID := "u1", AgentID := "", Limit := 5, MinScore := 0, Filters := [] }]⟩) := by
  have hr : List.range 1 = [0] := rfl
  norm_num [Examples.driftEnv2, Examples.driftRowA, Examples.driftRowB, World.call,
    core.envStore, intelligence.DedupManager.CheckDuplicate,
    intelligence.NewDedupManager, sqlite.Search, sqlite.buildWhereClause, sqlite.orderById,
    sqlite.scanMemory, sqlite.sortByScore, sqlite.bubbleSort, sqlite.bubblePass,
    intelligence.firstDuplicate, drift_cos_c_a, drift_cos_c_b, hr]

theorem drift_step3_merge (l : List (Call ℝ)) :
    ((intelligence.NewDedupManager (core.envStore Real.sqrt) (0.95 : ℝ)).MergeMemories
      Real.sqrt 1 "c" [96719 / 97969, 15600 / 97969] ⟨Examples.driftEnv2, l⟩).2.env.db.rows
      = [Examples.driftRowAC, Examples.driftRowB] := by
  have hs : "a" ++ " " ++ "c" = "a c" := by decide
  norm_num [Examples.driftEnv2, Examples.driftRowA, Examples.driftRowB, Examples.driftRowAC,
    World.call, core.envStore, intelligence.NewDedupManager,
    intelligence.DedupManager.MergeMemories, sqlite.Get, sqlite.Update, sqlite.scanMemory,
    drift_average, hs]

theorem drift_step3 (l : List (Call ℝ)) :
    ((core.sqliteClient Real.sqrt Examples.driftEmbed 0.95).Add Real.sqrt none "c"
      Examples.driftOpts ⟨Examples.driftEnv2, l⟩).2.env.db.rows
      = [Examples.driftRowAC, Examples.driftRowB] := by
  have hemb : ((core.sqliteClient Real.sqrt Examples.driftEmbed 0.95).embedder.Embed "c"
      Examples.driftEnv2).1 = .ok [96719 / 97969, 15600 / 97969] := by
    simp [core.sqliteClient, core.NewClientWith, core.envEmbedder, drift_embed_c]
  have hadd := add_infer_duplicate Real.sqrt
    (core.sqliteClient Real.sqrt Examples.driftEmbed 0.95) "c" Examples.driftOpts
    ⟨Examples.driftEnv2, l⟩
    (intelligence.NewDedupManager (core.envStore Real.sqrt) (0.95 : ℝ))
    [96719 / 97969, 15600 / 97969] 1
    ⟨Examples.driftEnv2, l ++ [Call.embed "c"] ++
      [Call.search ([96719 / 97969, 15600 / 97969] : List ℝ)
        { UserID := "u1", AgentID := "", Limit := 5, MinScore := 0, Filters := [] }]⟩
    rfl rfl hemb (drift_step3_check (l ++ [Call.embed "c"]))
  rw [hadd, drift_step3_merge]

end DriftExample

/-- C7 (as stated) fails: with threshold 0.95 and three `Add(infer=true)` calls of user "u1" whose
embeddings are `a = (1, 0)`, `b = (35/37, 12/37)` and `c = (96719/97969, 15600/97969)`, the
second call inserts `b` (similarity 35/37 to `a`, below 0.95), the third merges `c` into `a`
(similarity 96719/97969, the best match), and the merged embedding `(312/313, 25/313)` has
similarity 11220/11581 > 0.95 with the stored `b`: two records of one scope lie above the
threshold. -/
theorem C7_counterexample_merge_drifts_within_threshold :
    let client := core.sqliteClient Real.sqrt Examples.driftEmbed 0.95
    let w1 := (client.Add Real.sqrt none "a" Examples.driftOpts
      (core.emptyWorld (fun n => n) (fun n => n + 1))).2
    let w2 := (client.Add Real.sqrt none "b" Examples.driftOpts w1).2
    let w3 := (client.Add Real.sqrt none "c" Examples.driftOpts w2).2
    ∃ r1 ∈ w3.env.db.rows, ∃ r2 ∈ w3.env.db.rows, r1.id ≠ r2.id ∧ r1.user_id = r2.user_id ∧
      r1.agent_id = r2.agent_id ∧
      sqlite.cosineSimilarity Real.sqrt r1.embedding r2.embedding > 0.95 := by
  intro client w1 w2 w3
  have e1 : w1.env = Examples.driftEnv1 := drift_step1
  have hw1 := World.eta w1
  rw [e1] at hw1
  clear_value w1
  clear e1
  generalize w1.log = l1 at hw1
  subst hw1
  have e2 : w2.env = Examples.driftEnv2 := drift_step2 l1
  have hw2 := World.eta w2
  rw [e2] at hw2
  clear_value w2
  clear e2
  generalize w2.log = l2 at hw2
  subst hw2
  have e3 : w3.env.db.rows = [Examples.driftRowAC, Examples.driftRowB] := drift_step3 l2
  clear_value w3
  rw [e3]
  refine ⟨_, List.mem_cons_self _ _, _, List.mem_cons_of_mem _ (List.mem_cons_self _ _),
    by simp [Examples.driftRowAC, Examples.driftRowB], rfl, rfl, ?_⟩
  show sqlite.cosineSimilarity Real.sqrt [312 / 313, 25 / 313] [35 / 37, 12 / 37] > 0.95
  rw [drift_cos_ac_b]
  norm_num

section InsertHelpers

variable {F : Type} [LinearOrderedField F]

theorem sortByScore_below (l : List (storage.Memory F)) (limit : Int) (t : F) (hl : 0 < limit)
    (h : ∀ x ∈ sqlite.sortByScore l limit, x.Score < t) : ∀ x ∈ l, x.Score < t := by
  intro x hx
  rw [sortByScore_eq, if_pos hl] at h
  have hperm := bubbleSort_perm l
  have hsorted := bubbleSort_sorted l
  have hxs : x ∈ sqlite.bubbleSort l := hperm.symm.subset hx
  cases hs : sqlite.bubbleSort l with
  | nil => rw [hs] at hxs; simp at hxs
  | cons a tl =>
    rw [hs] at hxs hsorted h
    have hpos : 0 < limit.toNat := by omega
    have ha : a ∈ (a :: tl).take limit.toNat := by
      obtain ⟨n, hn⟩ : ∃ n, limit.toNat = n + 1 := ⟨limit.toNat - 1, by omega⟩
      rw [hn]
      simp
    have hat := h a ha
    rcases List.mem_cons.1 hxs with rfl | hxt
    · exact hat
    · exact lt_of_le_of_lt ((List.pairwise_cons.1 hsorted).1 x hxt) hat

theorem envStore_checkDuplicate (sqrt : F → F) (thr : F) (emb : List F) (u a : String)
    (w : World (core.Env F) F) (ms : List (storage.Memory F))
    (hms : (sqlite.Search sqrt emb
      { UserID := u, AgentID := a, Limit := 5, MinScore := 0, Filters := [] } w.env.db).1
        = .ok ms) :
    (intelligence.NewDedupManager (core.envStore sqrt) thr).CheckDuplicate emb u a w
      = (((intelligence.firstDuplicate (if thr = 0 then 0.95 else thr) ms).1,
          (intelligence.firstDuplicate (if thr = 0 then 0.95 else thr) ms).2, none),
        ⟨w.env, w.log ++ [.search emb
          { UserID := u, AgentID := a, Limit := 5, MinScore := 0, Filters := [] }]⟩) := by
  have h1 : (sqlite.Search sqrt emb
      { UserID := u, AgentID := a, Limit := 5, MinScore := 0, Filters := [] } w.env.db).1
        = .ok (sqlite.sortByScore _ 5) := rfl
  rw [hms] at h1
  have h2 := Except.ok.inj h1
  subst h2
  simp only [intelligence.DedupManager.CheckDuplicate, World.call,
    intelligence.NewDedupManager, core.envStore, sqlite.Search]

theorem envStore_merge_rows_length (sqrt : F → F) (thr : F) (id : Int) (content : String)
    (emb : List F) (w : World (core.Env F) F) :
    ((intelligence.NewDedupManager (core.envStore sqrt) thr).MergeMemories sqrt id content emb
      w).2.env.db.rows.length = w.env.db.rows.length := by
  cases hget : ((intelligence.NewDedupManager (core.envStore sqrt) thr).store.Get id w.env).1 with
  | error err =>
    simp only [intelligence.DedupManager.MergeMemories, World.call, hget]
    simp [intelligence.NewDedupManager, core.envStore, sqlite_get_state]
  | ok e =>
    cases hupd : ((intelligence.NewDedupManager (core.envStore sqrt) thr).store.Update id
        (e.Content ++ " " ++ content) (intelligence.averageEmbeddings sqrt e.Embedding emb)
        ((intelligence.NewDedupManager (core.envStore sqrt) thr).store.Get id w.env).2).1 with
    | error err =>
      simp only [intelligence.DedupManager.MergeMemories, World.call, hget, hupd]
      simp [intelligence.NewDedupManager, core.envStore, sqlite_get_state, sqlite_update_rows]
    | ok updated =>
      simp only [intelligence.DedupManager.MergeMemories, World.call, hget, hupd]
      simp [intelligence.NewDedupManager, core.envStore, sqlite_get_state, sqlite_update_rows]

end InsertHelpers

/-- C7 (amended): with dedup enabled at a configured threshold `>= 0` (effective threshold `t`:
0.95 for a configured 0), whenever an `Add(infer=true)` over the SQLite store inserts a new
record, that record carries the new embedding and the given user_id and agent_id, and every
record stored before the call in the same (user_id, agent_id) scope has cosine similarity below
`t` with the new embedding. (Nothing is claimed about pairs of records after a merge, whose
embedding is replaced by a normalised average.) -/
theorem C7_insert_only_when_scope_below_threshold {F : Type} [LinearOrderedField F]
    (sqrt : F → F) (embed : String → List F) (thr : F) (content : String)
    (opts : List core.AddOption) (w : World (core.Env F) F) (row : sqlite.Row F)
    (hthr : 0 ≤ thr)
    (hinf : (core.applyAddOptions opts).Infer = true)
    (hins : ((core.sqliteClient sqrt embed thr).Add sqrt none content opts w).2.env.db.rows
      = w.env.db.rows ++ [row]) :
    row.embedding = embed content ∧ row.user_id = (core.applyAddOptions opts).UserID ∧
    row.agent_id = (core.applyAddOptions opts).AgentID ∧
    ∀ r ∈ w.env.db.rows, r.user_id = row.user_id → r.agent_id = row.agent_id →
      sqlite.cosineSimilarity sqrt row.embedding r.embedding
        < (if thr = 0 then 0.95 else thr) := by
  have ht : (0 : F) < (if thr = 0 then 0.95 else thr) := by
    split_ifs with h0
    · norm_num
    · exact lt_of_le_of_ne hthr (Ne.symm h0)
  have hemb : ((core.sqliteClient sqrt embed thr).embedder.Embed content w.env).1
      = .ok (embed content) := rfl
  have hdm : (core.sqliteClient sqrt embed thr).dedupManager
      = some (intelligence.NewDedupManager (core.envStore sqrt) thr) := rfl
  obtain ⟨ms, hms, -, -⟩ := sqlite_search_results sqrt (embed content)
    { UserID := (core.applyAddOptions opts).UserID,
      AgentID := (core.applyAddOptions opts).AgentID,
      Limit := 5, MinScore := 0, Filters := [] } w.env.db
  have hcd := envStore_checkDuplicate sqrt thr (embed content)
    (core.applyAddOptions opts).UserID (core.applyAddOptions opts).AgentID
    ⟨w.env, w.log ++ [.embed content]⟩ ms hms
  rcases hfd : intelligence.firstDuplicate (if thr = 0 then 0.95 else thr) ms with ⟨b, id⟩
  rw [hfd] at hcd
  cases b with
  | true =>
    exfalso
    have h2 := add_infer_duplicate sqrt (core.sqliteClient sqrt embed thr) content opts w _
      (embed content) id _ hinf hdm hemb hcd
    rw [h2] at hins
    have hlen := envStore_merge_rows_length sqrt thr id content (embed content)
      ⟨w.env, w.log ++ [.embed content] ++ [.search (embed content)
        { UserID := (core.applyAddOptions opts).UserID,
          AgentID := (core.applyAddOptions opts).AgentID,
          Limit := 5, MinScore := 0, Filters := [] }]⟩
    rw [hins] at hlen
    simp at hlen
  | false =>
    have h2 := add_infer_no_duplicate sqrt (core.sqliteClient sqrt embed thr) content opts w _
      (embed content) id _ hinf hdm hemb hcd
    rw [h2, sqliteClient_addInsert_rows] at hins
    split at hins
    · exfalso
      have := congrArg List.length hins
      simp at this
    · have hrow := (List.append_inj' hins rfl).2
      simp only [List.cons.injEq, and_true] at hrow
      subst hrow
      refine ⟨rfl, rfl, rfl, ?_⟩
      intro r hr hu ha
      simp only at hu ha
      have hnone : ∀ x ∈ ms, x.Score < (if thr = 0 then 0.95 else thr) := by
        intro x hx
        by_contra hge
        have : (intelligence.firstDuplicate (if thr = 0 then 0.95 else thr) ms).1 = true :=
          (firstDuplicate_true_iff _ ms).2 ⟨x, hx, not_lt.1 hge⟩
        rw [hfd] at this
        exact absurd this (by simp)
      by_cases hneg : sqlite.cosineSimilarity sqrt (embed content) r.embedding < 0
      · exact lt_trans hneg ht
      · have hsort : ms = sqlite.sortByScore
            (((sqlite.orderById (w.env.db.rows.filter
                (sqlite.buildWhereClause (core.applyAddOptions opts).UserID
                  (core.applyAddOptions opts).AgentID []))).map
              (fun r => { sqlite.scanMemory r with
                Score := sqlite.cosineSimilarity sqrt (embed content)
                  (sqlite.scanMemory r).Embedding })).filter
              (fun m => decide (m.Score ≥ 0))) 5 := by
          have h1 : (sqlite.Search sqrt (embed content)
              { UserID := (core.applyAddOptions opts).UserID,
                AgentID := (core.applyAddOptions opts).AgentID,
                Limit := 5, MinScore := 0, Filters := [] } w.env.db).1 = .ok _ := rfl
          rw [hms] at h1
          exact Except.ok.inj h1
        rw [hsort] at hnone
        have hall := sortByScore_below _ 5 _ (by norm_num) hnone
        have hmem : ({ sqlite.scanMemory r with
            Score := sqlite.cosineSimilarity sqrt (embed content)
              (sqlite.scanMemory r).Embedding } : storage.Memory F) ∈
            (((sqlite.orderById (w.env.db.rows.filter
                (sqlite.buildWhereClause (core.applyAddOptions opts).UserID
                  (core.applyAddOptions opts).AgentID []))).map
              (fun r => { sqlite.scanMemory r with
                Score := sqlite.cosineSimilarity sqrt (embed content)
                  (sqlite.scanMemory r).Embedding })).filter
              (fun m => decide (m.Score ≥ 0))) := by
          rw [List.mem_filter]
          refine ⟨List.mem_map.2 ⟨r, ?_, rfl⟩, ?_⟩
          · rw [mem_orderById, List.mem_filter]
            refine ⟨hr, ?_⟩
            simp [sqlite.buildWhereClause, hu, ha]
          · simpa [sqlite.scanMemory] using not_lt.1 hneg
        exact hall _ hmem

section WitnessHelpers

theorem drift_step1_result :
    ((core.sqliteClient Real.sqrt Examples.driftEmbed 0.95).Add Real.sqrt none "a"
      Examples.driftOpts (core.emptyWorld (fun n => n) (fun n => n + 1))).1
      = (some { ID := 1, UserID := "u1", AgentID := "", Content := "a", Embedding := [1, 0],
                SparseEmbedding := [], Metadata := [], CreatedAt := 0, UpdatedAt := 0,
                RetentionStrength := 1.0, LastAccessedAt := none, Score := 0 }, none) := by
  simp [drift_embed_a, Examples.driftOpts,
    core.Client.Add, core.sqliteClient, core.NewClientWith,
    core.emptyWorld, core.applyAddOptions, core.WithUserID, core.WithInfer, World.call,
    core.envEmbedder, core.envStore, core.envNode, core.Client.addInsert, sqlite.Insert,
    core.toStorageMemory, intelligence.DedupManager.CheckDuplicate,
    intelligence.NewDedupManager, sqlite.Search, sqlite.orderById, sqlite.sortByScore,
    sqlite.bubbleSort, intelligence.firstDuplicate]

theorem agent_check_duplicate :
    ((intelligence.NewDedupManager (sqlite.store Real.sqrt) (0.95 : ℝ)).CheckDuplicate
      [1, 0] "u1" "a1" Examples.agentWorld).1 = (true, 1, none) := by
  simp [intelligence.DedupManager.CheckDuplicate, intelligence.NewDedupManager, World.call,
    sqlite.store, sqlite.Search, Examples.agentWorld, Examples.agentRow,
    sqlite.buildWhereClause, sqlite.orderById, sqlite.scanMemory, sqlite.cosineSimilarity,
    sqlite.sortByScore, sqlite.bubbleSort, intelligence.firstDuplicate]
  norm_num

theorem agent_merge_ok :
    ((intelligence.NewDedupManager (sqlite.store Real.sqrt) (0.95 : ℝ)).MergeMemories
      Real.sqrt 1 "with milk" [1, 0] Examples.agentWorld).1
      = .ok { ID := 1, UserID := "u1", AgentID := "a1", Content := "likes tea with milk",
              Embedding := intelligence.averageEmbeddings Real.sqrt [1, 0] [1, 0],
              Metadata := [], CreatedAt := 0, UpdatedAt := 0, RetentionStrength := 1,
              LastAccessedAt := none, Score := 0 } := by
  have hs : "likes tea" ++ " " ++ "with milk" = "likes tea with milk" := by decide
  simp [intelligence.DedupManager.MergeMemories, intelligence.NewDedupManager, World.call,
    sqlite.store, sqlite.Get, sqlite.Update, Examples.agentWorld, Examples.agentRow,
    sqlite.scanMemory, hs]

end WitnessHelpers

section MergeWitness

/-- The `Add` of "more" with `infer=true` over `fixedClient` merges into record 8, the first
search result whose score reaches 0.95. -/
theorem fixedClient_add_merges :
    (Examples.fixedClient.Add id none "more" [core.WithUserID "u1", core.WithInfer true]
      ⟨(), []⟩).1
      = (some { ID := 8, UserID := "u1", AgentID := "", Content := " more", Embedding := [],
                SparseEmbedding := [], Metadata := [], CreatedAt := 0, UpdatedAt := 0,
                RetentionStrength := 1, LastAccessedAt := none, Score := 97 / 100 }, none) := by
  have hs : " " ++ "more" = " more" := by decide
  norm_num [core.Client.Add, Examples.fixedClient, core.applyAddOptions, core.WithUserID,
    core.WithInfer, World.call, intelligence.DedupManager.CheckDuplicate,
    intelligence.NewDedupManager, Examples.fixedStore, Examples.threeResults, Examples.scored,
    intelligence.firstDuplicate, intelligence.DedupManager.MergeMemories,
    intelligence.averageEmbeddings, intelligence.normalizeVector,
    core.fromIntelligenceMemory, hs]

end MergeWitness

/-- Witness of C1: over `fixedClient`, whose search results hold a record of score 0.97, the
`Add` of "more" with `infer=true` succeeds and merges into that record. -/
theorem C1_witness :
    (Examples.fixedClient.Add id none "more" [core.WithUserID "u1", core.WithInfer true]
      ⟨(), []⟩).1
      = (some { ID := 8, UserID := "u1", AgentID := "", Content := " more", Embedding := [],
                SparseEmbedding := [], Metadata := [], CreatedAt := 0, UpdatedAt := 0,
                RetentionStrength := 1, LastAccessedAt := none, Score := 97 / 100 }, none) ∧
    ∃ embedding, (Examples.fixedClient.embedder.Embed "more" ()).1 = .ok embedding :=
  ⟨fixedClient_add_merges,
    (C1_add_merges_iff_duplicate_else_inserts id Examples.fixedClient "more"
      [core.WithUserID "u1", core.WithInfer true] ⟨(), []⟩ _ fixedClient_add_merges).imp
      (fun _ h => h.1)⟩

/-- Witness of C2: over the results with scores 0.5, 0.97 and 0.99 and a configured threshold 0,
`CheckDuplicate` reports a duplicate. -/
theorem C2_witness :
    ((Examples.fixedStore Examples.threeResults).Search [] 
      { UserID := "u1", AgentID := "", Limit := 5, MinScore := 0, Filters := [] } ()).1
      = .ok Examples.threeResults ∧
    (((intelligence.NewDedupManager (Examples.fixedStore Examples.threeResults) 0).CheckDuplicate
        [] "u1" "" ⟨(), []⟩).1.1 = true ↔
      ∃ x ∈ Examples.threeResults, x.Score ≥ (if (0 : ℚ) = 0 then 0.95 else 0)) :=
  ⟨rfl, (C2_check_duplicate_first_above_threshold (Examples.fixedStore Examples.threeResults) 0
    [] "u1" "" ⟨(), []⟩ Examples.threeResults rfl).2.1⟩

/-- Witness of C3 (amended): a duplicate reported for user "u1" and agent "a1" is the stored
record of that user and agent. -/
theorem C3_witness :
    ((Examples.agentWorld.env.rows.map (fun r => r.id)).Nodup ∧
      ((intelligence.NewDedupManager (sqlite.store Real.sqrt) (0.95 : ℝ)).CheckDuplicate
        [1, 0] "u1" "a1" Examples.agentWorld).1 = (true, 1, none)) ∧
    ∀ r ∈ Examples.agentWorld.env.rows, r.id = 1 →
      (("u1" : String) ≠ "" → r.user_id = "u1") ∧ (("a1" : String) ≠ "" → r.agent_id = "a1") :=
  ⟨⟨by simp [Examples.agentWorld], agent_check_duplicate⟩,
    (C3_check_duplicate_scoped_when_nonempty Real.sqrt 0.95 [1, 0] "u1" "a1"
      Examples.agentWorld 1 (by simp [Examples.agentWorld]) agent_check_duplicate).2⟩

/-- Witness of C4: merging "with milk" into the stored record 1 of the one-record table. -/
theorem C4_witness :
    ((intelligence.NewDedupManager (sqlite.store Real.sqrt) (0.95 : ℝ)).MergeMemories
      Real.sqrt 1 "with milk" [1, 0] Examples.agentWorld).2.log
      = [.get 1, .update 1 ("likes tea" ++ " " ++ "with milk")
          (intelligence.averageEmbeddings Real.sqrt [1, 0] [1, 0])] :=
  (C4_merge_memories_one_update Real.sqrt
    (intelligence.NewDedupManager (sqlite.store Real.sqrt) (0.95 : ℝ)) 1 "with milk" [1, 0]
    Examples.agentWorld (sqlite.scanMemory Examples.agentRow)
    (sqlite.scanMemory
      { Examples.agentRow with
        content := "likes tea" ++ " " ++ "with milk",
        embedding := intelligence.averageEmbeddings Real.sqrt [1, 0] [1, 0],
        updated_at := 0 })
    (by simp [intelligence.NewDedupManager, sqlite.store, sqlite.Get, Examples.agentWorld,
      Examples.agentRow])
    (by simp [intelligence.NewDedupManager, sqlite.store, sqlite.Get, sqlite.Update,
      Examples.agentWorld, Examples.agentRow, sqlite.scanMemory])).1

/-- Witness of C5: the same merge leaves the id, user_id and agent_id of the stored record as
they were. -/
theorem C5_witness :
    List.Forall₂
      (fun r r' : sqlite.Row ℝ =>
        r'.id = r.id ∧ r'.created_at = r.created_at ∧ r'.user_id = r.user_id ∧
        r'.agent_id = r.agent_id ∧ r'.metadata = r.metadata ∧
        r'.retention_strength = r.retention_strength ∧
        r'.last_accessed_at = r.last_accessed_at ∧ (r.id ≠ 1 → r' = r))
      Examples.agentWorld.env.rows
      ((intelligence.NewDedupManager (sqlite.store Real.sqrt) (0.95 : ℝ)).MergeMemories
        Real.sqrt 1 "with milk" [1, 0] Examples.agentWorld).2.env.rows :=
  C5_merge_changes_only_content_embedding_updated_at Real.sqrt 0.95 1 "with milk" [1, 0]
    Examples.agentWorld _ agent_merge_ok

/-- Witness of C6: two texts with the same embedding `(1, 0)`. -/
theorem C6_witness :
    sqlite.cosineSimilarity Real.sqrt [1, 0] [1, 0] ≥ 0.95 ∧
    ∃ m, ((core.sqliteClient Real.sqrt (fun _ => [1, 0]) 0.95).GetAll
        [core.WithUserIDForGetAll "u1"]
        ((core.sqliteClient Real.sqrt (fun _ => [1, 0]) 0.95).Add Real.sqrt none
          "User loves coffee" [core.WithUserID "u1", core.WithInfer true]
          ((core.sqliteClient Real.sqrt (fun _ => [1, 0]) 0.95).Add Real.sqrt none
            "User likes coffee" [core.WithUserID "u1"]
            (core.emptyWorld (fun n => n) (fun n => n + 1))).2).2).1 = (some [m], none) ∧
      m.ID = 1 ∧ m.UserID = "u1" ∧
      m.Content = "User likes coffee" ++ " " ++ "User loves coffee" :=
  ⟨by simp [sqlite.cosineSimilarity]; norm_num,
    (C6_second_add_merges_into_first Real.sqrt (fun _ => [1, 0]) (fun n => n) (fun n => n + 1)
      "u1" "User likes coffee" "User loves coffee"
      (by simp [sqlite.cosineSimilarity]; norm_num)).2.2.2⟩

/-- Witness of C7 (amended): the second `Add` of the drift example inserts `b`, whose similarity
to the stored `a` is below 0.95. -/
theorem C7_witness :
    ((0 : ℝ) ≤ 0.95 ∧
      (core.applyAddOptions Examples.driftOpts).Infer = true ∧
      ((core.sqliteClient Real.sqrt Examples.driftEmbed 0.95).Add Real.sqrt none "b"
        Examples.driftOpts ⟨Examples.driftEnv1, []⟩).2.env.db.rows
        = (Examples.driftEnv1 (F := ℝ)).db.rows ++ [Examples.driftRowB]) ∧
    ∀ r ∈ (Examples.driftEnv1 (F := ℝ)).db.rows,
      r.user_id = (Examples.driftRowB (F := ℝ)).user_id →
      r.agent_id = (Examples.driftRowB (F := ℝ)).agent_id →
      sqlite.cosineSimilarity Real.sqrt (Examples.driftRowB (F := ℝ)).embedding r.embedding
        < (if (0.95 : ℝ) = 0 then 0.95 else 0.95) :=
  ⟨⟨by norm_num, rfl, by rw [drift_step2]; rfl⟩,
    (C7_insert_only_when_scope_below_threshold Real.sqrt Examples.driftEmbed 0.95 "b"
      Examples.driftOpts ⟨Examples.driftEnv1, []⟩ Examples.driftRowB (by norm_num) rfl
      (by rw [drift_step2]; rfl)).2.2.2⟩

/-- Witness of C10 (amended): a record created 24 hours before `now`, never accessed. -/
theorem C10_witness :
    (intelligence.minDuration ≤ (86400000000000 : Int) - (none : Option Time).getD 0 ∧
      (86400000000000 : Int) - (none : Option Time).getD 0 ≤ intelligence.maxDuration) ∧
    (intelligence.NewEbbinghausManager (0.1 : ℝ) 0.3).CalculateRetention Real.exp
      86400000000000 0 none
      = Real.exp (-(intelligence.NewEbbinghausManager (0.1 : ℝ) 0.3).decayRate *
          ((((86400000000000 : Int) - (none : Option Time).getD 0 : Int) : ℝ) / 3600000000000)
          / 24) :=
  ⟨by norm_num [intelligence.minDuration, intelligence.maxDuration],
    (C10_calculate_retention_formula Real.exp (intelligence.NewEbbinghausManager (0.1 : ℝ) 0.3)
      86400000000000 0 none
      (by norm_num [intelligence.minDuration, intelligence.maxDuration])).1⟩

section RetentionHelpers

variable {F : Type} [LinearOrderedField F]

theorem calculateRetention_eq (exp : F → F) (m : intelligence.EbbinghausManager F)
    (now createdAt : Time) (lastAccessedAt : Option Time) :
    m.CalculateRetention exp now createdAt lastAccessedAt
      = exp (-m.decayRate * (((intelligence.Sub now (lastAccessedAt.getD createdAt) : Int) : F)
          / 3600000000000) / 24) := by
  unfold intelligence.EbbinghausManager.CalculateRetention
  cases lastAccessedAt with
  | none =>
    simp only [Option.getD_none, hours_eq]
    norm_num
  | some t =>
    simp only [Option.getD_some, hours_eq]
    norm_num

theorem sub_clamp_mono (t1 u1 t2 u2 : Int) (h : t1 - u1 ≤ t2 - u2) :
    intelligence.Sub t1 u1 ≤ intelligence.Sub t2 u2 := by
  unfold intelligence.Sub intelligence.maxDuration intelligence.minDuration
  split_ifs <;> norm_num at * <;> linarith

theorem sub_clamp_nonneg (t u : Int) (h : 0 ≤ t - u) : 0 ≤ intelligence.Sub t u := by
  unfold intelligence.Sub intelligence.maxDuration intelligence.minDuration
  split_ifs <;> norm_num at * <;> linarith

theorem sub_clamp_zero (t u : Int) (h : t - u = 0) : intelligence.Sub t u = 0 := by
  unfold intelligence.Sub intelligence.maxDuration intelligence.minDuration
  rw [h]
  norm_num

end RetentionHelpers

/-- C11: for a manager with `decay_rate > 0`, when the elapsed time from the reference timestamp
(`last_accessed_at` when present, `created_at` otherwise) to the evaluation time is smaller in
one evaluation than in another, the retention of the evaluation with the larger elapsed time is
less than or equal to that of the other. -/
theorem C11_retention_non_increasing_in_elapsed_time (m : intelligence.EbbinghausManager ℝ)
    (now1 now2 createdAt1 createdAt2 : Time) (lastAccessedAt1 lastAccessedAt2 : Option Time)
    (hdecay : 0 < m.decayRate)
    (helapsed : now1 - lastAccessedAt1.getD createdAt1
      < now2 - lastAccessedAt2.getD createdAt2) :
    m.CalculateRetention Real.exp now2 createdAt2 lastAccessedAt2
      ≤ m.CalculateRetention Real.exp now1 createdAt1 lastAccessedAt1 := by
  rw [calculateRetention_eq, calculateRetention_eq, Real.exp_le_exp]
  have hs : ((intelligence.Sub now1 (lastAccessedAt1.getD createdAt1) : Int) : ℝ)
      ≤ ((intelligence.Sub now2 (lastAccessedAt2.getD createdAt2) : Int) : ℝ) :=
    Int.cast_le.2 (sub_clamp_mono _ _ _ _ (le_of_lt helapsed))
  have h1 : m.decayRate * ((intelligence.Sub now1 (lastAccessedAt1.getD createdAt1) : Int) : ℝ)
      ≤ m.decayRate * ((intelligence.Sub now2 (lastAccessedAt2.getD createdAt2) : Int) : ℝ) :=
    mul_le_mul_of_nonneg_left hs (le_of_lt hdecay)
  have e : ∀ x : ℝ, -m.decayRate * (x / 3600000000000) / 24
      = -(m.decayRate * x) / 86400000000000 := by
    intro x
    ring
  rw [e, e]
  apply div_le_div_of_nonneg_right _ (by norm_num)
  linarith

/-- Witness of C11: a record created at time 0, evaluated one hour and two hours later. -/
theorem C11_witness :
    (intelligence.NewEbbinghausManager (0.1 : ℝ) 0.3).CalculateRetention Real.exp
        7200000000000 0 none
      ≤ (intelligence.NewEbbinghausManager (0.1 : ℝ) 0.3).CalculateRetention Real.exp
        3600000000000 0 none :=
  C11_retention_non_increasing_in_elapsed_time (intelligence.NewEbbinghausManager (0.1 : ℝ) 0.3)
    3600000000000 7200000000000 0 0 none none
    (by norm_num [intelligence.NewEbbinghausManager]) (by norm_num)

section UnderflowHelpers

variable {F : Type} [LinearOrderedField F]

/-- The underflowing exponential is monotone and not negative when `exp` is. -/
theorem binary64_exp_mono (exp : F → F) (hmono : Monotone exp) (hnn : ∀ x, 0 ≤ exp x) :
    Monotone (binary64.exp exp) := by
  intro x y hxy
  unfold binary64.exp
  split_ifs with hx hy hy
  · exact le_rfl
  · exact hnn y
  · exact absurd (lt_of_le_of_lt hxy hy) hx
  · exact hmono hxy

theorem binary64_exp_nonneg (exp : F → F) (hnn : ∀ x, 0 ≤ exp x) (x : F) :
    0 ≤ binary64.exp exp x := by
  unfold binary64.exp
  split_ifs
  · exact le_rfl
  · exact hnn x

theorem binary64_exp_zero (exp : F → F) : binary64.exp exp 0 = exp 0 := by
  unfold binary64.exp
  rw [if_neg (by norm_num)]

end UnderflowHelpers

/-- C12 (as stated) fails on both sides. Above 1: for a reference timestamp later than the
evaluation time (`decay_rate = 0.1`, evaluation time 0, `created_at` 24 hours later) the result
is `exp(0.1) > 1`. At 0: for a record 180000 hours old at `decay_rate = 0.1` the argument of
`math.Exp` is -750, below its underflow threshold, and the result is exactly 0, not greater
than 0. -/
theorem C12_counterexample_exceeds_one_or_underflows_to_zero :
    ((intelligence.NewEbbinghausManager (0.1 : ℝ) 0.3).CalculateRetention Real.exp
        0 86400000000000 none = Real.exp 0.1 ∧
      ¬ ((intelligence.NewEbbinghausManager (0.1 : ℝ) 0.3).CalculateRetention Real.exp
        0 86400000000000 none ≤ 1)) ∧
    ((intelligence.NewEbbinghausManager (0.1 : ℝ) 0.3).CalculateRetention
        (binary64.exp Real.exp) 648000000000000000 0 none = 0 ∧
      ¬ (0 < (intelligence.NewEbbinghausManager (0.1 : ℝ) 0.3).CalculateRetention
        (binary64.exp Real.exp) 648000000000000000 0 none)) := by
  have hs : intelligence.Sub 0 86400000000000 = -86400000000000 := by
    norm_num [intelligence.Sub, intelligence.maxDuration, intelligence.minDuration]
  have h : (intelligence.NewEbbinghausManager (0.1 : ℝ) 0.3).CalculateRetention Real.exp
        0 86400000000000 none = Real.exp 0.1 := by
    rw [calculateRetention_eq]
    simp only [Option.getD_none, hs, intelligence.NewEbbinghausManager]
    congr 1
    norm_num
  have hs2 : intelligence.Sub 648000000000000000 0 = 648000000000000000 := by
    norm_num [intelligence.Sub, intelligence.maxDuration, intelligence.minDuration]
  have h2 : (intelligence.NewEbbinghausManager (0.1 : ℝ) 0.3).CalculateRetention
        (binary64.exp Real.exp) 648000000000000000 0 none = 0 := by
    rw [calculateRetention_eq]
    simp only [Option.getD_none, hs2, intelligence.NewEbbinghausManager]
    unfold binary64.exp
    rw [if_pos (by norm_num)]
  refine ⟨⟨h, ?_⟩, h2, ?_⟩
  · rw [h, not_le]
    exact Real.one_lt_exp_iff.2 (by norm_num)
  · rw [h2]
    exact lt_irrefl 0

/-- C12 (amended): for every exponential `exp` that is monotone, not negative and 1 at 0 (as
`math.Exp` is, underflow included), every manager with `decay_rate > 0` and every `created_at`,
`last_accessed_at` and evaluation time such that the reference timestamp (`last_accessed_at`
when present, `created_at` otherwise) is not later than the evaluation time, the result of
`CalculateRetention` is at least 0 and at most 1.0, and it equals 1.0 when the elapsed time
is 0. -/
theorem C12_retention_in_unit_interval_for_past_reference {F : Type} [LinearOrderedField F]
    (exp : F → F) (m : intelligence.EbbinghausManager F) (now createdAt : Time)
    (lastAccessedAt : Option Time) (hexp0 : exp 0 = 1) (hmono : Monotone exp)
    (hnn : ∀ x, 0 ≤ exp x) (hdecay : 0 < m.decayRate)
    (hpast : lastAccessedAt.getD createdAt ≤ now) :
    0 ≤ m.CalculateRetention exp now createdAt lastAccessedAt ∧
    m.CalculateRetention exp now createdAt lastAccessedAt ≤ 1 ∧
    (now - lastAccessedAt.getD createdAt = 0 →
      m.CalculateRetention exp now createdAt lastAccessedAt = 1) := by
  rw [calculateRetention_eq]
  refine ⟨hnn _, ?_, ?_⟩
  · rw [← hexp0]
    apply hmono
    have hs : (0 : F) ≤ ((intelligence.Sub now (lastAccessedAt.getD createdAt) : Int) : F) :=
      Int.cast_nonneg.2 (sub_clamp_nonneg _ _ (sub_nonneg.2 hpast))
    have hm : 0 ≤ m.decayRate
        * (((intelligence.Sub now (lastAccessedAt.getD createdAt) : Int) : F) / 3600000000000) :=
      mul_nonneg (le_of_lt hdecay) (div_nonneg hs (by norm_num))
    have e : -m.decayRate
        * (((intelligence.Sub now (lastAccessedAt.getD createdAt) : Int) : F) / 3600000000000) / 24
        = -(m.decayRate * (((intelligence.Sub now (lastAccessedAt.getD createdAt) : Int) : F)
            / 3600000000000)) / 24 := by ring
    rw [e]
    apply div_nonpos_of_nonpos_of_nonneg _ (by norm_num)
    linarith
  · intro h0
    rw [sub_clamp_zero _ _ h0]
    simp [hexp0]

/-- Witness of C12 (amended): the underflowing exponential, a record created at time 0 and
evaluated one hour later. -/
theorem C12_witness :
    0 ≤ (intelligence.NewEbbinghausManager (0.1 : ℝ) 0.3).CalculateRetention
        (binary64.exp Real.exp) 3600000000000 0 none ∧
    (intelligence.NewEbbinghausManager (0.1 : ℝ) 0.3).CalculateRetention
        (binary64.exp Real.exp) 3600000000000 0 none ≤ 1 :=
  ⟨(C12_retention_in_unit_interval_for_past_reference (binary64.exp Real.exp)
      (intelligence.NewEbbinghausManager (0.1 : ℝ) 0.3) 3600000000000 0 none
      (by rw [binary64_exp_zero, Real.exp_zero])
      (binary64_exp_mono Real.exp Real.exp_monotone (fun x => (Real.exp_pos x).le))
      (binary64_exp_nonneg Real.exp (fun x => (Real.exp_pos x).le))
      (by norm_num [intelligence.NewEbbinghausManager]) (by norm_num)).1,
    (C12_retention_in_unit_interval_for_past_reference (binary64.exp Real.exp)
      (intelligence.NewEbbinghausManager (0.1 : ℝ) 0.3) 3600000000000 0 none
      (by rw [binary64_exp_zero, Real.exp_zero])
      (binary64_exp_mono Real.exp Real.exp_monotone (fun x => (Real.exp_pos x).le))
      (binary64_exp_nonneg Real.exp (fun x => (Real.exp_pos x).le))
      (by norm_num [intelligence.NewEbbinghausManager]) (by norm_num)).2.1⟩

section ReinforceHelpers

variable {F : Type} [LinearOrderedField F]

theorem reinforce_eq_min (m : intelligence.EbbinghausManager F) (s : F) :
    m.Reinforce s = min 1 (s + m.reinforcementFactor * (1 - s)) := by
  unfold intelligence.EbbinghausManager.Reinforce
  have e : (1.0 : F) = 1 := by norm_num
  simp only [e]
  by_cases h : s + m.reinforcementFactor * (1 - s) > 1
  · rw [if_pos h, min_eq_left (le_of_lt h)]
  · rw [if_neg h, min_eq_right (not_lt.1 h)]

end ReinforceHelpers

section Binary64Helpers

/-- A rational strictly within one half of an integer rounds to that integer. -/
theorem nearestEven_eq (x : ℚ) (m : ℤ) (h1 : (m : ℚ) - 1 / 2 < x) (h2 : x < m + 1 / 2) :
    binary64.nearestEven x = m := by
  unfold binary64.nearestEven
  by_cases hx : (m : ℚ) ≤ x
  · have hf : ⌊x⌋ = m := Int.floor_eq_iff.2 ⟨hx, by linarith⟩
    rw [hf, if_pos (by linarith)]
  · have hf : ⌊x⌋ = m - 1 := Int.floor_eq_iff.2 ⟨by push_cast; linarith, by push_cast; linarith⟩
    rw [hf]
    push_cast
    rw [if_neg (by linarith), if_pos (by linarith)]
    ring

/-- An integer rounds to itself. -/
theorem nearestEven_intCast (n : ℤ) : binary64.nearestEven (n : ℚ) = n :=
  nearestEven_eq _ n (by linarith) (by linarith)

/-- The rounded integer is the floor or the floor plus one. -/
theorem nearestEven_floor (x : ℚ) :
    binary64.nearestEven x = ⌊x⌋ ∨ binary64.nearestEven x = ⌊x⌋ + 1 := by
  unfold binary64.nearestEven
  split_ifs <;> simp

/-- Rounding to the nearest integer is monotone. -/
theorem nearestEven_mono {x y : ℚ} (h : x ≤ y) :
    binary64.nearestEven x ≤ binary64.nearestEven y := by
  have hfl : ⌊x⌋ ≤ ⌊y⌋ := Int.floor_mono h
  rcases lt_or_eq_of_le hfl with hlt | heq
  · have h1 : binary64.nearestEven x ≤ ⌊x⌋ + 1 := by
      rcases nearestEven_floor x with e | e <;> omega
    have h2 : ⌊y⌋ ≤ binary64.nearestEven y := by
      rcases nearestEven_floor y with e | e <;> omega
    omega
  · unfold binary64.nearestEven
    rw [← heq]
    have hxy : x - ⌊x⌋ ≤ y - ⌊x⌋ := by linarith
    split_ifs <;> first | omega | (exfalso; linarith)

/-- The value of `Int.log 2` between two consecutive powers of two. -/
theorem binary64_log_eq (q : ℚ) (k : ℤ) (h1 : (2 : ℚ) ^ k ≤ q) (h2 : q < 2 ^ (k + 1)) :
    Int.log 2 q = k := by
  have hq : 0 < q := lt_of_lt_of_le (by positivity) h1
  apply le_antisymm
  · have := (Int.lt_zpow_iff_log_lt (b := 2) (by norm_num) hq).1 h2
    omega
  · exact (Int.zpow_le_iff_le_log (b := 2) (by norm_num) hq).1 h1

/-- A positive rational lies in the binade that `Int.log 2` names. -/
theorem binary64_scaled_range (q : ℚ) (hq : 0 < q) :
    (2 : ℚ) ^ (52 : ℕ) ≤ q / 2 ^ (Int.log 2 q - 52) ∧
    q / 2 ^ (Int.log 2 q - 52) < 2 ^ (53 : ℕ) := by
  have h1 : (2 : ℚ) ^ Int.log 2 q ≤ q := by
    have := Int.zpow_log_le_self (b := 2) (by norm_num) hq
    simpa using this
  have h2 : q < (2 : ℚ) ^ (Int.log 2 q + 1) := by
    have := Int.lt_zpow_succ_log_self (b := 2) (by norm_num) q
    simpa using this
  have hp : (0 : ℚ) < 2 ^ (Int.log 2 q - 52) := by positivity
  have e1 : (2 : ℚ) ^ Int.log 2 q = 2 ^ (52 : ℕ) * 2 ^ (Int.log 2 q - 52) := by
    rw [← zpow_natCast, ← zpow_add₀ (by norm_num : (2 : ℚ) ≠ 0)]
    congr 1
    push_cast
    ring
  have e2 : (2 : ℚ) ^ (Int.log 2 q + 1) = 2 ^ (53 : ℕ) * 2 ^ (Int.log 2 q - 52) := by
    rw [← zpow_natCast, ← zpow_add₀ (by norm_num : (2 : ℚ) ≠ 0)]
    congr 1
    push_cast
    ring
  constructor
  · rw [le_div_iff₀ hp, ← e1]
    exact h1
  · rw [div_lt_iff₀ hp, ← e2]
    exact h2

/-- The mantissa of a rounded positive rational lies in `[2^52, 2^53]`. -/
theorem binary64_mantissa_range (q : ℚ) (hq : 0 < q) :
    (2 : ℤ) ^ (52 : ℕ) ≤ binary64.nearestEven (q / 2 ^ (Int.log 2 q - 52)) ∧
    binary64.nearestEven (q / 2 ^ (Int.log 2 q - 52)) ≤ 2 ^ (53 : ℕ) := by
  obtain ⟨h1, h2⟩ := binary64_scaled_range q hq
  constructor
  · have := nearestEven_mono h1
    have e : binary64.nearestEven ((2 : ℚ) ^ (52 : ℕ)) = 2 ^ (52 : ℕ) := by
      have := nearestEven_intCast (2 ^ (52 : ℕ))
      push_cast at this
      exact this
    rw [e] at this
    exact this
  · have := nearestEven_mono (le_of_lt h2)
    have e : binary64.nearestEven ((2 : ℚ) ^ (53 : ℕ)) = 2 ^ (53 : ℕ) := by
      have := nearestEven_intCast (2 ^ (53 : ℕ))
      push_cast at this
      exact this
    rw [e] at this
    exact this

/-- A positive rational rounds to a positive one. -/
theorem binary64_roundPos_pos (q : ℚ) (hq : 0 < q) : 0 < binary64.roundPos q := by
  unfold binary64.roundPos
  have h := (binary64_mantissa_range q hq).1
  have : (0 : ℚ) < (binary64.nearestEven (q / 2 ^ (Int.log 2 q - 52)) : ℚ) := by
    have : (0 : ℤ) < binary64.nearestEven (q / 2 ^ (Int.log 2 q - 52)) :=
      lt_of_lt_of_le (by norm_num) h
    exact_mod_cast this
  positivity

/-- Rounding of positive rationals is monotone. -/
theorem binary64_roundPos_mono (p q : ℚ) (hp : 0 < p) (hpq : p ≤ q) :
    binary64.roundPos p ≤ binary64.roundPos q := by
  have hq : 0 < q := lt_of_lt_of_le hp hpq
  have hlog : Int.log 2 p ≤ Int.log 2 q := Int.log_mono_right hp hpq
  unfold binary64.roundPos
  rcases lt_or_eq_of_le hlog with hlt | heq
  · have hm1 := (binary64_mantissa_range p hp).2
    have hm2 := (binary64_mantissa_range q hq).1
    have h1 : (binary64.nearestEven (p / 2 ^ (Int.log 2 p - 52)) : ℚ) ≤ 2 ^ (53 : ℕ) := by
      exact_mod_cast hm1
    have h2 : (2 : ℚ) ^ (52 : ℕ) ≤ (binary64.nearestEven (q / 2 ^ (Int.log 2 q - 52)) : ℚ) := by
      exact_mod_cast hm2
    have hpp : (0 : ℚ) < 2 ^ (Int.log 2 p - 52) := by positivity
    have hqq : (0 : ℚ) < 2 ^ (Int.log 2 q - 52) := by positivity
    calc (binary64.nearestEven (p / 2 ^ (Int.log 2 p - 52)) : ℚ) * 2 ^ (Int.log 2 p - 52)
        ≤ 2 ^ (53 : ℕ) * 2 ^ (Int.log 2 p - 52) := mul_le_mul_of_nonneg_right h1 hpp.le
      _ = 2 ^ (Int.log 2 p + 1) := by
          rw [← zpow_natCast, ← zpow_add₀ (by norm_num : (2 : ℚ) ≠ 0)]
          congr 1
          push_cast
          ring
      _ ≤ 2 ^ (Int.log 2 q) := zpow_le_zpow_right₀ (by norm_num) (by omega)
      _ = 2 ^ (52 : ℕ) * 2 ^ (Int.log 2 q - 52) := by
          rw [← zpow_natCast, ← zpow_add₀ (by norm_num : (2 : ℚ) ≠ 0)]
          congr 1
          push_cast
          ring
      _ ≤ (binary64.nearestEven (q / 2 ^ (Int.log 2 q - 52)) : ℚ) * 2 ^ (Int.log 2 q - 52) :=
          mul_le_mul_of_nonneg_right h2 hqq.le
  · rw [heq]
    have hqq : (0 : ℚ) < 2 ^ (Int.log 2 q - 52) := by positivity
    apply mul_le_mul_of_nonneg_right _ hqq.le
    have : binary64.nearestEven (p / 2 ^ (Int.log 2 q - 52))
        ≤ binary64.nearestEven (q / 2 ^ (Int.log 2 q - 52)) :=
      nearestEven_mono (div_le_div_of_nonneg_right hpq hqq.le)
    exact_mod_cast this

/-- The `float64` rounding is monotone. -/
theorem binary64_round_mono : Monotone binary64.round := by
  intro p q hpq
  unfold binary64.round
  by_cases hp0 : p = 0
  · rw [if_pos hp0]
    by_cases hq0 : q = 0
    · rw [if_pos hq0]
    · have hq : 0 < q := lt_of_le_of_ne (hp0 ▸ hpq) (Ne.symm hq0)
      rw [if_neg hq0, if_pos hq]
      exact (binary64_roundPos_pos q hq).le
  · rw [if_neg hp0]
    by_cases hp : 0 < p
    · have hq : 0 < q := lt_of_lt_of_le hp hpq
      rw [if_pos hp, if_neg (ne_of_gt hq), if_pos hq]
      exact binary64_roundPos_mono p q hp hpq
    · have hpn : 0 < -p := by
        have : p < 0 := lt_of_le_of_ne (not_lt.1 hp) hp0
        linarith
      rw [if_neg hp]
      by_cases hq0 : q = 0
      · rw [if_pos hq0]
        have := binary64_roundPos_pos (-p) hpn
        linarith
      · rw [if_neg hq0]
        by_cases hq : 0 < q
        · rw [if_pos hq]
          have h1 := binary64_roundPos_pos (-p) hpn
          have h2 := binary64_roundPos_pos q hq
          linarith
        · rw [if_neg hq]
          have hqn : 0 < -q := by
            have : q < 0 := lt_of_le_of_ne (not_lt.1 hq) hq0
            linarith
          have := binary64_roundPos_mono (-q) (-p) hqn (by linarith)
          linarith

/-- The value of the `float64` rounding of a positive rational, from its binade and the integer
nearest to its scaled value. -/
theorem binary64_round_eq (q : ℚ) (e m : ℤ) (hq : 0 < q) (h1 : (2 : ℚ) ^ (e + 52) ≤ q)
    (h2 : q < 2 ^ (e + 52 + 1)) (h3 : (m : ℚ) - 1 / 2 < q / 2 ^ e)
    (h4 : q / 2 ^ e < m + 1 / 2) : binary64.round q = m * 2 ^ e := by
  unfold binary64.round binary64.roundPos
  rw [if_neg (ne_of_gt hq), if_pos hq, binary64_log_eq q (e + 52) h1 h2]
  have : e + 52 - 52 = e := by ring
  rw [this, nearestEven_eq _ m h3 h4]

/-- Zero and one are `float64` numbers. -/
theorem binary64_round_zero : binary64.round 0 = 0 := by
  simp [binary64.round]

theorem binary64_round_one : binary64.round 1 = 1 := by
  rw [binary64_round_eq 1 (-52) (2 ^ (52 : ℕ)) (by norm_num) (by norm_num) (by norm_num)
    (by norm_num) (by norm_num)]
  norm_num

end Binary64Helpers

section Binary64Sqrt

/-- The value of the rounded square root of a positive rational, from its binade, the integer
square root of its scaled value and the comparison with the midpoint. -/
theorem binary64_sqrt_eq (q : ℚ) (L k : ℤ) (n m0 m : ℕ) (hq : 0 < q)
    (h1 : (2 : ℚ) ^ L ≤ q) (h2 : q < 2 ^ (L + 1)) (hk : L / 2 - 52 = k)
    (hn1 : (n : ℚ) ≤ q / 4 ^ k) (hn2 : q / 4 ^ k < n + 1)
    (hs1 : m0 * m0 ≤ n) (hs2 : n < (m0 + 1) * (m0 + 1))
    (hm : (if ((m0 : ℚ) + 1 / 2) ^ 2 < q / 4 ^ k then m0 + 1 else m0) = m) :
    binary64.sqrt q = m * 2 ^ k := by
  unfold binary64.sqrt
  rw [if_neg (not_le.2 hq), binary64_log_eq q L h1 h2]
  simp only [hk]
  have hfloor : ⌊q / 4 ^ k⌋₊ = n :=
    (Nat.floor_eq_iff (le_trans (Nat.cast_nonneg n) hn1)).2 ⟨hn1, hn2⟩
  have hsqrt : Nat.sqrt n = m0 := (Nat.eq_sqrt.2 ⟨hs1, hs2⟩).symm
  rw [hfloor, hsqrt, hm]

end Binary64Sqrt

section Binary64Examples

/-- The `float64` nearest to 0.1. -/
theorem binary64_round_tenth : binary64.round (1 / 10) = 3602879701896397 / 36028797018963968 := by
  rw [binary64_round_eq (1 / 10) (-56) 7205759403792794 (by norm_num) (by norm_num) (by norm_num)
    (by norm_num) (by norm_num)]
  norm_num

/-- The `float64` nearest to 0.2. -/
theorem binary64_round_fifth : binary64.round (1 / 5) = 3602879701896397 / 18014398509481984 := by
  rw [binary64_round_eq (1 / 5) (-55) 7205759403792794 (by norm_num) (by norm_num) (by norm_num)
    (by norm_num) (by norm_num)]
  norm_num

/-- The `float64` nearest to 0.3. -/
theorem binary64_round_threeTenths : binary64.round (3 / 10) = 5404319552844595 / 18014398509481984 := by
  rw [binary64_round_eq (3 / 10) (-54) 5404319552844595 (by norm_num) (by norm_num) (by norm_num)
    (by norm_num) (by norm_num)]
  norm_num

/-- The `float64` nearest to 0.7. -/
theorem binary64_round_sevenTenths : binary64.round (7 / 10) = 3152519739159347 / 4503599627370496 := by
  rw [binary64_round_eq (7 / 10) (-53) 6305039478318694 (by norm_num) (by norm_num) (by norm_num)
    (by norm_num) (by norm_num)]
  norm_num

/-- The rounded square of the `float64` 0.1. -/
theorem binary64_round_sq_tenth : binary64.round (12980742146337070512478121581609 / 1298074214633706907132624082305024) = 1441151880758559 / 144115188075855872 := by
  rw [binary64_round_eq (12980742146337070512478121581609 / 1298074214633706907132624082305024) (-59) 5764607523034236 (by norm_num) (by norm_num) (by norm_num)
    (by norm_num) (by norm_num)]
  norm_num

/-- The rounded square of the `float64` 0.1 is a `float64`. -/
theorem binary64_round_sq_tenth_fixed : binary64.round (1441151880758559 / 144115188075855872) = 1441151880758559 / 144115188075855872 := by
  rw [binary64_round_eq (1441151880758559 / 144115188075855872) (-59) 5764607523034236 (by norm_num) (by norm_num) (by norm_num)
    (by norm_num) (by norm_num)]
  norm_num

/-- The rounded square of the `float64` 0.7. -/
theorem binary64_round_sq_sevenTenths : binary64.round (9938380705789317246726257466409 / 20282409603651670423947251286016) = 8827055269646171 / 18014398509481984 := by
  rw [binary64_round_eq (9938380705789317246726257466409 / 20282409603651670423947251286016) (-54) 8827055269646171 (by norm_num) (by norm_num) (by norm_num)
    (by norm_num) (by norm_num)]
  norm_num

/-- The rounded sum of the two rounded squares. -/
theorem binary64_round_sum_sq : binary64.round (72057594037927927 / 144115188075855872) = 9007199254740991 / 18014398509481984 := by
  rw [binary64_round_eq (72057594037927927 / 144115188075855872) (-54) 9007199254740991 (by norm_num) (by norm_num) (by norm_num)
    (by norm_num) (by norm_num)]
  norm_num

/-- The rounded square root of the rounded sum of squares. -/
theorem binary64_sqrt_sum_sq : binary64.sqrt (9007199254740991 / 18014398509481984) = 1592262918131443 / 2251799813685248 := by
  rw [binary64_sqrt_eq (9007199254740991 / 18014398509481984) (-2) (-53) 40564819207303336344294875201536 6369051672525772 6369051672525772 (by norm_num) (by norm_num)
    (by norm_num) (by norm_num) (by norm_num) (by norm_num) (by norm_num) (by norm_num)
    (by norm_num)]
  norm_num

/-- The rounded product of the two square roots. -/
theorem binary64_round_sqrt_sq : binary64.round (2535301200456458353478625262249 / 5070602400912917605986812821504) = 4503599627370495 / 9007199254740992 := by
  rw [binary64_round_eq (2535301200456458353478625262249 / 5070602400912917605986812821504) (-54) 9007199254740990 (by norm_num) (by norm_num) (by norm_num)
    (by norm_num) (by norm_num)]
  norm_num

/-- The rounded quotient: one unit in the last place above 1. -/
theorem binary64_round_quotient : binary64.round (9007199254740991 / 9007199254740990) = 4503599627370497 / 4503599627370496 := by
  rw [binary64_round_eq (9007199254740991 / 9007199254740990) (-52) 4503599627370497 (by norm_num) (by norm_num) (by norm_num)
    (by norm_num) (by norm_num)]
  norm_num

/-- The gap between 1 and the largest `float64` below 1 is a `float64`. -/
theorem binary64_round_gap : binary64.round (1 / 9007199254740992) = 1 / 9007199254740992 := by
  rw [binary64_round_eq (1 / 9007199254740992) (-105) 4503599627370496 (by norm_num) (by norm_num) (by norm_num)
    (by norm_num) (by norm_num)]
  norm_num

/-- The reinforcement step at the largest `float64` below 1, factor 0.3. -/
theorem binary64_round_step_threeTenths : binary64.round (5404319552844595 / 162259276829213363391578010288128) = 5404319552844595 / 162259276829213363391578010288128 := by
  rw [binary64_round_eq (5404319552844595 / 162259276829213363391578010288128) (-107) 5404319552844595 (by norm_num) (by norm_num) (by norm_num)
    (by norm_num) (by norm_num)]
  norm_num

/-- The step of factor 0.3 is absorbed by the rounding of the sum. -/
theorem binary64_round_absorb_threeTenths : binary64.round (162259276829213350781499053650739 / 162259276829213363391578010288128) = 9007199254740991 / 9007199254740992 := by
  rw [binary64_round_eq (162259276829213350781499053650739 / 162259276829213363391578010288128) (-53) 9007199254740991 (by norm_num) (by norm_num) (by norm_num)
    (by norm_num) (by norm_num)]
  norm_num

/-- The reinforcement step at the largest `float64` below 1, factor 0.1. -/
theorem binary64_round_step_tenth : binary64.round (3602879701896397 / 324518553658426726783156020576256) = 3602879701896397 / 324518553658426726783156020576256 := by
  rw [binary64_round_eq (3602879701896397 / 324518553658426726783156020576256) (-109) 7205759403792794 (by norm_num) (by norm_num) (by norm_num)
    (by norm_num) (by norm_num)]
  norm_num

/-- The step of factor 0.1 is absorbed by the rounding of the sum. -/
theorem binary64_round_absorb_tenth : binary64.round (324518553658426694357238703508685 / 324518553658426726783156020576256) = 9007199254740991 / 9007199254740992 := by
  rw [binary64_round_eq (324518553658426694357238703508685 / 324518553658426726783156020576256) (-53) 9007199254740991 (by norm_num) (by norm_num) (by norm_num)
    (by norm_num) (by norm_num)]
  norm_num

/-- The reinforcement step at the largest `float64` below 1, factor 0.2. -/
theorem binary64_round_step_fifth : binary64.round (3602879701896397 / 162259276829213363391578010288128) = 3602879701896397 / 162259276829213363391578010288128 := by
  rw [binary64_round_eq (3602879701896397 / 162259276829213363391578010288128) (-108) 7205759403792794 (by norm_num) (by norm_num) (by norm_num)
    (by norm_num) (by norm_num)]
  norm_num

/-- The step of factor 0.2 is absorbed by the rounding of the sum. -/
theorem binary64_round_absorb_fifth : binary64.round (162259276829213348980059202702541 / 162259276829213363391578010288128) = 9007199254740991 / 9007199254740992 := by
  rw [binary64_round_eq (162259276829213348980059202702541 / 162259276829213363391578010288128) (-53) 9007199254740991 (by norm_num) (by norm_num) (by norm_num)
    (by norm_num) (by norm_num)]
  norm_num

/-- The largest `float64` below 1 is a `float64`. -/
theorem binary64_round_belowOne : binary64.round (9007199254740991 / 9007199254740992) = 9007199254740991 / 9007199254740992 := by
  rw [binary64_round_eq (9007199254740991 / 9007199254740992) (-53) 9007199254740991 (by norm_num) (by norm_num) (by norm_num)
    (by norm_num) (by norm_num)]
  norm_num

/-- One half is a `float64`. -/
theorem binary64_round_half : binary64.round (1 / 2) = 1 / 2 := by
  rw [binary64_round_eq (1 / 2) (-53) 4503599627370496 (by norm_num) (by norm_num) (by norm_num)
    (by norm_num) (by norm_num)]
  norm_num

end Binary64Examples

section RoundedReinforce

variable {F : Type} [LinearOrderedField F]

/-- The rounded `Reinforce` is the rounded step capped at 1. -/
theorem rounded_reinforce_eq_min (fl : F → F) (m : intelligence.EbbinghausManager F) (s : F) :
    rounded.Reinforce fl m s = min 1 (fl (s + fl (m.reinforcementFactor * fl (1 - s)))) := by
  unfold rounded.Reinforce
  have e : (1.0 : F) = 1 := by norm_num
  simp only [e]
  by_cases h : fl (s + fl (m.reinforcementFactor * fl (1 - s))) > 1
  · rw [if_pos h, min_eq_left (le_of_lt h)]
  · rw [if_neg h, min_eq_right (not_lt.1 h)]

/-- With exact arithmetic the rounded `Reinforce` is `Reinforce`. -/
theorem rounded_reinforce_id (m : intelligence.EbbinghausManager F) (s : F) :
    rounded.Reinforce id m s = m.Reinforce s := rfl

/-- Under a monotone rounding that keeps 0, the rounded step is not negative. -/
theorem rounded_step_nonneg (fl : F → F) (hmono : Monotone fl) (h0 : fl 0 = 0) (f s : F)
    (hf : 0 ≤ f) (hs : s ≤ 1) : 0 ≤ fl (f * fl (1 - s)) := by
  have h1 : 0 ≤ fl (1 - s) := by
    rw [← h0]
    exact hmono (by linarith)
  rw [← h0]
  exact hmono (mul_nonneg hf h1)

end RoundedReinforce

/-- At the largest `float64` below 1 the `float64` reinforcement with factor 0.3 returns
its argument. -/
theorem rounded_reinforce_absorbed_threeTenths (d : ℚ) :
    rounded.Reinforce binary64.round
      (intelligence.NewEbbinghausManager d (binary64.round (3 / 10))) (1 - 1 / 2 ^ 53)
      = 1 - 1 / 2 ^ 53 := by
  have e1 : (1 : ℚ) - (1 - 1 / 2 ^ 53) = 1 / 9007199254740992 := by norm_num
  have e2 : (5404319552844595 / 18014398509481984 : ℚ) * (1 / 9007199254740992) = 5404319552844595 / 162259276829213363391578010288128 := by norm_num
  have e3 : (1 : ℚ) - 1 / 2 ^ 53 + 5404319552844595 / 162259276829213363391578010288128 = 162259276829213350781499053650739 / 162259276829213363391578010288128 := by norm_num
  have e4 : (9007199254740991 / 9007199254740992 : ℚ) = 1 - 1 / 2 ^ 53 := by norm_num
  rw [rounded_reinforce_eq_min]
  simp only [intelligence.NewEbbinghausManager]
  rw [binary64_round_threeTenths, e1, binary64_round_gap, e2, binary64_round_step_threeTenths, e3,
    binary64_round_absorb_threeTenths, e4]
  exact min_eq_right (by norm_num)

/-- At the largest `float64` below 1 the `float64` reinforcement with factor 0.1 returns
its argument. -/
theorem rounded_reinforce_absorbed_tenth (d : ℚ) :
    rounded.Reinforce binary64.round
      (intelligence.NewEbbinghausManager d (binary64.round (1 / 10))) (1 - 1 / 2 ^ 53)
      = 1 - 1 / 2 ^ 53 := by
  have e1 : (1 : ℚ) - (1 - 1 / 2 ^ 53) = 1 / 9007199254740992 := by norm_num
  have e2 : (3602879701896397 / 36028797018963968 : ℚ) * (1 / 9007199254740992) = 3602879701896397 / 324518553658426726783156020576256 := by norm_num
  have e3 : (1 : ℚ) - 1 / 2 ^ 53 + 3602879701896397 / 324518553658426726783156020576256 = 324518553658426694357238703508685 / 324518553658426726783156020576256 := by norm_num
  have e4 : (9007199254740991 / 9007199254740992 : ℚ) = 1 - 1 / 2 ^ 53 := by norm_num
  rw [rounded_reinforce_eq_min]
  simp only [intelligence.NewEbbinghausManager]
  rw [binary64_round_tenth, e1, binary64_round_gap, e2, binary64_round_step_tenth, e3,
    binary64_round_absorb_tenth, e4]
  exact min_eq_right (by norm_num)

/-- At the largest `float64` below 1 the `float64` reinforcement with factor 0.2 returns
its argument. -/
theorem rounded_reinforce_absorbed_fifth (d : ℚ) :
    rounded.Reinforce binary64.round
      (intelligence.NewEbbinghausManager d (binary64.round (1 / 5))) (1 - 1 / 2 ^ 53)
      = 1 - 1 / 2 ^ 53 := by
  have e1 : (1 : ℚ) - (1 - 1 / 2 ^ 53) = 1 / 9007199254740992 := by norm_num
  have e2 : (3602879701896397 / 18014398509481984 : ℚ) * (1 / 9007199254740992) = 3602879701896397 / 162259276829213363391578010288128 := by norm_num
  have e3 : (1 : ℚ) - 1 / 2 ^ 53 + 3602879701896397 / 162259276829213363391578010288128 = 162259276829213348980059202702541 / 162259276829213363391578010288128 := by norm_num
  have e4 : (9007199254740991 / 9007199254740992 : ℚ) = 1 - 1 / 2 ^ 53 := by norm_num
  rw [rounded_reinforce_eq_min]
  simp only [intelligence.NewEbbinghausManager]
  rw [binary64_round_fifth, e1, binary64_round_gap, e2, binary64_round_step_fifth, e3,
    binary64_round_absorb_fifth, e4]
  exact min_eq_right (by norm_num)

/-- C13 (as stated) fails in `float64`: with factor 0.3 and the strength `1 - 2^-53`, the largest
`float64` below 1, the step `0.3 * 2^-53` is absorbed when the sum is rounded, so `Reinforce`
returns the strength unchanged and not a greater one. -/
theorem C13_counterexample_step_absorbed_by_rounding :
    0 < (intelligence.NewEbbinghausManager (binary64.round (1 / 10))
      (binary64.round (3 / 10))).reinforcementFactor ∧
    binary64.round (1 - 1 / 2 ^ 53) = 1 - 1 / 2 ^ 53 ∧
    (0 : ℚ) ≤ 1 - 1 / 2 ^ 53 ∧ (1 - 1 / 2 ^ 53 : ℚ) < 1 ∧
    rounded.Reinforce binary64.round
      (intelligence.NewEbbinghausManager (binary64.round (1 / 10)) (binary64.round (3 / 10)))
      (1 - 1 / 2 ^ 53) = 1 - 1 / 2 ^ 53 ∧
    ¬ (rounded.Reinforce binary64.round
      (intelligence.NewEbbinghausManager (binary64.round (1 / 10)) (binary64.round (3 / 10)))
      (1 - 1 / 2 ^ 53) > 1 - 1 / 2 ^ 53) := by
  have h := rounded_reinforce_absorbed_threeTenths (binary64.round (1 / 10))
  have hs : binary64.round (1 - 1 / 2 ^ 53) = 1 - 1 / 2 ^ 53 := by
    have e : (1 - 1 / 2 ^ 53 : ℚ) = 9007199254740991 / 9007199254740992 := by norm_num
    rw [e, binary64_round_belowOne]
  refine ⟨?_, hs, by norm_num, by norm_num, h, ?_⟩
  · simp only [intelligence.NewEbbinghausManager, binary64_round_threeTenths]
    norm_num
  · rw [h]
    exact lt_irrefl _

/-- C13 (amended): under every monotone rounding `fl` that keeps 0 and 1 (the `float64`
rounding is one, exact arithmetic another), for every manager with `reinforcement_factor > 0`
and every representable strength `s <= 1`, `Reinforce(s)` is the rounded step
`fl(s + fl(factor * fl(1 - s)))` capped at 1.0; it is at least `s` and at most 1, and
`Reinforce(1) = 1`. With exact arithmetic the step is `s + factor * (1 - s)`. -/
theorem C13_reinforce_is_clamped_rounded_step {F : Type} [LinearOrderedField F] (fl : F → F)
    (m : intelligence.EbbinghausManager F) (s : F) (hmono : Monotone fl) (h0 : fl 0 = 0)
    (h1 : fl 1 = 1) (hf : 0 < m.reinforcementFactor) (hs : fl s = s) (hs1 : s ≤ 1) :
    rounded.Reinforce fl m s = min 1 (fl (s + fl (m.reinforcementFactor * fl (1 - s)))) ∧
    s ≤ rounded.Reinforce fl m s ∧ rounded.Reinforce fl m s ≤ 1 ∧
    rounded.Reinforce fl m 1 = 1 ∧
    rounded.Reinforce id m s = min 1 (s + m.reinforcementFactor * (1 - s)) := by
  refine ⟨rounded_reinforce_eq_min fl m s, ?_, ?_, ?_, ?_⟩
  · rw [rounded_reinforce_eq_min]
    refine le_min hs1 ?_
    have hstep := rounded_step_nonneg fl hmono h0 m.reinforcementFactor s hf.le hs1
    calc s = fl s := hs.symm
      _ ≤ fl (s + fl (m.reinforcementFactor * fl (1 - s))) := hmono (by linarith)
  · rw [rounded_reinforce_eq_min]
    exact min_le_left _ _
  · rw [rounded_reinforce_eq_min]
    simp [h0, h1]
  · rw [rounded_reinforce_id]
    exact reinforce_eq_min m s

/-- Witness of C13 (amended): the `float64` rounding, factor 0.3 and strength 0.5. -/
theorem C13_witness :
    (1 / 2 : ℚ) ≤ rounded.Reinforce binary64.round
      (intelligence.NewEbbinghausManager (binary64.round (1 / 10)) (binary64.round (3 / 10)))
      (1 / 2) ∧
    rounded.Reinforce binary64.round
      (intelligence.NewEbbinghausManager (binary64.round (1 / 10)) (binary64.round (3 / 10)))
      (1 / 2) ≤ 1 :=
  ⟨(C13_reinforce_is_clamped_rounded_step binary64.round
      (intelligence.NewEbbinghausManager (binary64.round (1 / 10)) (binary64.round (3 / 10)))
      (1 / 2) binary64_round_mono binary64_round_zero binary64_round_one
      (by simp only [intelligence.NewEbbinghausManager, binary64_round_threeTenths]; norm_num)
      binary64_round_half (by norm_num)).2.1,
    (C13_reinforce_is_clamped_rounded_step binary64.round
      (intelligence.NewEbbinghausManager (binary64.round (1 / 10)) (binary64.round (3 / 10)))
      (1 / 2) binary64_round_mono binary64_round_zero binary64_round_one
      (by simp only [intelligence.NewEbbinghausManager, binary64_round_threeTenths]; norm_num)
      binary64_round_half (by norm_num)).2.2.1⟩

/-- C14 (as stated) fails in two ways. At the cap: at strength 0.5 the managers with factors 1
and 2 both return 1.0. Below the cap, in `float64`: at the strength `1 - 2^-53` the managers
with factors 0.1 and 0.2 both return the strength unchanged, the step being absorbed by the
rounding of the sum. In neither case is the result of the larger factor strictly larger. -/
theorem C14_counterexample_factors_tie :
    ((intelligence.NewEbbinghausManager (1 / 10 : ℚ) 1).Reinforce (1 / 2) = 1 ∧
      (intelligence.NewEbbinghausManager (1 / 10 : ℚ) 2).Reinforce (1 / 2) = 1 ∧
      ¬ ((intelligence.NewEbbinghausManager (1 / 10 : ℚ) 2).Reinforce (1 / 2)
          > (intelligence.NewEbbinghausManager (1 / 10 : ℚ) 1).Reinforce (1 / 2))) ∧
    (binary64.round (1 / 10) < binary64.round (1 / 5) ∧ binary64.round (1 / 5) < 1 ∧
      rounded.Reinforce binary64.round
        (intelligence.NewEbbinghausManager (binary64.round (1 / 10)) (binary64.round (1 / 10)))
        (1 - 1 / 2 ^ 53) = 1 - 1 / 2 ^ 53 ∧
      rounded.Reinforce binary64.round
        (intelligence.NewEbbinghausManager (binary64.round (1 / 10)) (binary64.round (1 / 5)))
        (1 - 1 / 2 ^ 53) = 1 - 1 / 2 ^ 53 ∧
      ¬ (rounded.Reinforce binary64.round
          (intelligence.NewEbbinghausManager (binary64.round (1 / 10)) (binary64.round (1 / 5)))
          (1 - 1 / 2 ^ 53)
        > rounded.Reinforce binary64.round
          (intelligence.NewEbbinghausManager (binary64.round (1 / 10))
            (binary64.round (1 / 10)))
          (1 - 1 / 2 ^ 53))) := by
  have h1 : (intelligence.NewEbbinghausManager (1 / 10 : ℚ) 1).Reinforce (1 / 2) = 1 := by
    rw [reinforce_eq_min]
    norm_num [intelligence.NewEbbinghausManager]
  have h2 : (intelligence.NewEbbinghausManager (1 / 10 : ℚ) 2).Reinforce (1 / 2) = 1 := by
    rw [reinforce_eq_min]
    norm_num [intelligence.NewEbbinghausManager]
  have h3 := rounded_reinforce_absorbed_tenth (binary64.round (1 / 10))
  have h4 := rounded_reinforce_absorbed_fifth (binary64.round (1 / 10))
  refine ⟨⟨h1, h2, ?_⟩, ?_, ?_, h3, h4, ?_⟩
  · rw [h1, h2]
    exact lt_irrefl 1
  · rw [binary64_round_tenth, binary64_round_fifth]
    norm_num
  · rw [binary64_round_fifth]
    norm_num
  · rw [h3, h4]
    exact lt_irrefl _

/-- C14 (amended): under every monotone rounding `fl` that keeps 0 (the `float64` rounding is
one, exact arithmetic another), for every current strength `c < 1` and every two factors
`f1 < f2` (in particular `0 < f1 < f2`), the manager with factor `f2` returns a `Reinforce(c)`
at least as large as the manager with factor `f1`. -/
theorem C14_reinforce_monotone_in_factor {F : Type} [LinearOrderedField F] (fl : F → F)
    (d1 d2 f1 f2 c : F) (hmono : Monotone fl) (h0 : fl 0 = 0) (hc : c < 1) (hf : f1 < f2) :
    rounded.Reinforce fl (intelligence.NewEbbinghausManager d1 f1) c
      ≤ rounded.Reinforce fl (intelligence.NewEbbinghausManager d2 f2) c ∧
    (intelligence.NewEbbinghausManager d1 f1).Reinforce c
      ≤ (intelligence.NewEbbinghausManager d2 f2).Reinforce c := by
  have hmain : ∀ g : F → F, Monotone g → g 0 = 0 →
      rounded.Reinforce g (intelligence.NewEbbinghausManager d1 f1) c
        ≤ rounded.Reinforce g (intelligence.NewEbbinghausManager d2 f2) c := by
    intro g hg hg0
    rw [rounded_reinforce_eq_min, rounded_reinforce_eq_min]
    simp only [intelligence.NewEbbinghausManager]
    have hd : 0 ≤ g (1 - c) := by
      rw [← hg0]
      exact hg (by linarith)
    have hstep : g (f1 * g (1 - c)) ≤ g (f2 * g (1 - c)) :=
      hg (mul_le_mul_of_nonneg_right hf.le hd)
    exact min_le_min le_rfl (hg (by linarith))
  refine ⟨hmain fl hmono h0, ?_⟩
  have := hmain id monotone_id rfl
  rwa [rounded_reinforce_id, rounded_reinforce_id] at this

/-- Witness of C14 (amended): the `float64` rounding, strength 0.5, factors 0.1 and 0.2. -/
theorem C14_witness :
    rounded.Reinforce binary64.round
        (intelligence.NewEbbinghausManager (binary64.round (1 / 10)) (binary64.round (1 / 10)))
        (1 / 2)
      ≤ rounded.Reinforce binary64.round
        (intelligence.NewEbbinghausManager (binary64.round (1 / 10)) (binary64.round (1 / 5)))
        (1 / 2) :=
  (C14_reinforce_monotone_in_factor binary64.round (binary64.round (1 / 10))
    (binary64.round (1 / 10)) (binary64.round (1 / 10)) (binary64.round (1 / 5)) (1 / 2)
    binary64_round_mono binary64_round_zero (by norm_num)
    (by rw [binary64_round_tenth, binary64_round_fifth]; norm_num)).1

/-- C15: `ShouldArchive(strength, threshold)` returns whether `strength < threshold`, with the
threshold replaced by 0.2 when the given threshold is 0; `ShouldArchive(0.15, 0.2)` is true and
`ShouldArchive(0.25, 0.2)` is false. -/
theorem C15_should_archive_below_threshold {F : Type} [LinearOrderedField F]
    (m : intelligence.EbbinghausManager F) (strength threshold : F) :
    (m.ShouldArchive strength threshold = true ↔
      strength < (if threshold = 0 then 0.2 else threshold)) ∧
    m.ShouldArchive 0.15 0.2 = true ∧ m.ShouldArchive 0.25 0.2 = false := by
  refine ⟨?_, ?_, ?_⟩
  · simp [intelligence.EbbinghausManager.ShouldArchive]
  · simp only [intelligence.EbbinghausManager.ShouldArchive]
    norm_num
  · simp only [intelligence.EbbinghausManager.ShouldArchive]
    norm_num

section NextReviewHelpers

variable {F : Type} [LinearOrderedField F] [FloorRing F]

theorem wrapInt64_of_range (z : Int) (h1 : -(2 ^ 63) ≤ z) (h2 : z < 2 ^ 63) :
    intelligence.wrapInt64 z = z := by
  unfold intelligence.wrapInt64
  have e1 : ((2 : Int) ^ 63) = 9223372036854775808 := by norm_num
  have e2 : ((2 : Int) ^ 64) = 18446744073709551616 := by norm_num
  rw [e1] at h1 h2 ⊢
  rw [e2]
  omega

theorem nextReview_eq (m : intelligence.EbbinghausManager F) (now : Time) (s : F)
    (hs0 : 0 ≤ s) (hs1 : s ≤ 1) :
    m.CalculateNextReview now s = now + ⌊24 * (1 + s * 10)⌋ * intelligence.Hour := by
  unfold intelligence.EbbinghausManager.CalculateNextReview intelligence.truncate
  have e24 : (24.0 : F) = 24 := by norm_num
  have e1 : (1.0 : F) = 1 := by norm_num
  have e10 : (10.0 : F) = 10 := by norm_num
  simp only [e24, e1, e10]
  have hlo : (24 : F) ≤ 24 * (1 + s * 10) := by nlinarith
  have hhi : 24 * (1 + s * 10) ≤ (264 : F) := by nlinarith
  have h0 : (0 : F) ≤ 24 * (1 + s * 10) := le_trans (by norm_num) hlo
  rw [if_pos h0]
  have hf1 : (24 : Int) ≤ ⌊24 * (1 + s * 10)⌋ := Int.le_floor.2 (by exact_mod_cast hlo)
  have hf2 : ⌊24 * (1 + s * 10)⌋ ≤ (264 : Int) := by
    have := Int.floor_le (24 * (1 + s * 10))
    have h3 : ((⌊24 * (1 + s * 10)⌋ : Int) : F) ≤ ((264 : Int) : F) := by
      push_cast
      linarith
    exact Int.cast_le.1 h3
  rw [wrapInt64_of_range]
  · simp only [intelligence.Hour]
    have e63 : ((2 : Int) ^ 63) = 9223372036854775808 := by norm_num
    rw [e63]
    omega
  · simp only [intelligence.Hour]
    have e63 : ((2 : Int) ^ 63) = 9223372036854775808 := by norm_num
    rw [e63]
    omega

end NextReviewHelpers

/-- C16 fails on the code: `CalculateNextReview` converts the float number of hours to an
integer before multiplying by `time.Hour`, so for every strength `s` in [0,1] the interval is
the whole number of hours `floor(24 * (1 + s * 10))`; at `s = 0.01` it is 26 hours, not the 26.4
hours of the formula. -/
theorem C16_next_review_interval_is_truncated_to_whole_hours :
    (∀ (m : intelligence.EbbinghausManager ℚ) (now : Time) (s : ℚ), 0 ≤ s → s ≤ 1 →
      m.CalculateNextReview now s = now + ⌊24 * (1 + s * 10)⌋ * intelligence.Hour) ∧
    (intelligence.NewEbbinghausManager (1 / 10 : ℚ) (3 / 10)).CalculateNextReview 0 (1 / 100)
      = 0 + 26 * intelligence.Hour ∧
    ((26 * intelligence.Hour : Int) : ℚ)
      ≠ 24 * (1 + 1 / 100 * 10) * ((intelligence.Hour : Int) : ℚ) := by
  refine ⟨fun m now s h0 h1 => nextReview_eq m now s h0 h1, ?_, ?_⟩
  · rw [nextReview_eq _ _ _ (by norm_num) (by norm_num)]
    have : ⌊(24 : ℚ) * (1 + 1 / 100 * 10)⌋ = 26 :=
      Int.floor_eq_iff.2 ⟨by norm_num, by norm_num⟩
    rw [this]
  · norm_num [intelligence.Hour]

/-- C17 fails on the code: because the number of hours is truncated to a whole number, the
strengths 0.001 and 0.002 both give a next review exactly 24 hours after the current time, so
the higher strength does not give a later review; for strengths `s1 <= s2` in [0,1] the review
of `s2` is never earlier than that of `s1`. -/
theorem C17_next_review_ties_for_close_strengths :
    (intelligence.NewEbbinghausManager (1 / 10 : ℚ) (3 / 10)).CalculateNextReview 0 (1 / 1000)
      = 0 + 24 * intelligence.Hour ∧
    (intelligence.NewEbbinghausManager (1 / 10 : ℚ) (3 / 10)).CalculateNextReview 0 (2 / 1000)
      = 0 + 24 * intelligence.Hour ∧
    ¬ ((intelligence.NewEbbinghausManager (1 / 10 : ℚ) (3 / 10)).CalculateNextReview 0 (1 / 1000)
      < (intelligence.NewEbbinghausManager (1 / 10 : ℚ) (3 / 10)).CalculateNextReview 0
          (2 / 1000)) ∧
    (∀ (m : intelligence.EbbinghausManager ℚ) (now : Time) (s1 s2 : ℚ), 0 ≤ s1 → s1 ≤ s2 →
      s2 ≤ 1 → m.CalculateNextReview now s1 ≤ m.CalculateNextReview now s2) := by
  have h1 : (intelligence.NewEbbinghausManager (1 / 10 : ℚ) (3 / 10)).CalculateNextReview 0
      (1 / 1000) = 0 + 24 * intelligence.Hour := by
    rw [nextReview_eq _ _ _ (by norm_num) (by norm_num)]
    have : ⌊(24 : ℚ) * (1 + 1 / 1000 * 10)⌋ = 24 :=
      Int.floor_eq_iff.2 ⟨by norm_num, by norm_num⟩
    rw [this]
  have h2 : (intelligence.NewEbbinghausManager (1 / 10 : ℚ) (3 / 10)).CalculateNextReview 0
      (2 / 1000) = 0 + 24 * intelligence.Hour := by
    rw [nextReview_eq _ _ _ (by norm_num) (by norm_num)]
    have : ⌊(24 : ℚ) * (1 + 2 / 1000 * 10)⌋ = 24 :=
      Int.floor_eq_iff.2 ⟨by norm_num, by norm_num⟩
    rw [this]
  refine ⟨h1, h2, ?_, ?_⟩
  · rw [h1, h2]
    exact lt_irrefl _
  · intro m now s1 s2 h0 h12 h21
    rw [nextReview_eq m now s1 h0 (le_trans h12 h21),
      nextReview_eq m now s2 (le_trans h0 h12) h21]
    have hfl : ⌊(24 : ℚ) * (1 + s1 * 10)⌋ ≤ ⌊(24 : ℚ) * (1 + s2 * 10)⌋ :=
      Int.floor_mono (by nlinarith)
    have hH : (0 : Int) ≤ intelligence.Hour := by norm_num [intelligence.Hour]
    have := mul_le_mul_of_nonneg_right hfl hH
    linarith

section CosineBoundHelpers

variable {F : Type} [LinearOrderedField F]

theorem sum_sq_nonneg (a : List F) : 0 ≤ (a.map (fun x => x * x)).sum := by
  induction a with
  | nil => simp
  | cons x xs ih =>
    simp only [List.map_cons, List.sum_cons]
    exact add_nonneg (mul_self_nonneg x) ih

theorem sum_sq_eq_zero_iff (a : List F) :
    (a.map (fun x => x * x)).sum = 0 ↔ ∀ x ∈ a, x = 0 := by
  induction a with
  | nil => simp
  | cons x xs ih =>
    simp only [List.map_cons, List.sum_cons, List.mem_cons, forall_eq_or_imp]
    constructor
    · intro h
      have hx : x * x = 0 := by
        have h1 := mul_self_nonneg x
        have h2 := sum_sq_nonneg xs
        linarith
      have hs : (xs.map (fun x => x * x)).sum = 0 := by
        have h1 := mul_self_nonneg x
        have h2 := sum_sq_nonneg xs
        linarith
      exact ⟨mul_self_eq_zero.1 hx, ih.1 hs⟩
    · rintro ⟨hx, hs⟩
      rw [hx, ih.2 hs]
      simp

theorem zip_self_mul_sum (a : List F) :
    ((a.zip a).map (fun p => p.1 * p.2)).sum = (a.map (fun x => x * x)).sum := by
  induction a with
  | nil => simp
  | cons x xs ih => simp [ih]

/-- The Cauchy-Schwarz inequality for the sums that `CosineSimilarity` accumulates. -/
theorem dot_sq_le (a b : List F) (hlen : a.length = b.length) :
    (((a.zip b).map (fun p => p.1 * p.2)).sum) ^ 2
      ≤ (a.map (fun x => x * x)).sum * (b.map (fun x => x * x)).sum := by
  induction a generalizing b with
  | nil =>
    cases b with
    | nil => simp
    | cons y ys => simp at hlen
  | cons x xs ih =>
    cases b with
    | nil => simp at hlen
    | cons y ys =>
      have hl : xs.length = ys.length := by simpa using hlen
      have h := ih ys hl
      simp only [List.zip_cons_cons, List.map_cons, List.sum_cons]
      have hA := sum_sq_nonneg xs
      have hB := sum_sq_nonneg ys
      set D := ((xs.zip ys).map (fun p => p.1 * p.2)).sum with hD
      set A := (xs.map (fun x => x * x)).sum with hAdef
      set B := (ys.map (fun x => x * x)).sum with hBdef
      have hcross : 2 * (x * y * D) ≤ x * x * B + y * y * A := by
        have hsq : (2 * (x * y * D)) ^ 2 ≤ (x * x * B + y * y * A) ^ 2 := by
          have h1 : 0 ≤ (x * x * B - y * y * A) ^ 2 := sq_nonneg _
          have h2 : 0 ≤ x * x * (y * y) := mul_nonneg (mul_self_nonneg x) (mul_self_nonneg y)
          have h3 : x * x * (y * y) * D ^ 2 ≤ x * x * (y * y) * (A * B) :=
            mul_le_mul_of_nonneg_left h h2
          nlinarith
        have hnn : 0 ≤ x * x * B + y * y * A :=
          add_nonneg (mul_nonneg (mul_self_nonneg x) hB) (mul_nonneg (mul_self_nonneg y) hA)
        exact (abs_le_of_sq_le_sq' hsq hnn).2
      nlinarith

end CosineBoundHelpers

section CosineRealHelpers

theorem cosine_eq_sqlite {F : Type} [LinearOrderedField F] (sqrt : F → F) (a b : List F) :
    sqlite.cosineSimilarity sqrt a b = intelligence.CosineSimilarity sqrt a b := rfl

theorem cosine_abs_le_one (a b : List ℝ) (hlen : a.length = b.length)
    (hA : (a.map (fun x => x * x)).sum ≠ 0) (hB : (b.map (fun x => x * x)).sum ≠ 0) :
    0 < Real.sqrt (a.map (fun x => x * x)).sum * Real.sqrt (b.map (fun x => x * x)).sum ∧
    -1 ≤ ((a.zip b).map (fun p => p.1 * p.2)).sum
      / (Real.sqrt (a.map (fun x => x * x)).sum * Real.sqrt (b.map (fun x => x * x)).sum) ∧
    ((a.zip b).map (fun p => p.1 * p.2)).sum
      / (Real.sqrt (a.map (fun x => x * x)).sum * Real.sqrt (b.map (fun x => x * x)).sum)
      ≤ 1 := by
  have hA0 : 0 < (a.map (fun x => x * x)).sum := lt_of_le_of_ne (sum_sq_nonneg a) (Ne.symm hA)
  have hB0 : 0 < (b.map (fun x => x * x)).sum := lt_of_le_of_ne (sum_sq_nonneg b) (Ne.symm hB)
  have hden : 0 < Real.sqrt (a.map (fun x => x * x)).sum
      * Real.sqrt (b.map (fun x => x * x)).sum :=
    mul_pos (Real.sqrt_pos.2 hA0) (Real.sqrt_pos.2 hB0)
  have hsq : (((a.zip b).map (fun p => p.1 * p.2)).sum) ^ 2
      ≤ (Real.sqrt (a.map (fun x => x * x)).sum
          * Real.sqrt (b.map (fun x => x * x)).sum) ^ 2 := by
    rw [mul_pow, Real.sq_sqrt (le_of_lt hA0), Real.sq_sqrt (le_of_lt hB0)]
    exact dot_sq_le a b hlen
  obtain ⟨hlo, hhi⟩ := abs_le_of_sq_le_sq' hsq (le_of_lt hden)
  refine ⟨hden, ?_, ?_⟩
  · rw [le_div_iff₀ hden]
    linarith
  · rw [div_le_one hden]
    exact hhi

end CosineRealHelpers

/-- With exact arithmetic: for all vectors `a` and `b` of equal length, `CosineSimilarity(a, b)`
returns 0 if either vector has zero norm (that is, is the zero vector), and otherwise the divisor
`norm(a) * norm(b)` is positive and the result is `dot(a,b) / (norm(a) * norm(b))`; in every
case the result lies in [-1, 1]. The SQLite store's `cosineSimilarity` is the same function. -/
theorem cosine_exact_total_and_bounded (a b : List ℝ)
    (hlen : a.length = b.length) :
    ((Real.sqrt (a.map (fun x => x * x)).sum = 0 ∨ Real.sqrt (b.map (fun x => x * x)).sum = 0) →
      intelligence.CosineSimilarity Real.sqrt a b = 0) ∧
    (((∀ x ∈ a, x = 0) ∨ (∀ y ∈ b, y = 0)) →
      intelligence.CosineSimilarity Real.sqrt a b = 0) ∧
    (Real.sqrt (a.map (fun x => x * x)).sum ≠ 0 → Real.sqrt (b.map (fun x => x * x)).sum ≠ 0 →
      0 < Real.sqrt (a.map (fun x => x * x)).sum * Real.sqrt (b.map (fun x => x * x)).sum ∧
      intelligence.CosineSimilarity Real.sqrt a b
        = ((a.zip b).map (fun p => p.1 * p.2)).sum
          / (Real.sqrt (a.map (fun x => x * x)).sum
              * Real.sqrt (b.map (fun x => x * x)).sum)) ∧
    -1 ≤ intelligence.CosineSimilarity Real.sqrt a b ∧
    intelligence.CosineSimilarity Real.sqrt a b ≤ 1 ∧
    sqlite.cosineSimilarity Real.sqrt a b = intelligence.CosineSimilarity Real.sqrt a b := by
  have hzero : ∀ l : List ℝ, Real.sqrt (l.map (fun x => x * x)).sum = 0
      ↔ (l.map (fun x => x * x)).sum = 0 := fun l => Real.sqrt_eq_zero (sum_sq_nonneg l)
  have hcase : ((a.map (fun x => x * x)).sum = 0 ∨ (b.map (fun x => x * x)).sum = 0) →
      intelligence.CosineSimilarity Real.sqrt a b = 0 := by
    intro h
    simp only [intelligence.CosineSimilarity, hlen, ne_eq, not_true_eq_false, if_false, h,
      if_true]
  have hother : ¬ ((a.map (fun x => x * x)).sum = 0 ∨ (b.map (fun x => x * x)).sum = 0) →
      intelligence.CosineSimilarity Real.sqrt a b
        = ((a.zip b).map (fun p => p.1 * p.2)).sum
          / (Real.sqrt (a.map (fun x => x * x)).sum
              * Real.sqrt (b.map (fun x => x * x)).sum) := by
    intro h
    simp only [intelligence.CosineSimilarity, hlen, ne_eq, not_true_eq_false, if_false, h]
  refine ⟨?_, ?_, ?_, ?_, ?_, cosine_eq_sqlite Real.sqrt a b⟩
  · intro h
    rw [hzero, hzero] at h
    exact hcase h
  · intro h
    rw [← sum_sq_eq_zero_iff, ← sum_sq_eq_zero_iff] at h
    exact hcase h
  · intro hA hB
    rw [Ne, hzero] at hA hB
    exact ⟨(cosine_abs_le_one a b hlen hA hB).1, hother (by tauto)⟩
  · by_cases h : (a.map (fun x => x * x)).sum = 0 ∨ (b.map (fun x => x * x)).sum = 0
    · rw [hcase h]
      norm_num
    · rw [hother h]
      exact (cosine_abs_le_one a b hlen (by tauto) (by tauto)).2.1
  · by_cases h : (a.map (fun x => x * x)).sum = 0 ∨ (b.map (fun x => x * x)).sum = 0
    · rw [hcase h]
      norm_num
    · rw [hother h]
      exact (cosine_abs_le_one a b hlen (by tauto) (by tauto)).2.2

/-- C19: `CosineSimilarity(a, b) = CosineSimilarity(b, a)` for all vectors `a` and `b` (of equal
length or not), whatever the square-root function. -/
theorem C19_cosine_similarity_symmetric {F : Type} [LinearOrderedField F] (sqrt : F → F)
    (a b : List F) :
    intelligence.CosineSimilarity sqrt a b = intelligence.CosineSimilarity sqrt b a := by
  simp only [intelligence.CosineSimilarity, zip_mul_sum_comm a b]
  split_ifs <;> first | rfl | (exfalso; omega) | (exfalso; tauto) | (rw [mul_comm])

/-- With exact arithmetic: for every vector `a` that is not the zero vector,
`CosineSimilarity(a, a) = 1`. -/
theorem cosine_exact_self_is_one (a : List ℝ) (hne : ∃ x ∈ a, x ≠ 0) :
    intelligence.CosineSimilarity Real.sqrt a a = 1 := by
  have hA : (a.map (fun x => x * x)).sum ≠ 0 := by
    intro h
    obtain ⟨x, hx, hx0⟩ := hne
    exact hx0 ((sum_sq_eq_zero_iff a).1 h x hx)
  simp only [intelligence.CosineSimilarity, ne_eq, not_true_eq_false, if_false, hA, or_self,
    zip_self_mul_sum]
  rw [Real.mul_self_sqrt (sum_sq_nonneg a)]
  exact div_self hA

section RoundedCosine

variable {F : Type} [LinearOrderedField F]

/-- With exact arithmetic the accumulation loop is the sum of the terms. -/
theorem accumulate_id (l : List F) : rounded.accumulate id l = l.sum := by
  unfold rounded.accumulate
  rw [List.sum_eq_foldl]
  rfl

/-- With exact arithmetic the rounded `CosineSimilarity` is `CosineSimilarity`. -/
theorem rounded_cosine_id (sqrt : F → F) (a b : List F) :
    rounded.CosineSimilarity id sqrt a b = intelligence.CosineSimilarity sqrt a b := by
  simp only [rounded.CosineSimilarity, intelligence.CosineSimilarity, accumulate_id, id]

/-- On a vector and itself the three accumulated sums are one and the same number. -/
theorem rounded_cosine_self (fl sqrt : F → F) (a : List F) :
    rounded.CosineSimilarity fl sqrt a a =
      if rounded.accumulate fl (a.map (fun x => fl (x * x))) = 0 then 0
      else fl (rounded.accumulate fl (a.map (fun x => fl (x * x)))
        / fl (sqrt (rounded.accumulate fl (a.map (fun x => fl (x * x))))
            * sqrt (rounded.accumulate fl (a.map (fun x => fl (x * x)))))) := by
  have hz : (a.zip a).map (fun p => fl (p.1 * p.2)) = a.map (fun x => fl (x * x)) := by
    induction a with
    | nil => rfl
    | cons x xs ih => simp [ih]
  simp only [rounded.CosineSimilarity, ne_eq, not_true_eq_false, if_false, hz, or_self]

end RoundedCosine

/-- The `float64` sum of squares of the `float64` vector `[0.1, 0.7]`. -/
theorem binary64_accumulate_example :
    rounded.accumulate binary64.round
      ([binary64.round (1 / 10), binary64.round (7 / 10)].map
        (fun x => binary64.round (x * x)))
      = 9007199254740991 / 18014398509481984 := by
  have e1 : (3602879701896397 / 36028797018963968 : ℚ) * (3602879701896397 / 36028797018963968) = 12980742146337070512478121581609 / 1298074214633706907132624082305024 := by norm_num
  have e2 : (3152519739159347 / 4503599627370496 : ℚ) * (3152519739159347 / 4503599627370496) = 9938380705789317246726257466409 / 20282409603651670423947251286016 := by norm_num
  have e3 : (0 : ℚ) + 1441151880758559 / 144115188075855872 = 1441151880758559 / 144115188075855872 := by norm_num
  have e4 : (1441151880758559 / 144115188075855872 : ℚ) + 8827055269646171 / 18014398509481984 = 72057594037927927 / 144115188075855872 := by norm_num
  simp only [rounded.accumulate, List.map, List.foldl, binary64_round_tenth,
    binary64_round_sevenTenths]
  rw [e1, e2, binary64_round_sq_tenth, binary64_round_sq_sevenTenths, e3,
    binary64_round_sq_tenth_fixed, e4, binary64_round_sum_sq]

/-- The `float64` cosine similarity of the `float64` vector `[0.1, 0.7]` with itself is one unit
in the last place above 1. -/
theorem binary64_cosine_example :
    rounded.CosineSimilarity binary64.round binary64.sqrt
      [binary64.round (1 / 10), binary64.round (7 / 10)]
      [binary64.round (1 / 10), binary64.round (7 / 10)] = 1 + 1 / 2 ^ 52 := by
  have e1 : (1592262918131443 / 2251799813685248 : ℚ) * (1592262918131443 / 2251799813685248) = 2535301200456458353478625262249 / 5070602400912917605986812821504 := by norm_num
  have e2 : (9007199254740991 / 18014398509481984 : ℚ) / (4503599627370495 / 9007199254740992) = 9007199254740991 / 9007199254740990 := by norm_num
  have hn : ¬ ((9007199254740991 / 18014398509481984 : ℚ) = 0) := by norm_num
  rw [rounded_cosine_self, binary64_accumulate_example, if_neg hn, binary64_sqrt_sum_sq, e1,
    binary64_round_sqrt_sq, e2, binary64_round_quotient]
  norm_num

section RoundedCosineSign

variable {F : Type} [LinearOrderedField F]

/-- Under a monotone rounding that keeps 0, accumulating terms that are not negative gives a
sum that is not negative. -/
theorem accumulate_nonneg (fl : F → F) (hmono : Monotone fl) (h0 : fl 0 = 0) (l : List F)
    (hl : ∀ t ∈ l, 0 ≤ t) : 0 ≤ rounded.accumulate fl l := by
  unfold rounded.accumulate
  have hgen : ∀ (l : List F) (acc : F), 0 ≤ acc → (∀ t ∈ l, 0 ≤ t) →
      0 ≤ l.foldl (fun acc term => fl (acc + term)) acc := by
    intro l
    induction l with
    | nil => intro acc hacc _; exact hacc
    | cons t ts ih =>
      intro acc hacc hts
      rw [List.foldl_cons]
      apply ih
      · rw [← h0]
        exact hmono (add_nonneg hacc (hts t (List.mem_cons_self _ _)))
      · exact fun x hx => hts x (List.mem_cons_of_mem _ hx)
  exact hgen l 0 le_rfl hl

/-- Under a monotone rounding that keeps 0, the accumulated sum of rounded squares is not
negative. -/
theorem accumulate_sq_nonneg (fl : F → F) (hmono : Monotone fl) (h0 : fl 0 = 0) (a : List F) :
    0 ≤ rounded.accumulate fl (a.map (fun x => fl (x * x))) := by
  apply accumulate_nonneg fl hmono h0
  intro t ht
  obtain ⟨x, _, rfl⟩ := List.mem_map.1 ht
  rw [← h0]
  exact hmono (mul_self_nonneg x)

end RoundedCosineSign

/-- The `float64` rounding of a positive rational is positive. -/
theorem binary64_round_pos (q : ℚ) (hq : 0 < q) : 0 < binary64.round q := by
  unfold binary64.round
  rw [if_neg (ne_of_gt hq), if_pos hq]
  exact binary64_roundPos_pos q hq

/-- The rounded square root of a positive rational is positive. -/
theorem binary64_sqrt_pos (q : ℚ) (hq : 0 < q) : 0 < binary64.sqrt q := by
  unfold binary64.sqrt
  rw [if_neg (not_le.2 hq)]
  simp only
  have h1 : (2 : ℚ) ^ Int.log 2 q ≤ q := by
    have := Int.zpow_log_le_self (b := 2) (by norm_num) hq
    simpa using this
  have h4 : (4 : ℚ) ^ (Int.log 2 q / 2 - 52) ≤ 2 ^ Int.log 2 q := by
    have e : (4 : ℚ) ^ (Int.log 2 q / 2 - 52) = 2 ^ (2 * (Int.log 2 q / 2 - 52)) := by
      rw [zpow_mul]
      norm_num
    rw [e]
    exact zpow_le_zpow_right₀ (by norm_num) (by omega)
  have hp : (0 : ℚ) < 4 ^ (Int.log 2 q / 2 - 52) := by positivity
  have ht : (1 : ℚ) ≤ q / 4 ^ (Int.log 2 q / 2 - 52) := by
    rw [le_div_iff₀ hp, one_mul]
    exact le_trans h4 h1
  have hfloor : 1 ≤ ⌊q / 4 ^ (Int.log 2 q / 2 - 52)⌋₊ := Nat.le_floor (by exact_mod_cast ht)
  have hsqrt : 0 < Nat.sqrt ⌊q / 4 ^ (Int.log 2 q / 2 - 52)⌋₊ := Nat.sqrt_pos.2 hfloor
  have hm : (0 : ℚ) < ((if ((Nat.sqrt ⌊q / 4 ^ (Int.log 2 q / 2 - 52)⌋₊ : ℚ) + 1 / 2) ^ 2
      < q / 4 ^ (Int.log 2 q / 2 - 52)
      then Nat.sqrt ⌊q / 4 ^ (Int.log 2 q / 2 - 52)⌋₊ + 1
      else Nat.sqrt ⌊q / 4 ^ (Int.log 2 q / 2 - 52)⌋₊ : ℕ) : ℚ) := by
    split_ifs
    · exact_mod_cast Nat.succ_pos _
    · exact_mod_cast hsqrt
  positivity

/-- In `float64` the divisor of `CosineSimilarity` is not 0 once both sums of squares are
not 0. -/
theorem binary64_divisor_ne_zero (a b : List ℚ)
    (hA : rounded.accumulate binary64.round (a.map (fun x => binary64.round (x * x))) ≠ 0)
    (hB : rounded.accumulate binary64.round (b.map (fun x => binary64.round (x * x))) ≠ 0) :
    binary64.round
      (binary64.sqrt (rounded.accumulate binary64.round
          (a.map (fun x => binary64.round (x * x))))
        * binary64.sqrt (rounded.accumulate binary64.round
          (b.map (fun x => binary64.round (x * x))))) ≠ 0 := by
  have hA0 := accumulate_sq_nonneg binary64.round binary64_round_mono binary64_round_zero a
  have hB0 := accumulate_sq_nonneg binary64.round binary64_round_mono binary64_round_zero b
  have hsA := binary64_sqrt_pos _ (lt_of_le_of_ne hA0 (Ne.symm hA))
  have hsB := binary64_sqrt_pos _ (lt_of_le_of_ne hB0 (Ne.symm hB))
  exact ne_of_gt (binary64_round_pos _ (mul_pos hsA hsB))

section Binary64Error

/-- The nearest integer is within one half. -/
theorem nearestEven_abs_sub_le (x : ℚ) : |(binary64.nearestEven x : ℚ) - x| ≤ 1 / 2 := by
  have h1 : (⌊x⌋ : ℚ) ≤ x := Int.floor_le x
  have h2 : x < ⌊x⌋ + 1 := Int.lt_floor_add_one x
  unfold binary64.nearestEven
  rw [abs_le]
  split_ifs with ha hb hc
  · constructor <;> linarith
  · push_cast
    constructor <;> linarith
  · constructor <;> linarith
  · push_cast
    constructor <;> linarith

/-- The relative error of the `float64` rounding of a positive rational is at most `2^-53`. -/
theorem binary64_roundPos_error (q : ℚ) (hq : 0 < q) :
    |binary64.roundPos q - q| ≤ 1 / 2 ^ 53 * q := by
  unfold binary64.roundPos
  obtain ⟨h1, _⟩ := binary64_scaled_range q hq
  have hp : (0 : ℚ) < 2 ^ (Int.log 2 q - 52) := by positivity
  have he := nearestEven_abs_sub_le (q / 2 ^ (Int.log 2 q - 52))
  have e : (binary64.nearestEven (q / 2 ^ (Int.log 2 q - 52)) : ℚ) * 2 ^ (Int.log 2 q - 52) - q
      = ((binary64.nearestEven (q / 2 ^ (Int.log 2 q - 52)) : ℚ)
          - q / 2 ^ (Int.log 2 q - 52)) * 2 ^ (Int.log 2 q - 52) := by
    field_simp
  rw [e, abs_mul, abs_of_pos hp]
  have h3 : (1 : ℚ) / 2 ≤ 1 / 2 ^ 53 * (q / 2 ^ (Int.log 2 q - 52)) := by
    have : (2 : ℚ) ^ 52 ≤ q / 2 ^ (Int.log 2 q - 52) := h1
    linarith
  calc |(binary64.nearestEven (q / 2 ^ (Int.log 2 q - 52)) : ℚ)
          - q / 2 ^ (Int.log 2 q - 52)| * 2 ^ (Int.log 2 q - 52)
      ≤ (1 / 2 ^ 53 * (q / 2 ^ (Int.log 2 q - 52))) * 2 ^ (Int.log 2 q - 52) :=
        mul_le_mul_of_nonneg_right (le_trans he h3) hp.le
    _ = 1 / 2 ^ 53 * q := by
        field_simp
        ring

/-- The `float64` rounding of a rational that is not negative, from below and from above. -/
theorem binary64_round_bounds (q : ℚ) (hq : 0 ≤ q) :
    (1 - 1 / 2 ^ 53) * q ≤ binary64.round q ∧ binary64.round q ≤ (1 + 1 / 2 ^ 53) * q := by
  rcases eq_or_lt_of_le hq with h0 | hpos
  · rw [← h0, binary64_round_zero]
    constructor <;> norm_num
  · unfold binary64.round
    rw [if_neg (ne_of_gt hpos), if_pos hpos]
    have := abs_le.1 (binary64_roundPos_error q hpos)
    constructor <;> linarith [this.1, this.2]

/-- The absolute value of the `float64` rounding, from above. -/
theorem binary64_round_abs_le (q : ℚ) : |binary64.round q| ≤ (1 + 1 / 2 ^ 53) * |q| := by
  rcases le_or_lt 0 q with h | h
  · have hb := binary64_round_bounds q h
    have h0 : 0 ≤ binary64.round q := le_trans (mul_nonneg (by norm_num) h) hb.1
    rw [abs_of_nonneg h0, abs_of_nonneg h]
    exact hb.2
  · have hn : 0 < -q := by linarith
    have hb := binary64_round_bounds (-q) hn.le
    have e : binary64.round q = -binary64.round (-q) := by
      unfold binary64.round
      rw [if_neg (ne_of_lt h), if_neg (not_lt.2 h.le), if_neg (ne_of_gt hn), if_pos hn]
    have h0 : 0 ≤ binary64.round (-q) := le_trans (mul_nonneg (by norm_num) hn.le) hb.1
    rw [e, abs_neg, abs_of_nonneg h0, abs_of_neg h]
    exact hb.2

/-- The square of the rounded square root of a positive rational, from below. -/
theorem binary64_sqrt_sq_ge (q : ℚ) (hq : 0 < q) :
    (1 - 1 / 2 ^ 53) ^ 2 * q ≤ binary64.sqrt q ^ 2 := by
  unfold binary64.sqrt
  rw [if_neg (not_le.2 hq)]
  simp only
  generalize hk : Int.log 2 q / 2 - 52 = k
  have h1 : (2 : ℚ) ^ Int.log 2 q ≤ q := by
    have := Int.zpow_log_le_self (b := 2) (by norm_num) hq
    simpa using this
  have hp : (0 : ℚ) < 4 ^ k := by positivity
  have h4 : (4 : ℚ) ^ k * 2 ^ (104 : ℕ) ≤ 2 ^ Int.log 2 q := by
    have e : (4 : ℚ) ^ k * 2 ^ (104 : ℕ) = 2 ^ (2 * k + 104) := by
      rw [zpow_add₀ (by norm_num : (2 : ℚ) ≠ 0), zpow_mul]
      norm_num
    rw [e]
    exact zpow_le_zpow_right₀ (by norm_num) (by omega)
  generalize ht : q / 4 ^ k = t
  have hq' : q = t * 4 ^ k := by
    rw [← ht]
    field_simp
  have ht104 : (2 : ℚ) ^ (104 : ℕ) ≤ t := by
    rw [← ht, le_div_iff₀ hp]
    linarith
  have ht0 : 0 ≤ t := le_trans (by norm_num) ht104
  generalize hm0 : Nat.sqrt ⌊t⌋₊ = m0
  have hfl1 : (⌊t⌋₊ : ℚ) ≤ t := Nat.floor_le ht0
  have hfl2 : t < ⌊t⌋₊ + 1 := Nat.lt_floor_add_one t
  have hs1 : m0 * m0 ≤ ⌊t⌋₊ := by rw [← hm0]; exact Nat.sqrt_le _
  have hs2 : ⌊t⌋₊ < (m0 + 1) * (m0 + 1) := by rw [← hm0]; exact Nat.lt_succ_sqrt _
  have hfl104 : 2 ^ 104 ≤ ⌊t⌋₊ := Nat.le_floor (by exact_mod_cast ht104)
  have hm52 : 2 ^ 52 ≤ m0 := by
    by_contra hlt
    have hlt2 : m0 + 1 ≤ 2 ^ 52 := by omega
    have : (m0 + 1) * (m0 + 1) ≤ 2 ^ 52 * 2 ^ 52 := Nat.mul_le_mul hlt2 hlt2
    have e : (2 : ℕ) ^ 52 * 2 ^ 52 = 2 ^ 104 := by norm_num
    omega
  have hm52q : (2 : ℚ) ^ 52 ≤ (m0 : ℚ) := by exact_mod_cast hm52
  have hgoal : ∀ m : ℕ, (1 - 1 / 2 ^ 53) ^ 2 * t ≤ (m : ℚ) ^ 2 →
      (1 - 1 / 2 ^ 53) ^ 2 * q ≤ ((m : ℚ) * 2 ^ k) ^ 2 := by
    intro m hm
    have e2 : ((m : ℚ) * 2 ^ k) ^ 2 = (m : ℚ) ^ 2 * 4 ^ k := by
      rw [mul_pow, ← zpow_natCast (2 ^ k : ℚ) 2, ← zpow_mul, mul_comm k, zpow_mul]
      norm_num
    rw [e2, hq', ← mul_assoc]
    exact mul_le_mul_of_nonneg_right hm hp.le
  split_ifs with hmid
  · apply hgoal
    have h5 : (⌊t⌋₊ : ℚ) + 1 ≤ ((m0 : ℚ) + 1) * (m0 + 1) := by exact_mod_cast hs2
    have h6 : t ≤ ((m0 : ℚ) + 1) ^ 2 :=
      calc t ≤ (⌊t⌋₊ : ℚ) + 1 := hfl2.le
        _ ≤ ((m0 : ℚ) + 1) * (m0 + 1) := h5
        _ = ((m0 : ℚ) + 1) ^ 2 := by ring
    have h7 : (1 - 1 / 2 ^ 53 : ℚ) ^ 2 ≤ 1 := by norm_num
    push_cast
    calc (1 - 1 / 2 ^ 53 : ℚ) ^ 2 * t ≤ 1 * t := mul_le_mul_of_nonneg_right h7 ht0
      _ = t := one_mul t
      _ ≤ ((m0 : ℚ) + 1) ^ 2 := h6
  · apply hgoal
    have hmid2 : t ≤ ((m0 : ℚ) + 1 / 2) ^ 2 := not_lt.1 hmid
    have h8 : (1 - 1 / 2 ^ 53 : ℚ) * ((m0 : ℚ) + 1 / 2) ≤ m0 := by
      have : (1 : ℚ) / 2 ^ 53 * ((m0 : ℚ) + 1 / 2) ≥ 1 / 2 := by
        have : (2 : ℚ) ^ 52 ≤ (m0 : ℚ) + 1 / 2 := by linarith
        linarith
      linarith
    have h9 : (0 : ℚ) ≤ (1 - 1 / 2 ^ 53) * ((m0 : ℚ) + 1 / 2) :=
      mul_nonneg (by norm_num) (by positivity)
    calc (1 - 1 / 2 ^ 53 : ℚ) ^ 2 * t ≤ (1 - 1 / 2 ^ 53) ^ 2 * ((m0 : ℚ) + 1 / 2) ^ 2 :=
          mul_le_mul_of_nonneg_left hmid2 (by positivity)
      _ = ((1 - 1 / 2 ^ 53) * ((m0 : ℚ) + 1 / 2)) ^ 2 := by ring
      _ ≤ (m0 : ℚ) ^ 2 := pow_le_pow_left₀ h9 h8 2

end Binary64Error

section RoundedCosineBound

variable {F : Type} [LinearOrderedField F]

/-- The Cauchy-Schwarz inequality for the sum of the absolute values of the products. -/
theorem abs_dot_sq_le (a b : List F) (hlen : a.length = b.length) :
    (((a.zip b).map (fun p => |p.1 * p.2|)).sum) ^ 2
      ≤ (a.map (fun x => x * x)).sum * (b.map (fun x => x * x)).sum := by
  have h := dot_sq_le (a.map (fun x => |x|)) (b.map (fun x => |x|)) (by simp [hlen])
  have e1 : ((a.map (fun x => |x|)).zip (b.map (fun x => |x|))).map (fun p => p.1 * p.2)
      = (a.zip b).map (fun p => |p.1 * p.2|) := by
    rw [List.zip_map, List.map_map]
    apply List.map_congr_left
    intro p _
    simp [abs_mul]
  have e2 : ∀ l : List F, (l.map (fun x => |x|)).map (fun x => x * x)
      = l.map (fun x => x * x) := by
    intro l
    rw [List.map_map]
    apply List.map_congr_left
    intro x _
    simp
  rw [e1, e2, e2] at h
  exact h

/-- A sum of terms bounded by a multiple of other terms. -/
theorem sum_map_le_mul {ι : Type} (l : List ι) (f g : ι → F) (c : F)
    (h : ∀ i ∈ l, f i ≤ c * g i) : (l.map f).sum ≤ c * (l.map g).sum := by
  induction l with
  | nil => simp
  | cons i is ih =>
    simp only [List.map_cons, List.sum_cons]
    have h1 := h i (List.mem_cons_self _ _)
    have h2 := ih (fun j hj => h j (List.mem_cons_of_mem _ hj))
    linarith

/-- A sum of terms bounded from below by a multiple of other terms. -/
theorem mul_sum_map_le {ι : Type} (l : List ι) (f g : ι → F) (c : F)
    (h : ∀ i ∈ l, c * g i ≤ f i) : c * (l.map g).sum ≤ (l.map f).sum := by
  induction l with
  | nil => simp
  | cons i is ih =>
    simp only [List.map_cons, List.sum_cons]
    have h1 := h i (List.mem_cons_self _ _)
    have h2 := ih (fun j hj => h j (List.mem_cons_of_mem _ hj))
    linarith

/-- The accumulated sum, in absolute value, when each rounding enlarges by at most `1 + u`. -/
theorem accumulate_abs_le (fl : F → F) (u : F) (hu0 : 0 ≤ u)
    (hup : ∀ q, |fl q| ≤ (1 + u) * |q|) (l : List F) :
    |rounded.accumulate fl l| ≤ (1 + u) ^ l.length * (l.map (fun t => |t|)).sum := by
  have hgen : ∀ (l : List F) (acc : F),
      |l.foldl (fun acc term => fl (acc + term)) acc|
        ≤ (1 + u) ^ l.length * (|acc| + (l.map (fun t => |t|)).sum) := by
    intro l
    induction l with
    | nil => intro acc; simp
    | cons t ts ih =>
      intro acc
      rw [List.foldl_cons]
      have h1 := ih (fl (acc + t))
      have h2 : |fl (acc + t)| ≤ (1 + u) * (|acc| + |t|) :=
        le_trans (hup _) (mul_le_mul_of_nonneg_left (abs_add _ _) (by linarith))
      have hs : 0 ≤ (ts.map (fun t => |t|)).sum :=
        List.sum_nonneg (fun x hx => by
          obtain ⟨y, _, rfl⟩ := List.mem_map.1 hx
          exact abs_nonneg y)
      have hp : 0 ≤ (1 + u) ^ ts.length := pow_nonneg (by linarith) _
      simp only [List.map_cons, List.sum_cons, List.length_cons, pow_succ]
      calc |ts.foldl (fun acc term => fl (acc + term)) (fl (acc + t))|
          ≤ (1 + u) ^ ts.length * (|fl (acc + t)| + (ts.map (fun t => |t|)).sum) := h1
        _ ≤ (1 + u) ^ ts.length
            * ((1 + u) * (|acc| + |t|) + (1 + u) * (ts.map (fun t => |t|)).sum) := by
            apply mul_le_mul_of_nonneg_left _ hp
            have : (ts.map (fun t => |t|)).sum ≤ (1 + u) * (ts.map (fun t => |t|)).sum := by
              nlinarith
            linarith
        _ = (1 + u) ^ ts.length * (1 + u) * (|acc| + (|t| + (ts.map (fun t => |t|)).sum)) := by
            ring
  have := hgen l 0
  simpa [rounded.accumulate] using this

/-- The accumulated sum of terms that are not negative, when each rounding shrinks by at most
`1 - u`. -/
theorem accumulate_ge (fl : F → F) (u : F) (hu0 : 0 ≤ u) (hu1 : u ≤ 1)
    (hlo : ∀ q, 0 ≤ q → (1 - u) * q ≤ fl q) (l : List F) (hl : ∀ t ∈ l, 0 ≤ t) :
    (1 - u) ^ l.length * l.sum ≤ rounded.accumulate fl l := by
  have hgen : ∀ (l : List F) (acc : F), 0 ≤ acc → (∀ t ∈ l, 0 ≤ t) →
      (1 - u) ^ l.length * (acc + l.sum)
        ≤ l.foldl (fun acc term => fl (acc + term)) acc := by
    intro l
    induction l with
    | nil => intro acc _ _; simp
    | cons t ts ih =>
      intro acc hacc hts
      rw [List.foldl_cons]
      have ht : 0 ≤ t := hts t (List.mem_cons_self _ _)
      have hts2 : ∀ x ∈ ts, 0 ≤ x := fun x hx => hts x (List.mem_cons_of_mem _ hx)
      have h2 : (1 - u) * (acc + t) ≤ fl (acc + t) := hlo _ (add_nonneg hacc ht)
      have h3 : 0 ≤ fl (acc + t) :=
        le_trans (mul_nonneg (by linarith) (add_nonneg hacc ht)) h2
      have h1 := ih (fl (acc + t)) h3 hts2
      have hs : 0 ≤ ts.sum := List.sum_nonneg hts2
      have hp : 0 ≤ (1 - u) ^ ts.length := pow_nonneg (by linarith) _
      simp only [List.sum_cons, List.length_cons, pow_succ]
      calc (1 - u) ^ ts.length * (1 - u) * (acc + (t + ts.sum))
          = (1 - u) ^ ts.length * ((1 - u) * (acc + t) + (1 - u) * ts.sum) := by ring
        _ ≤ (1 - u) ^ ts.length * (fl (acc + t) + ts.sum) := by
            apply mul_le_mul_of_nonneg_left _ hp
            have : (1 - u) * ts.sum ≤ ts.sum := by nlinarith
            linarith
        _ ≤ ts.foldl (fun acc term => fl (acc + term)) (fl (acc + t)) := h1
  have := hgen l 0 le_rfl hl
  simpa [rounded.accumulate] using this

end RoundedCosineBound

section RoundedCosineFinal

variable {F : Type} [LinearOrderedField F]

/-- The rounded cosine similarity exceeds 1 in absolute value by no more than the accumulated
rounding errors allow: when every rounding has relative error at most `u` and the rounded
square root is positive with relative error at most `u`, the result is at most
`(1 + u)^(n + 2) / (1 - u)^(n + 4)` in absolute value, `n` being the length. -/
theorem rounded_cosine_abs_le (fl sqrt : F → F) (u : F) (hu0 : 0 ≤ u) (hu1 : u < 1)
    (hup : ∀ q, |fl q| ≤ (1 + u) * |q|) (hlo : ∀ q, 0 ≤ q → (1 - u) * q ≤ fl q)
    (hsq : ∀ q, 0 < q → 0 < sqrt q ∧ (1 - u) ^ 2 * q ≤ sqrt q ^ 2)
    (a b : List F) (hlen : a.length = b.length) :
    |rounded.CosineSimilarity fl sqrt a b|
      ≤ (1 + u) ^ (a.length + 2) / (1 - u) ^ (a.length + 4) := by
  have hA : 0 < 1 + u := by linarith
  have hB : 0 < 1 - u := by linarith
  have hK : 0 ≤ (1 + u) ^ (a.length + 2) / (1 - u) ^ (a.length + 4) :=
    div_nonneg (pow_nonneg hA.le _) (pow_nonneg hB.le _)
  unfold rounded.CosineSimilarity
  rw [if_neg (not_not.2 hlen)]
  simp only
  by_cases hz : rounded.accumulate fl (a.map (fun x => fl (x * x))) = 0 ∨
      rounded.accumulate fl (b.map (fun x => fl (x * x))) = 0
  · rw [if_pos hz, abs_zero]
    exact hK
  rw [if_neg hz]
  have hz' := not_or.1 hz
  -- the exact sums and the accumulated ones
  generalize hSA : (a.map (fun x => x * x)).sum = SA
  generalize hSB : (b.map (fun x => x * x)).sum = SB
  generalize hP : ((a.zip b).map (fun p => |p.1 * p.2|)).sum = P
  have hSA0 : 0 ≤ SA := hSA ▸ sum_sq_nonneg a
  have hSB0 : 0 ≤ SB := hSB ▸ sum_sq_nonneg b
  have hP0 : 0 ≤ P := by
    rw [← hP]
    exact List.sum_nonneg (fun x hx => by
      obtain ⟨y, _, rfl⟩ := List.mem_map.1 hx
      exact abs_nonneg _)
  have hPsq : P ^ 2 ≤ SA * SB := by
    rw [← hP, ← hSA, ← hSB]
    exact abs_dot_sq_le a b hlen
  have hnorm : ∀ (l : List F) (S : F), (l.map (fun x => x * x)).sum = S →
      (1 - u) ^ (l.length + 1) * S ≤ rounded.accumulate fl (l.map (fun x => fl (x * x))) := by
    intro l S hS
    have h1 := accumulate_ge fl u hu0 hu1.le hlo (l.map (fun x => fl (x * x))) (by
      intro t ht
      obtain ⟨x, _, rfl⟩ := List.mem_map.1 ht
      exact le_trans (mul_nonneg hB.le (mul_self_nonneg x)) (hlo _ (mul_self_nonneg x)))
    have h2 : (1 - u) * (l.map (fun x => x * x)).sum ≤ (l.map (fun x => fl (x * x))).sum :=
      mul_sum_map_le l (fun x => fl (x * x)) (fun x => x * x) (1 - u)
        (fun x _ => hlo _ (mul_self_nonneg x))
    rw [List.length_map] at h1
    rw [hS] at h2
    calc (1 - u) ^ (l.length + 1) * S = (1 - u) ^ l.length * ((1 - u) * S) := by ring
      _ ≤ (1 - u) ^ l.length * (l.map (fun x => fl (x * x))).sum :=
          mul_le_mul_of_nonneg_left h2 (pow_nonneg hB.le _)
      _ ≤ rounded.accumulate fl (l.map (fun x => fl (x * x))) := h1
  have hNA := hnorm a SA hSA
  have hNB := hnorm b SB hSB
  rw [← hlen] at hNB
  have hdot : |rounded.accumulate fl ((a.zip b).map (fun p => fl (p.1 * p.2)))|
      ≤ (1 + u) ^ (a.length + 1) * P := by
    have h1 := accumulate_abs_le fl u hu0 hup ((a.zip b).map (fun p => fl (p.1 * p.2)))
    have hl : ((a.zip b).map (fun p => fl (p.1 * p.2))).length = a.length := by
      simp [hlen]
    rw [hl, List.map_map] at h1
    have h2 : ((a.zip b).map ((fun t => |t|) ∘ fun p => fl (p.1 * p.2))).sum
        ≤ (1 + u) * ((a.zip b).map (fun p => |p.1 * p.2|)).sum :=
      sum_map_le_mul (a.zip b) _ (fun p => |p.1 * p.2|) (1 + u) (fun p _ => hup _)
    rw [hP] at h2
    calc |rounded.accumulate fl ((a.zip b).map (fun p => fl (p.1 * p.2)))|
        ≤ (1 + u) ^ a.length
          * ((a.zip b).map ((fun t => |t|) ∘ fun p => fl (p.1 * p.2))).sum := h1
      _ ≤ (1 + u) ^ a.length * ((1 + u) * P) :=
          mul_le_mul_of_nonneg_left h2 (pow_nonneg hA.le _)
      _ = (1 + u) ^ (a.length + 1) * P := by ring
  generalize rounded.accumulate fl ((a.zip b).map (fun p => fl (p.1 * p.2))) = D at hdot ⊢
  generalize rounded.accumulate fl (a.map (fun x => fl (x * x))) = NA at hz' hNA ⊢
  generalize rounded.accumulate fl (b.map (fun x => fl (x * x))) = NB at hz' hNB ⊢
  generalize a.length = n at hNA hNB hdot hK ⊢
  have hNA0 : 0 < NA :=
    lt_of_le_of_ne (le_trans (mul_nonneg (pow_nonneg hB.le _) hSA0) hNA) (Ne.symm hz'.1)
  have hNB0 : 0 < NB :=
    lt_of_le_of_ne (le_trans (mul_nonneg (pow_nonneg hB.le _) hSB0) hNB) (Ne.symm hz'.2)
  obtain ⟨hsA0, hsA⟩ := hsq NA hNA0
  obtain ⟨hsB0, hsB⟩ := hsq NB hNB0
  generalize sqrt NA = sA at hsA0 hsA ⊢
  generalize sqrt NB = sB at hsB0 hsB ⊢
  have hss : 0 < sA * sB := mul_pos hsA0 hsB0
  have hden : (1 - u) * (sA * sB) ≤ fl (sA * sB) := hlo _ hss.le
  have hden0 : 0 < fl (sA * sB) := lt_of_lt_of_le (mul_pos hB hss) hden
  generalize fl (sA * sB) = den at hden hden0 ⊢
  have hden2 : (1 - u) ^ (2 * n + 8) * (SA * SB) ≤ den ^ 2 :=
    calc (1 - u) ^ (2 * n + 8) * (SA * SB)
        = (1 - u) ^ 6 * (((1 - u) ^ (n + 1) * SA) * ((1 - u) ^ (n + 1) * SB)) := by ring
      _ ≤ (1 - u) ^ 6 * (NA * NB) :=
          mul_le_mul_of_nonneg_left
            (mul_le_mul hNA hNB (mul_nonneg (pow_nonneg hB.le _) hSB0) hNA0.le)
            (pow_nonneg hB.le _)
      _ = (1 - u) ^ 2 * (((1 - u) ^ 2 * NA) * ((1 - u) ^ 2 * NB)) := by ring
      _ ≤ (1 - u) ^ 2 * (sA ^ 2 * sB ^ 2) :=
          mul_le_mul_of_nonneg_left
            (mul_le_mul hsA hsB (mul_nonneg (pow_nonneg hB.le _) hNB0.le) (pow_nonneg hsA0.le _))
            (pow_nonneg hB.le _)
      _ = ((1 - u) * (sA * sB)) ^ 2 := by ring
      _ ≤ den ^ 2 := pow_le_pow_left₀ (mul_nonneg hB.le hss.le) hden 2
  have hXY : (|D| * (1 - u) ^ (n + 4)) ^ 2 ≤ ((1 + u) ^ (n + 1) * den) ^ 2 :=
    calc (|D| * (1 - u) ^ (n + 4)) ^ 2 = |D| ^ 2 * (1 - u) ^ (2 * n + 8) := by ring
      _ ≤ ((1 + u) ^ (n + 1) * P) ^ 2 * (1 - u) ^ (2 * n + 8) :=
          mul_le_mul_of_nonneg_right (pow_le_pow_left₀ (abs_nonneg D) hdot 2)
            (pow_nonneg hB.le _)
      _ = (1 + u) ^ (2 * n + 2) * (P ^ 2 * (1 - u) ^ (2 * n + 8)) := by ring
      _ ≤ (1 + u) ^ (2 * n + 2) * ((SA * SB) * (1 - u) ^ (2 * n + 8)) :=
          mul_le_mul_of_nonneg_left
            (mul_le_mul_of_nonneg_right hPsq (pow_nonneg hB.le _)) (pow_nonneg hA.le _)
      _ = (1 + u) ^ (2 * n + 2) * ((1 - u) ^ (2 * n + 8) * (SA * SB)) := by ring
      _ ≤ (1 + u) ^ (2 * n + 2) * den ^ 2 :=
          mul_le_mul_of_nonneg_left hden2 (pow_nonneg hA.le _)
      _ = ((1 + u) ^ (n + 1) * den) ^ 2 := by ring
  have hX : |D| * (1 - u) ^ (n + 4) ≤ (1 + u) ^ (n + 1) * den :=
    le_trans (le_abs_self _)
      (abs_le_of_sq_le_sq hXY (mul_nonneg (pow_nonneg hA.le _) hden0.le))
  calc |fl (D / den)| ≤ (1 + u) * |D / den| := hup _
    _ = (1 + u) * |D| / den := by rw [abs_div, abs_of_pos hden0, mul_div_assoc]
    _ ≤ (1 + u) ^ (n + 2) / (1 - u) ^ (n + 4) := by
        rw [div_le_div_iff₀ hden0 (pow_pos hB _)]
        calc (1 + u) * |D| * (1 - u) ^ (n + 4) = (1 + u) * (|D| * (1 - u) ^ (n + 4)) := by ring
          _ ≤ (1 + u) * ((1 + u) ^ (n + 1) * den) := mul_le_mul_of_nonneg_left hX hA.le
          _ = (1 + u) ^ (n + 2) * den := by ring

end RoundedCosineFinal

/-- In `float64` the cosine similarity of two vectors of length `n` is at most
`(1 + 2^-53)^(n + 2) / (1 - 2^-53)^(n + 4)` in absolute value. -/
theorem binary64_cosine_abs_le (a b : List ℚ) (hlen : a.length = b.length) :
    |rounded.CosineSimilarity binary64.round binary64.sqrt a b|
      ≤ (1 + 1 / 2 ^ 53) ^ (a.length + 2) / (1 - 1 / 2 ^ 53) ^ (a.length + 4) :=
  rounded_cosine_abs_le binary64.round binary64.sqrt (1 / 2 ^ 53) (by norm_num) (by norm_num)
    binary64_round_abs_le (fun q hq => (binary64_round_bounds q hq).1)
    (fun q hq => ⟨binary64_sqrt_pos q hq, binary64_sqrt_sq_ge q hq⟩) a b hlen

/-- The bound of `binary64_cosine_abs_le` in simple terms: at most `(4 n + 12) * 2^-53` above 1,
for every length `n` up to `2^51 - 3`. -/
theorem binary64_cosine_factor_le (n : ℕ) (hn : 2 * n + 6 ≤ 2 ^ 52) :
    (1 + 1 / 2 ^ 53 : ℚ) ^ (n + 2) / (1 - 1 / 2 ^ 53) ^ (n + 4)
      ≤ 1 + (4 * (n : ℚ) + 12) / 2 ^ 53 := by
  have hB : (0 : ℚ) < 1 - 1 / 2 ^ 53 := by norm_num
  have hA : (0 : ℚ) ≤ 1 + 1 / 2 ^ 53 := by norm_num
  have hAB : (1 + 1 / 2 ^ 53 : ℚ) * (1 - 1 / 2 ^ 53) ≤ 1 := by norm_num
  have h1 : (1 + 1 / 2 ^ 53 : ℚ) ^ (n + 2) * (1 - 1 / 2 ^ 53) ^ (n + 2) ≤ 1 := by
    rw [← mul_pow]
    exact pow_le_one₀ (mul_nonneg hA hB.le) hAB
  have hbern : 1 + ((2 * n + 6 : ℕ) : ℚ) * (-(1 / 2 ^ 53)) ≤ (1 + -(1 / 2 ^ 53)) ^ (2 * n + 6) :=
    one_add_mul_le_pow (by norm_num) (2 * n + 6)
  have hm : ((2 * n + 6 : ℕ) : ℚ) ≤ 2 ^ 52 := by exact_mod_cast hn
  have hm0 : (0 : ℚ) ≤ ((2 * n + 6 : ℕ) : ℚ) := Nat.cast_nonneg _
  have hpow : (1 - 1 / 2 ^ 53 : ℚ) ^ (2 * n + 6)
      = (1 - 1 / 2 ^ 53) ^ (n + 2) * (1 - 1 / 2 ^ 53) ^ (n + 4) := by
    rw [← pow_add]
    congr 1
    ring
  rw [div_le_iff₀ (pow_pos hB _)]
  generalize hx : ((2 * n + 6 : ℕ) : ℚ) = x at hbern hm hm0
  have hx2 : (4 * (n : ℚ) + 12) = 2 * x := by
    rw [← hx]
    push_cast
    ring
  rw [hx2]
  have e : (1 + -(1 / 2 ^ 53) : ℚ) = 1 - 1 / 2 ^ 53 := by ring
  rw [e, hpow] at hbern
  have hp0 : (0 : ℚ) ≤ (1 + 1 / 2 ^ 53) ^ (n + 2) := pow_nonneg hA _
  generalize (1 + 1 / 2 ^ 53 : ℚ) ^ (n + 2) = p at h1 hp0 ⊢
  have hq2 : (0 : ℚ) < (1 - 1 / 2 ^ 53) ^ (n + 2) := pow_pos hB _
  have hq4 : (0 : ℚ) < (1 - 1 / 2 ^ 53) ^ (n + 4) := pow_pos hB _
  generalize (1 - 1 / 2 ^ 53 : ℚ) ^ (n + 2) = q2 at h1 hbern hq2
  generalize (1 - 1 / 2 ^ 53 : ℚ) ^ (n + 4) = q4 at hbern hq4 ⊢
  have hy : (0 : ℚ) ≤ x / 2 ^ 53 := by positivity
  have hy2 : x / 2 ^ 53 ≤ 1 / 2 := by
    rw [div_le_iff₀ (by norm_num)]
    linarith
  have hb2 : 1 - x / 2 ^ 53 ≤ q2 * q4 := by
    have : 1 + x * -(1 / 2 ^ 53) = 1 - x / 2 ^ 53 := by ring
    rw [this] at hbern
    exact hbern
  have h3 : (1 : ℚ) ≤ (1 + 2 * (x / 2 ^ 53)) * (1 - x / 2 ^ 53) := by nlinarith
  have h4 : (0 : ℚ) ≤ 1 + 2 * (x / 2 ^ 53) := by linarith
  have e5 : (1 + 2 * x / 2 ^ 53 : ℚ) = 1 + 2 * (x / 2 ^ 53) := by ring
  rw [e5]
  calc p = p * 1 := (mul_one p).symm
    _ ≤ p * ((1 + 2 * (x / 2 ^ 53)) * (q2 * q4)) := by
        apply mul_le_mul_of_nonneg_left _ hp0
        calc (1 : ℚ) ≤ (1 + 2 * (x / 2 ^ 53)) * (1 - x / 2 ^ 53) := h3
          _ ≤ (1 + 2 * (x / 2 ^ 53)) * (q2 * q4) := mul_le_mul_of_nonneg_left hb2 h4
    _ = (p * q2) * ((1 + 2 * (x / 2 ^ 53)) * q4) := by ring
    _ ≤ 1 * ((1 + 2 * (x / 2 ^ 53)) * q4) :=
        mul_le_mul_of_nonneg_right h1 (mul_nonneg h4 hq4.le)
    _ = (1 + 2 * (x / 2 ^ 53)) * q4 := one_mul _

section Binary64Self

/-- The square of the rounded square root of a positive rational, from above. -/
theorem binary64_sqrt_sq_le (q : ℚ) (hq : 0 < q) :
    binary64.sqrt q ^ 2 ≤ (1 + 1 / 2 ^ 53) ^ 2 * q := by
  unfold binary64.sqrt
  rw [if_neg (not_le.2 hq)]
  simp only
  generalize hk : Int.log 2 q / 2 - 52 = k
  have h1 : (2 : ℚ) ^ Int.log 2 q ≤ q := by
    have := Int.zpow_log_le_self (b := 2) (by norm_num) hq
    simpa using this
  have hp : (0 : ℚ) < 4 ^ k := by positivity
  have h4 : (4 : ℚ) ^ k * 2 ^ (104 : ℕ) ≤ 2 ^ Int.log 2 q := by
    have e : (4 : ℚ) ^ k * 2 ^ (104 : ℕ) = 2 ^ (2 * k + 104) := by
      rw [zpow_add₀ (by norm_num : (2 : ℚ) ≠ 0), zpow_mul]
      norm_num
    rw [e]
    exact zpow_le_zpow_right₀ (by norm_num) (by omega)
  generalize ht : q / 4 ^ k = t
  have hq' : q = t * 4 ^ k := by
    rw [← ht]
    field_simp
  have ht104 : (2 : ℚ) ^ (104 : ℕ) ≤ t := by
    rw [← ht, le_div_iff₀ hp]
    linarith
  have ht0 : 0 ≤ t := le_trans (by norm_num) ht104
  generalize hm0 : Nat.sqrt ⌊t⌋₊ = m0
  have hfl1 : (⌊t⌋₊ : ℚ) ≤ t := Nat.floor_le ht0
  have hs1 : m0 * m0 ≤ ⌊t⌋₊ := by rw [← hm0]; exact Nat.sqrt_le _
  have hs2 : ⌊t⌋₊ < (m0 + 1) * (m0 + 1) := by rw [← hm0]; exact Nat.lt_succ_sqrt _
  have hfl104 : 2 ^ 104 ≤ ⌊t⌋₊ := Nat.le_floor (by exact_mod_cast ht104)
  have hm52 : 2 ^ 52 ≤ m0 := by
    by_contra hlt
    have hlt2 : m0 + 1 ≤ 2 ^ 52 := by omega
    have : (m0 + 1) * (m0 + 1) ≤ 2 ^ 52 * 2 ^ 52 := Nat.mul_le_mul hlt2 hlt2
    have e : (2 : ℕ) ^ 52 * 2 ^ 52 = 2 ^ 104 := by norm_num
    omega
  have hm52q : (2 : ℚ) ^ 52 ≤ (m0 : ℚ) := by exact_mod_cast hm52
  have hgoal : ∀ m : ℕ, (m : ℚ) ^ 2 ≤ (1 + 1 / 2 ^ 53) ^ 2 * t →
      ((m : ℚ) * 2 ^ k) ^ 2 ≤ (1 + 1 / 2 ^ 53) ^ 2 * q := by
    intro m hm
    have e2 : ((m : ℚ) * 2 ^ k) ^ 2 = (m : ℚ) ^ 2 * 4 ^ k := by
      rw [mul_pow, ← zpow_natCast (2 ^ k : ℚ) 2, ← zpow_mul, mul_comm k, zpow_mul]
      norm_num
    rw [e2, hq', ← mul_assoc]
    exact mul_le_mul_of_nonneg_right hm hp.le
  split_ifs with hmid
  · apply hgoal
    have h8 : ((m0 : ℚ) + 1) ≤ (1 + 1 / 2 ^ 53) * ((m0 : ℚ) + 1 / 2) := by
      have : (1 : ℚ) / 2 ^ 53 * ((m0 : ℚ) + 1 / 2) ≥ 1 / 2 := by
        have : (2 : ℚ) ^ 52 ≤ (m0 : ℚ) + 1 / 2 := by linarith
        linarith
      linarith
    have h9 : (0 : ℚ) ≤ (m0 : ℚ) + 1 := by positivity
    push_cast
    calc ((m0 : ℚ) + 1) ^ 2 ≤ ((1 + 1 / 2 ^ 53) * ((m0 : ℚ) + 1 / 2)) ^ 2 :=
          pow_le_pow_left₀ h9 h8 2
      _ = (1 + 1 / 2 ^ 53) ^ 2 * ((m0 : ℚ) + 1 / 2) ^ 2 := by ring
      _ ≤ (1 + 1 / 2 ^ 53) ^ 2 * t := mul_le_mul_of_nonneg_left hmid.le (by positivity)
  · apply hgoal
    have h5 : (m0 : ℚ) * m0 ≤ (⌊t⌋₊ : ℚ) := by exact_mod_cast hs1
    have h7 : (1 : ℚ) ≤ (1 + 1 / 2 ^ 53) ^ 2 := by norm_num
    calc (m0 : ℚ) ^ 2 = (m0 : ℚ) * m0 := by ring
      _ ≤ (⌊t⌋₊ : ℚ) := h5
      _ ≤ t := hfl1
      _ = 1 * t := (one_mul t).symm
      _ ≤ (1 + 1 / 2 ^ 53) ^ 2 * t := mul_le_mul_of_nonneg_right h7 ht0

/-- In `float64` the cosine similarity of a vector with itself is 0 when the accumulated sum of
squares is 0, and otherwise lies within `[1 - 4 * 2^-53, 1 + 5 * 2^-53]`. -/
theorem binary64_cosine_self_bounds (a : List ℚ)
    (hn : rounded.accumulate binary64.round (a.map (fun x => binary64.round (x * x))) ≠ 0) :
    1 - 4 / 2 ^ 53 ≤ rounded.CosineSimilarity binary64.round binary64.sqrt a a ∧
    rounded.CosineSimilarity binary64.round binary64.sqrt a a ≤ 1 + 5 / 2 ^ 53 := by
  rw [rounded_cosine_self, if_neg hn]
  have hn0 := accumulate_sq_nonneg binary64.round binary64_round_mono binary64_round_zero a
  generalize rounded.accumulate binary64.round (a.map (fun x => binary64.round (x * x))) = n
    at hn hn0 ⊢
  have hpos : 0 < n := lt_of_le_of_ne hn0 (Ne.symm hn)
  have hs0 := binary64_sqrt_pos n hpos
  have hs1 := binary64_sqrt_sq_ge n hpos
  have hs2 := binary64_sqrt_sq_le n hpos
  generalize binary64.sqrt n = s at hs0 hs1 hs2 ⊢
  have hss : 0 < s * s := mul_pos hs0 hs0
  have hd := binary64_round_bounds (s * s) hss.le
  have hd0 := binary64_round_pos (s * s) hss
  generalize binary64.round (s * s) = d at hd hd0 ⊢
  have hc := binary64_round_bounds (n / d) (div_nonneg hpos.le hd0.le)
  generalize binary64.round (n / d) = c at hc ⊢
  have hsq : s * s = s ^ 2 := by ring
  rw [hsq] at hd
  -- d lies between (1 - u)^3 n and (1 + u)^3 n
  have hdlo : (1 - 1 / 2 ^ 53) ^ 3 * n ≤ d :=
    calc (1 - 1 / 2 ^ 53 : ℚ) ^ 3 * n = (1 - 1 / 2 ^ 53) * ((1 - 1 / 2 ^ 53) ^ 2 * n) := by ring
      _ ≤ (1 - 1 / 2 ^ 53) * s ^ 2 := mul_le_mul_of_nonneg_left hs1 (by norm_num)
      _ ≤ d := hd.1
  have hdhi : d ≤ (1 + 1 / 2 ^ 53) ^ 3 * n :=
    calc d ≤ (1 + 1 / 2 ^ 53) * s ^ 2 := hd.2
      _ ≤ (1 + 1 / 2 ^ 53) * ((1 + 1 / 2 ^ 53) ^ 2 * n) :=
          mul_le_mul_of_nonneg_left hs2 (by norm_num)
      _ = (1 + 1 / 2 ^ 53) ^ 3 * n := by ring
  have hq1 : 1 / (1 + 1 / 2 ^ 53) ^ 3 ≤ n / d := by
    rw [div_le_div_iff₀ (by norm_num) hd0]
    linarith
  have hq2 : n / d ≤ 1 / (1 - 1 / 2 ^ 53) ^ 3 := by
    rw [div_le_div_iff₀ hd0 (by norm_num)]
    linarith
  constructor
  · calc (1 - 4 / 2 ^ 53 : ℚ) ≤ (1 - 1 / 2 ^ 53) * (1 / (1 + 1 / 2 ^ 53) ^ 3) := by norm_num
      _ ≤ (1 - 1 / 2 ^ 53) * (n / d) := mul_le_mul_of_nonneg_left hq1 (by norm_num)
      _ ≤ c := hc.1
  · calc c ≤ (1 + 1 / 2 ^ 53) * (n / d) := hc.2
      _ ≤ (1 + 1 / 2 ^ 53) * (1 / (1 - 1 / 2 ^ 53) ^ 3) :=
          mul_le_mul_of_nonneg_left hq2 (by norm_num)
      _ ≤ 1 + 5 / 2 ^ 53 := by norm_num

end Binary64Self

/-- C18 (as stated) fails in `float64`: for `a = b = [0.1, 0.7]` the accumulated sum of squares
is `(1 - 2^-53) / 2`, the rounded product of its two square roots is one unit in the last place
smaller, and the rounded quotient is `1 + 2^-52`, outside `[-1, 1]`. -/
theorem C18_counterexample_rounding_exceeds_one :
    [binary64.round (1 / 10), binary64.round (7 / 10)].length
      = [binary64.round (1 / 10), binary64.round (7 / 10)].length ∧
    rounded.CosineSimilarity binary64.round binary64.sqrt
      [binary64.round (1 / 10), binary64.round (7 / 10)]
      [binary64.round (1 / 10), binary64.round (7 / 10)] = 1 + 1 / 2 ^ 52 ∧
    ¬ (rounded.CosineSimilarity binary64.round binary64.sqrt
      [binary64.round (1 / 10), binary64.round (7 / 10)]
      [binary64.round (1 / 10), binary64.round (7 / 10)] ≤ 1) := by
  refine ⟨rfl, binary64_cosine_example, ?_⟩
  rw [binary64_cosine_example]
  norm_num

/-- C18 (amended): for all `float64` vectors `a` and `b` of equal length `n`,
`CosineSimilarity(a, b)` never divides by zero: it returns 0 if either accumulated sum of
squares is 0, and otherwise the divisor is not 0 and the result is the rounded quotient
`dot / (sqrt(normA) * sqrt(normB))`. Its absolute value is at most
`(1 + 2^-53)^(n + 2) / (1 - 2^-53)^(n + 4)`, which is at most `1 + (4 n + 12) * 2^-53` for every
length up to `2^51 - 3`; with exact arithmetic in place of `float64` it is at most 1. -/
theorem C18_cosine_similarity_total_and_bounded_up_to_rounding (a b : List ℚ)
    (hlen : a.length = b.length) :
    ((rounded.accumulate binary64.round (a.map (fun x => binary64.round (x * x))) = 0 ∨
        rounded.accumulate binary64.round (b.map (fun x => binary64.round (x * x))) = 0) →
      rounded.CosineSimilarity binary64.round binary64.sqrt a b = 0) ∧
    (rounded.accumulate binary64.round (a.map (fun x => binary64.round (x * x))) ≠ 0 →
      rounded.accumulate binary64.round (b.map (fun x => binary64.round (x * x))) ≠ 0 →
      binary64.round
        (binary64.sqrt (rounded.accumulate binary64.round
            (a.map (fun x => binary64.round (x * x))))
          * binary64.sqrt (rounded.accumulate binary64.round
            (b.map (fun x => binary64.round (x * x))))) ≠ 0 ∧
      rounded.CosineSimilarity binary64.round binary64.sqrt a b
        = binary64.round
            (rounded.accumulate binary64.round
                ((a.zip b).map (fun p => binary64.round (p.1 * p.2)))
              / binary64.round
                (binary64.sqrt (rounded.accumulate binary64.round
                    (a.map (fun x => binary64.round (x * x))))
                  * binary64.sqrt (rounded.accumulate binary64.round
                    (b.map (fun x => binary64.round (x * x))))))) ∧
    |rounded.CosineSimilarity binary64.round binary64.sqrt a b|
      ≤ (1 + 1 / 2 ^ 53) ^ (a.length + 2) / (1 - 1 / 2 ^ 53) ^ (a.length + 4) ∧
    (2 * a.length + 6 ≤ 2 ^ 52 →
      |rounded.CosineSimilarity binary64.round binary64.sqrt a b|
        ≤ 1 + (4 * (a.length : ℚ) + 12) / 2 ^ 53) ∧
    (∀ x y : List ℝ, x.length = y.length →
      -1 ≤ rounded.CosineSimilarity id Real.sqrt x y ∧
      rounded.CosineSimilarity id Real.sqrt x y ≤ 1) := by
  refine ⟨?_, ?_, binary64_cosine_abs_le a b hlen, ?_, ?_⟩
  · intro h
    simp only [rounded.CosineSimilarity, hlen, ne_eq, not_true_eq_false, if_false, h, if_true]
  · intro hA hB
    refine ⟨binary64_divisor_ne_zero a b hA hB, ?_⟩
    have h : ¬ (rounded.accumulate binary64.round (a.map (fun x => binary64.round (x * x))) = 0 ∨
        rounded.accumulate binary64.round (b.map (fun x => binary64.round (x * x))) = 0) :=
      not_or.2 ⟨hA, hB⟩
    simp only [rounded.CosineSimilarity, hlen, ne_eq, not_true_eq_false, if_false, h]
  · intro hn
    exact le_trans (binary64_cosine_abs_le a b hlen) (binary64_cosine_factor_le a.length hn)
  · intro x y hxy
    rw [rounded_cosine_id]
    have h := cosine_exact_total_and_bounded x y hxy
    exact ⟨h.2.2.2.1, h.2.2.2.2.1⟩

/-- Witness of C18 (amended): the `float64` vectors `[0.1, 0.7]` and `[0.1, 0.7]`. -/
theorem C18_witness :
    |rounded.CosineSimilarity binary64.round binary64.sqrt
      [binary64.round (1 / 10), binary64.round (7 / 10)]
      [binary64.round (1 / 10), binary64.round (7 / 10)]|
      ≤ (1 + 1 / 2 ^ 53) ^ (2 + 2) / (1 - 1 / 2 ^ 53) ^ (2 + 4) :=
  (C18_cosine_similarity_total_and_bounded_up_to_rounding
    [binary64.round (1 / 10), binary64.round (7 / 10)]
    [binary64.round (1 / 10), binary64.round (7 / 10)] rfl).2.2.1

/-- C20 (as stated) fails in `float64`: the vector `[0.1, 0.7]` is not the zero vector, and its
cosine similarity with itself is `1 + 2^-52`, not 1. -/
theorem C20_counterexample_self_similarity_above_one :
    (∃ x ∈ [binary64.round (1 / 10), binary64.round (7 / 10)], x ≠ 0) ∧
    rounded.CosineSimilarity binary64.round binary64.sqrt
      [binary64.round (1 / 10), binary64.round (7 / 10)]
      [binary64.round (1 / 10), binary64.round (7 / 10)] = 1 + 1 / 2 ^ 52 ∧
    rounded.CosineSimilarity binary64.round binary64.sqrt
      [binary64.round (1 / 10), binary64.round (7 / 10)]
      [binary64.round (1 / 10), binary64.round (7 / 10)] ≠ 1 := by
  refine ⟨⟨binary64.round (1 / 10), by simp, ?_⟩, binary64_cosine_example, ?_⟩
  · rw [binary64_round_tenth]
    norm_num
  · rw [binary64_cosine_example]
    norm_num

/-- C20 (amended): for every `float64` vector `a` whose accumulated sum of squares `n` is not 0,
`CosineSimilarity(a, a)` is the rounded quotient `n / (sqrt(n) * sqrt(n))`; it lies within
`[1 - 4 * 2^-53, 1 + 5 * 2^-53]`, and it is exactly 1 when the rounded product
`sqrt(n) * sqrt(n)` gives back `n`. With exact arithmetic in place of `float64` it is 1 for
every vector that is not the zero vector. -/
theorem C20_cosine_similarity_self_is_one_up_to_rounding (a : List ℚ)
    (hn : rounded.accumulate binary64.round (a.map (fun x => binary64.round (x * x))) ≠ 0) :
    rounded.CosineSimilarity binary64.round binary64.sqrt a a
      = binary64.round
          (rounded.accumulate binary64.round (a.map (fun x => binary64.round (x * x)))
            / binary64.round
              (binary64.sqrt (rounded.accumulate binary64.round
                  (a.map (fun x => binary64.round (x * x))))
                * binary64.sqrt (rounded.accumulate binary64.round
                  (a.map (fun x => binary64.round (x * x)))))) ∧
    1 - 4 / 2 ^ 53 ≤ rounded.CosineSimilarity binary64.round binary64.sqrt a a ∧
    rounded.CosineSimilarity binary64.round binary64.sqrt a a ≤ 1 + 5 / 2 ^ 53 ∧
    (binary64.round
        (binary64.sqrt (rounded.accumulate binary64.round
            (a.map (fun x => binary64.round (x * x))))
          * binary64.sqrt (rounded.accumulate binary64.round
            (a.map (fun x => binary64.round (x * x)))))
        = rounded.accumulate binary64.round (a.map (fun x => binary64.round (x * x))) →
      rounded.CosineSimilarity binary64.round binary64.sqrt a a = 1) ∧
    (∀ x : List ℝ, (∃ t ∈ x, t ≠ 0) → rounded.CosineSimilarity id Real.sqrt x x = 1) := by
  have hb := binary64_cosine_self_bounds a hn
  refine ⟨?_, hb.1, hb.2, ?_, ?_⟩
  · rw [rounded_cosine_self, if_neg hn]
  · intro h
    rw [rounded_cosine_self, if_neg hn, h, div_self hn, binary64_round_one]
  · intro x hx
    rw [rounded_cosine_id]
    exact cosine_exact_self_is_one x hx

/-- Witness of C20 (amended): the `float64` vector `[0.1, 0.7]`. -/
theorem C20_witness :
    1 - 4 / 2 ^ 53 ≤ rounded.CosineSimilarity binary64.round binary64.sqrt
      [binary64.round (1 / 10), binary64.round (7 / 10)]
      [binary64.round (1 / 10), binary64.round (7 / 10)] ∧
    rounded.CosineSimilarity binary64.round binary64.sqrt
      [binary64.round (1 / 10), binary64.round (7 / 10)]
      [binary64.round (1 / 10), binary64.round (7 / 10)] ≤ 1 + 5 / 2 ^ 53 :=
  ⟨(C20_cosine_similarity_self_is_one_up_to_rounding
      [binary64.round (1 / 10), binary64.round (7 / 10)]
      (by rw [binary64_accumulate_example]; norm_num)).2.1,
    (C20_cosine_similarity_self_is_one_up_to_rounding
      [binary64.round (1 / 10), binary64.round (7 / 10)]
      (by rw [binary64_accumulate_example]; norm_num)).2.2.1⟩

/-- SQLite `Delete` of an id that no row carries. -/
theorem sqlite_delete_missing {F : Type} (id : Int) (db : sqlite.Client F) (h : ∀ r ∈ db.rows, r.id ≠ id) :
    sqlite.Delete id db = (some (.new "Delete: not found"), db) := by
  have hany : db.rows.any (fun r => decide (r.id = id)) = false := by
    rw [List.any_eq_false]
    intro r hr
    simpa using h r hr
  simp [sqlite.Delete, hany]

section MissingIdHelpers

variable {F : Type} [LinearOrderedField F]

/-- SQLite `Get` of an id that no row carries. -/
theorem sqlite_get_missing (id : Int) (db : sqlite.Client F) (h : ∀ r ∈ db.rows, r.id ≠ id) :
    sqlite.Get id db = (.error (.new "Get: not found"), db) := by
  have hf : db.rows.find? (fun r => decide (r.id = id)) = none :=
    List.find?_eq_none.2 (fun r hr => by simpa using h r hr)
  simp only [sqlite.Get, hf]

/-- SQLite `Update` of an id that no row carries. -/
theorem sqlite_update_missing (id : Int) (content : String) (emb : List F)
    (db : sqlite.Client F) (h : ∀ r ∈ db.rows, r.id ≠ id) :
    (sqlite.Update id content emb db).1 = .error (.new "Update: not found") := by
  have hany : db.rows.any (fun r => decide (r.id = id)) = false := by
    rw [List.any_eq_false]
    intro r hr
    simpa using h r hr
  simp [sqlite.Update, hany]

end MissingIdHelpers

/-- C21 (failing input): over the SQLite store, `Get`, `Update` and `Delete` on an id that no
row carries return the `MemoryError` of the operation whose cause is the store's own error
"Get: not found", "Update: not found" or "Delete: not found"; `errors.Is` of that error and
`ErrNotFound` is false, whereas it is true of an error that does wrap `ErrNotFound`. -/
theorem C21_missing_id_error_does_not_wrap_ErrNotFound {F : Type} [LinearOrderedField F]
    (sqrt : F → F) (embed : String → List F) (thr : F) :
    (∀ (w : World (core.Env F) F) (id : Int) (content : String),
      (∀ r ∈ w.env.db.rows, r.id ≠ id) →
      ((core.sqliteClient sqrt embed thr).Get id w).1
        = (none, some (.memoryError "Get" (.new "Get: not found"))) ∧
      ((core.sqliteClient sqrt embed thr).Update id content w).1
        = (none, some (.memoryError "Update" (.new "Update: not found"))) ∧
      ((core.sqliteClient sqrt embed thr).Delete id w).1
        = some (.memoryError "Delete" (.new "Delete: not found"))) ∧
    (∀ clock ids,
      ((core.sqliteClient sqrt embed thr).Get 42 (core.emptyWorld clock ids)).1
        = (none, some (.memoryError "Get" (.new "Get: not found")))) ∧
    (Error.memoryError "Get" (.new "Get: not found")).Is core.ErrNotFound = false ∧
    (Error.memoryError "Update" (.new "Update: not found")).Is core.ErrNotFound = false ∧
    (Error.memoryError "Delete" (.new "Delete: not found")).Is core.ErrNotFound = false ∧
    (Error.memoryError "Get" (.new "Get: not found")).Unwrap = some (.new "Get: not found") ∧
    (Error.memoryError "Get" core.ErrNotFound).Is core.ErrNotFound = true := by
  have hmain : ∀ (w : World (core.Env F) F) (id : Int) (content : String),
      (∀ r ∈ w.env.db.rows, r.id ≠ id) →
      ((core.sqliteClient sqrt embed thr).Get id w).1
        = (none, some (.memoryError "Get" (.new "Get: not found"))) ∧
      ((core.sqliteClient sqrt embed thr).Update id content w).1
        = (none, some (.memoryError "Update" (.new "Update: not found"))) ∧
      ((core.sqliteClient sqrt embed thr).Delete id w).1
        = some (.memoryError "Delete" (.new "Delete: not found")) := by
    intro w id content h
    refine ⟨?_, ?_, ?_⟩
    · simp only [core.Client.Get, core.sqliteClient, core.NewClientWith, World.call,
        core.envStore, sqlite_get_missing id w.env.db h, core.NewMemoryError]
    · have hu := sqlite_update_missing id content (embed content) w.env.db h
      simp only [core.Client.Update, core.sqliteClient, core.NewClientWith, World.call,
        core.envStore, core.envEmbedder, hu, core.NewMemoryError]
    · simp only [core.Client.Delete, core.sqliteClient, core.NewClientWith, World.call,
        core.envStore, sqlite_delete_missing id w.env.db h, core.NewMemoryError]
  refine ⟨hmain, ?_, ?_, ?_, ?_, rfl, ?_⟩
  · intro clock ids
    exact (hmain (core.emptyWorld clock ids) 42 "" (by simp [core.emptyWorld])).1
  · simp [Error.Is, core.ErrNotFound]
  · simp [Error.Is, core.ErrNotFound]
  · simp [Error.Is, core.ErrNotFound]
  · simp [Error.Is, core.ErrNotFound]

section WrapHelpers

variable {σ F : Type} [LinearOrderedField F]

/-- A failing `Insert` makes step 3 of `Add` return the wrapped failure. -/
theorem addInsert_error (c : core.Client σ F) (addOpts : core.AddOptions) (content : String)
    (embedding : List F) (w : World σ F) (e : Error)
    (h : (c.storage.Insert (core.toStorageMemory
      { ID := (c.snowflakeNode w.env).1, UserID := addOpts.UserID,
        AgentID := addOpts.AgentID, Content := content, Embedding := embedding,
        SparseEmbedding := [], Metadata := addOpts.Metadata, CreatedAt := 0, UpdatedAt := 0,
        RetentionStrength := 1.0, LastAccessedAt := none, Score := 0 })
      (c.snowflakeNode w.env).2).1 = some e) :
    (c.addInsert addOpts content embedding w).1 = (none, some (.memoryError "Add" e)) := by
  simp only [core.Client.addInsert, World.call, h, core.NewMemoryError]

/-- Every error that step 3 of `Add` returns is the wrapped failure of `Insert`, and no memory
comes with it. -/
theorem addInsert_error_shape (c : core.Client σ F) (addOpts : core.AddOptions)
    (content : String) (embedding : List F) (w : World σ F) (err : Error)
    (h : (c.addInsert addOpts content embedding w).1.2 = some err) :
    (c.addInsert addOpts content embedding w).1.1 = none ∧
    ∃ e, err = .memoryError "Add" e ∧
      (c.storage.Insert (core.toStorageMemory
        { ID := (c.snowflakeNode w.env).1, UserID := addOpts.UserID,
          AgentID := addOpts.AgentID, Content := content, Embedding := embedding,
          SparseEmbedding := [], Metadata := addOpts.Metadata, CreatedAt := 0, UpdatedAt := 0,
          RetentionStrength := 1.0, LastAccessedAt := none, Score := 0 })
        (c.snowflakeNode w.env).2).1 = some e := by
  cases hins : (c.storage.Insert (core.toStorageMemory
      { ID := (c.snowflakeNode w.env).1, UserID := addOpts.UserID,
        AgentID := addOpts.AgentID, Content := content, Embedding := embedding,
        SparseEmbedding := [], Metadata := addOpts.Metadata, CreatedAt := 0, UpdatedAt := 0,
        RetentionStrength := 1.0, LastAccessedAt := none, Score := 0 })
      (c.snowflakeNode w.env).2).1 with
  | some e =>
    have hres := addInsert_error c addOpts content embedding w e hins
    rw [hres] at h ⊢
    simp only [Option.some.injEq] at h
    exact ⟨rfl, e, h.symm, rfl⟩
  | none =>
    simp only [core.Client.addInsert, World.call, hins] at h
    simp at h

/-- `Add` with a live context whose embedder fails. -/
theorem add_embed_error (sqrt : F → F) (c : core.Client σ F) (content : String)
    (opts : List core.AddOption) (w : World σ F) (e : Error)
    (h : (c.embedder.Embed content w.env).1 = .error e) :
    c.Add sqrt none content opts w =
      ((none, some (.memoryError "Add" e)),
        { env := (c.embedder.Embed content w.env).2, log := w.log ++ [.embed content] }) := by
  simp only [core.Client.Add, World.call, h, core.NewMemoryError]

/-- `Add` with a live context when no duplicate check is made. -/
theorem add_no_infer (sqrt : F → F) (c : core.Client σ F) (content : String)
    (opts : List core.AddOption) (w : World σ F) (emb : List F)
    (hemb : (c.embedder.Embed content w.env).1 = .ok emb)
    (h : (core.applyAddOptions opts).Infer = false ∨ c.dedupManager = none) :
    c.Add sqrt none content opts w =
      c.addInsert (core.applyAddOptions opts) content emb
        { env := (c.embedder.Embed content w.env).2, log := w.log ++ [.embed content] } := by
  rcases h with h | h
  · simp only [core.Client.Add, World.call, hemb, h]
  · simp only [core.Client.Add, World.call, hemb, h]
    cases (core.applyAddOptions opts).Infer <;> rfl

/-- `Add` with a live context whose duplicate check fails. -/
theorem add_check_error (sqrt : F → F) (c : core.Client σ F) (content : String)
    (opts : List core.AddOption) (w : World σ F) (dm : intelligence.DedupManager σ F)
    (emb : List F) (b : Bool) (id : Int) (e : Error)
    (hinf : (core.applyAddOptions opts).Infer = true) (hdm : c.dedupManager = some dm)
    (hemb : (c.embedder.Embed content w.env).1 = .ok emb)
    (hcd : (dm.CheckDuplicate emb (core.applyAddOptions opts).UserID
      (core.applyAddOptions opts).AgentID
      { env := (c.embedder.Embed content w.env).2, log := w.log ++ [.embed content] }).1
        = (b, id, some e)) :
    c.Add sqrt none content opts w =
      ((none, some (.memoryError "Add" e)),
        (dm.CheckDuplicate emb (core.applyAddOptions opts).UserID
          (core.applyAddOptions opts).AgentID
          { env := (c.embedder.Embed content w.env).2, log := w.log ++ [.embed content] }).2) := by
  have hpair : dm.CheckDuplicate emb (core.applyAddOptions opts).UserID
      (core.applyAddOptions opts).AgentID
      { env := (c.embedder.Embed content w.env).2, log := w.log ++ [.embed content] }
      = ((b, id, some e), (dm.CheckDuplicate emb (core.applyAddOptions opts).UserID
          (core.applyAddOptions opts).AgentID
          { env := (c.embedder.Embed content w.env).2, log := w.log ++ [.embed content] }).2) := by
    rw [← hcd]
  simp only [core.Client.Add, World.call, hemb, hinf, hdm]
  rw [hpair]
  simp only [core.NewMemoryError]

/-- `Add` with a live context whose merge fails. -/
theorem add_merge_error (sqrt : F → F) (c : core.Client σ F) (content : String)
    (opts : List core.AddOption) (w : World σ F) (dm : intelligence.DedupManager σ F)
    (emb : List F) (id : Int) (w2 : World σ F) (e : Error)
    (hinf : (core.applyAddOptions opts).Infer = true) (hdm : c.dedupManager = some dm)
    (hemb : (c.embedder.Embed content w.env).1 = .ok emb)
    (hcd : dm.CheckDuplicate emb (core.applyAddOptions opts).UserID
      (core.applyAddOptions opts).AgentID
      { env := (c.embedder.Embed content w.env).2, log := w.log ++ [.embed content] }
        = ((true, id, none), w2))
    (hmerge : (dm.MergeMemories sqrt id content emb w2).1 = .error e) :
    c.Add sqrt none content opts w =
      ((none, some (.memoryError "Add" e)), (dm.MergeMemories sqrt id content emb w2).2) := by
  have hpair : dm.MergeMemories sqrt id content emb w2
      = (.error e, (dm.MergeMemories sqrt id content emb w2).2) := by
    rw [← hmerge]
  simp only [core.Client.Add, World.call, hemb, hinf, hdm, hcd]
  rw [hpair]
  simp only [core.NewMemoryError]

end WrapHelpers
section WrapShape

variable {σ F : Type} [LinearOrderedField F]

/-- Every error that `Add` returns under a live context comes without a memory and is a
`MemoryError` with `Op` "Add". -/
theorem add_error_shape (sqrt : F → F) (c : core.Client σ F) (content : String)
    (opts : List core.AddOption) (w : World σ F) (err : Error)
    (h : (c.Add sqrt none content opts w).1.2 = some err) :
    (c.Add sqrt none content opts w).1.1 = none ∧ ∃ e, err = .memoryError "Add" e := by
  cases hemb : (c.embedder.Embed content w.env).1 with
  | error e =>
    rw [add_embed_error sqrt c content opts w e hemb] at h ⊢
    simp only [Option.some.injEq] at h
    exact ⟨rfl, e, h.symm⟩
  | ok emb =>
    have hins : ∀ w2 : World σ F,
        c.Add sqrt none content opts w = c.addInsert (core.applyAddOptions opts) content emb w2 →
        (c.Add sqrt none content opts w).1.1 = none ∧ ∃ e, err = .memoryError "Add" e := by
      intro w2 heq
      rw [heq] at h ⊢
      obtain ⟨h1, e, he, _⟩ := addInsert_error_shape c _ content emb w2 err h
      exact ⟨h1, e, he⟩
    rcases Bool.eq_false_or_eq_true (core.applyAddOptions opts).Infer with hinf | hinf
    · have hdm : c.dedupManager = none ∨ ∃ dm, c.dedupManager = some dm := by
        cases c.dedupManager
        · exact Or.inl rfl
        · exact Or.inr ⟨_, rfl⟩
      rcases hdm with hdm | ⟨dm, hdm⟩
      · exact hins _ (add_no_infer sqrt c content opts w emb hemb (Or.inr hdm))
      · rcases hcd : dm.CheckDuplicate emb (core.applyAddOptions opts).UserID
          (core.applyAddOptions opts).AgentID
          { env := (c.embedder.Embed content w.env).2, log := w.log ++ [.embed content] }
          with ⟨⟨b, id, oerr⟩, w2⟩
        cases oerr with
        | some e =>
          have hcd1 := congrArg Prod.fst hcd
          rw [add_check_error sqrt c content opts w dm emb b id e hinf hdm hemb hcd1] at h ⊢
          simp only [Option.some.injEq] at h
          exact ⟨rfl, e, h.symm⟩
        | none =>
          cases b with
          | false =>
            exact hins _ (add_infer_no_duplicate sqrt c content opts w dm emb id w2 hinf hdm
              hemb hcd)
          | true =>
            cases hmerge : (dm.MergeMemories sqrt id content emb w2).1 with
            | error e =>
              rw [add_merge_error sqrt c content opts w dm emb id w2 e hinf hdm hemb hcd
                hmerge] at h ⊢
              simp only [Option.some.injEq] at h
              exact ⟨rfl, e, h.symm⟩
            | ok merged =>
              exfalso
              have hpair : dm.MergeMemories sqrt id content emb w2
                  = (.ok merged, (dm.MergeMemories sqrt id content emb w2).2) := by
                rw [← hmerge]
              simp only [core.Client.Add, World.call, hemb, hinf, hdm, hcd] at h
              rw [hpair] at h
              simp at h
    · exact hins _ (add_no_infer sqrt c content opts w emb hemb (Or.inl hinf))

end WrapShape

/-- C22: every core operation wraps a collaborator failure with its operation name and the
original cause. For `Add` (under a live context): a failure `e` of the embedder, of the
duplicate check, of the merge or of `Insert` makes `Add` return the `MemoryError` with `Op` "Add"
and `Err` `e`; likewise `Search` for the embedder and the store's `Search`, `Get` for the store's
`Get`, `Update` for the embedder and the store's `Update`, `Delete`, `GetAll` and `DeleteAll`
for the store's method of the same name; `Unwrap` of such an error is exactly `e`, and every
error that `Add` returns under a live context has this form. -/
theorem C22_operations_wrap_collaborator_failures {σ F : Type} [LinearOrderedField F]
    (sqrt : F → F) (c : core.Client σ F) (w : World σ F) :
    (∀ content opts,
      (∀ e, (c.embedder.Embed content w.env).1 = .error e →
        (c.Add sqrt none content opts w).1 = (none, some (.memoryError "Add" e))) ∧
      (∀ emb dm, (c.embedder.Embed content w.env).1 = .ok emb →
        (core.applyAddOptions opts).Infer = true → c.dedupManager = some dm →
        (∀ b id e,
          (dm.CheckDuplicate emb (core.applyAddOptions opts).UserID
            (core.applyAddOptions opts).AgentID
            (w.call (.embed content) (c.embedder.Embed content)).2).1 = (b, id, some e) →
          (c.Add sqrt none content opts w).1 = (none, some (.memoryError "Add" e))) ∧
        (∀ id w2 e,
          dm.CheckDuplicate emb (core.applyAddOptions opts).UserID
            (core.applyAddOptions opts).AgentID
            (w.call (.embed content) (c.embedder.Embed content)).2 = ((true, id, none), w2) →
          (dm.MergeMemories sqrt id content emb w2).1 = .error e →
          (c.Add sqrt none content opts w).1 = (none, some (.memoryError "Add" e))) ∧
        (∀ id w2,
          dm.CheckDuplicate emb (core.applyAddOptions opts).UserID
            (core.applyAddOptions opts).AgentID
            (w.call (.embed content) (c.embedder.Embed content)).2 = ((false, id, none), w2) →
          c.Add sqrt none content opts w
            = c.addInsert (core.applyAddOptions opts) content emb w2)) ∧
      (∀ emb, (c.embedder.Embed content w.env).1 = .ok emb →
        ((core.applyAddOptions opts).Infer = false ∨ c.dedupManager = none) →
        c.Add sqrt none content opts w
          = c.addInsert (core.applyAddOptions opts) content emb
              (w.call (.embed content) (c.embedder.Embed content)).2) ∧
      (∀ addOpts emb w2 e,
        (c.storage.Insert (core.toStorageMemory
          { ID := (c.snowflakeNode w2.env).1, UserID := addOpts.UserID,
            AgentID := addOpts.AgentID, Content := content, Embedding := emb,
            SparseEmbedding := [], Metadata := addOpts.Metadata, CreatedAt := 0,
            UpdatedAt := 0, RetentionStrength := 1.0, LastAccessedAt := none, Score := 0 })
          (c.snowflakeNode w2.env).2).1 = some e →
        (c.addInsert addOpts content emb w2).1 = (none, some (.memoryError "Add" e))) ∧
      (∀ err, (c.Add sqrt none content opts w).1.2 = some err →
        ∃ e, err = .memoryError "Add" e ∧ err.Unwrap = some e)) ∧
    (∀ query opts,
      (∀ e, (c.embedder.Embed query w.env).1 = .error e →
        (c.Search query opts w).1 = (none, some (.memoryError "Search" e))) ∧
      (∀ emb e, (c.embedder.Embed query w.env).1 = .ok emb →
        (c.storage.Search emb
          { UserID := (core.applySearchOptions opts).UserID,
            AgentID := (core.applySearchOptions opts).AgentID,
            Limit := (core.applySearchOptions opts).Limit,
            MinScore := (core.applySearchOptions opts).MinScore,
            Filters := (core.applySearchOptions opts).Filters }
          (c.embedder.Embed query w.env).2).1 = .error e →
        (c.Search query opts w).1 = (none, some (.memoryError "Search" e)))) ∧
    (∀ id e, (c.storage.Get id w.env).1 = .error e →
      (c.Get id w).1 = (none, some (.memoryError "Get" e))) ∧
    (∀ id content,
      (∀ e, (c.embedder.Embed content w.env).1 = .error e →
        (c.Update id content w).1 = (none, some (.memoryError "Update" e))) ∧
      (∀ emb e, (c.embedder.Embed content w.env).1 = .ok emb →
        (c.storage.Update id content emb (c.embedder.Embed content w.env).2).1 = .error e →
        (c.Update id content w).1 = (none, some (.memoryError "Update" e)))) ∧
    (∀ id e, (c.storage.Delete id w.env).1 = some e →
      (c.Delete id w).1 = some (.memoryError "Delete" e)) ∧
    (∀ opts e,
      (c.storage.GetAll
        { UserID := (core.applyGetAllOptions opts).UserID,
          AgentID := (core.applyGetAllOptions opts).AgentID,
          Limit := (core.applyGetAllOptions opts).Limit,
          Offset := (core.applyGetAllOptions opts).Offset } w.env).1 = .error e →
      (c.GetAll opts w).1 = (none, some (.memoryError "GetAll" e))) ∧
    (∀ opts e,
      (c.storage.DeleteAll
        { UserID := (core.applyDeleteAllOptions opts).UserID,
          AgentID := (core.applyDeleteAllOptions opts).AgentID } w.env).1 = some e →
      (c.DeleteAll opts w).1 = some (.memoryError "DeleteAll" e)) ∧
    (∀ op e, (Error.memoryError op e).Unwrap = some e) := by
  refine ⟨?_, ?_, ?_, ?_, ?_, ?_, ?_, ?_⟩
  · intro content opts
    refine ⟨?_, ?_, ?_, ?_, ?_⟩
    · intro e h
      rw [add_embed_error sqrt c content opts w e h]
    · intro emb dm hemb hinf hdm
      refine ⟨?_, ?_, ?_⟩
      · intro b id e hcd
        rw [add_check_error sqrt c content opts w dm emb b id e hinf hdm hemb hcd]
      · intro id w2 e hcd hmerge
        rw [add_merge_error sqrt c content opts w dm emb id w2 e hinf hdm hemb hcd hmerge]
      · intro id w2 hcd
        exact add_infer_no_duplicate sqrt c content opts w dm emb id w2 hinf hdm hemb hcd
    · intro emb hemb h
      exact add_no_infer sqrt c content opts w emb hemb h
    · intro addOpts emb w2 e h
      exact addInsert_error c addOpts content emb w2 e h
    · intro err h
      obtain ⟨_, e, he⟩ := add_error_shape sqrt c content opts w err h
      exact ⟨e, he, by rw [he]; rfl⟩
  · intro query opts
    refine ⟨?_, ?_⟩
    · intro e h
      simp only [core.Client.Search, World.call, h, core.NewMemoryError]
    · intro emb e hemb h
      simp only [core.Client.Search, World.call, hemb, h, core.NewMemoryError]
  · intro id e h
    simp only [core.Client.Get, World.call, h, core.NewMemoryError]
  · intro id content
    refine ⟨?_, ?_⟩
    · intro e h
      simp only [core.Client.Update, World.call, h, core.NewMemoryError]
    · intro emb e hemb h
      simp only [core.Client.Update, World.call, hemb, h, core.NewMemoryError]
  · intro id e h
    simp only [core.Client.Delete, World.call, h, core.NewMemoryError]
  · intro opts e h
    simp only [core.Client.GetAll, World.call, h, core.NewMemoryError]
  · intro opts e h
    simp only [core.Client.DeleteAll, World.call, h, core.NewMemoryError]
  · intro op e
    rfl

/-- A failed SQLite `Insert` leaves the table as it was. -/
theorem sqlite_insert_error_rows {F : Type} (m : storage.Memory F) (db : sqlite.Client F)
    (e : Error) (h : (sqlite.Insert m db).1 = some e) :
    (sqlite.Insert m db).2.rows = db.rows := by
  unfold sqlite.Insert at h ⊢
  split_ifs at h ⊢ with hany
  rfl

section AbortHelpers

variable {F : Type} [LinearOrderedField F]

/-- The world that a failing `Insert` leaves behind step 3 of `Add`: the ID generation and the
failed `Insert` are the only calls made. -/
theorem addInsert_error_world {σ : Type} (c : core.Client σ F) (addOpts : core.AddOptions)
    (content : String) (embedding : List F) (w : World σ F) (e : Error)
    (h : (c.storage.Insert (core.toStorageMemory
      { ID := (c.snowflakeNode w.env).1, UserID := addOpts.UserID,
        AgentID := addOpts.AgentID, Content := content, Embedding := embedding,
        SparseEmbedding := [], Metadata := addOpts.Metadata, CreatedAt := 0, UpdatedAt := 0,
        RetentionStrength := 1.0, LastAccessedAt := none, Score := 0 })
      (c.snowflakeNode w.env).2).1 = some e) :
    c.addInsert addOpts content embedding w =
      ((none, some (.memoryError "Add" e)),
        { env := (c.storage.Insert (core.toStorageMemory
            { ID := (c.snowflakeNode w.env).1, UserID := addOpts.UserID,
              AgentID := addOpts.AgentID, Content := content, Embedding := embedding,
              SparseEmbedding := [], Metadata := addOpts.Metadata, CreatedAt := 0,
              UpdatedAt := 0, RetentionStrength := 1.0, LastAccessedAt := none, Score := 0 })
            (c.snowflakeNode w.env).2).2,
          log := w.log ++ [.generate] ++
            [.insert (core.toStorageMemory
              { ID := (c.snowflakeNode w.env).1, UserID := addOpts.UserID,
                AgentID := addOpts.AgentID, Content := content, Embedding := embedding,
                SparseEmbedding := [], Metadata := addOpts.Metadata, CreatedAt := 0,
                UpdatedAt := 0, RetentionStrength := 1.0, LastAccessedAt := none,
                Score := 0 })] }) := by
  simp only [core.Client.addInsert, World.call, h, core.NewMemoryError]

/-- A failed SQLite `Update` leaves the table as it was. -/
theorem sqlite_update_error_rows (id : Int) (content : String) (emb : List F)
    (db : sqlite.Client F) (e : Error) (h : (sqlite.Update id content emb db).1 = .error e) :
    (sqlite.Update id content emb db).2.rows = db.rows := by
  rw [sqlite_update_rows]
  by_cases hany : db.rows.any (fun r => decide (r.id = id)) = true
  · exfalso
    unfold sqlite.Update at h
    simp only [hany, if_true] at h
    unfold sqlite.Get at h
    obtain ⟨r, hr, hid⟩ := List.any_eq_true.1 hany
    have hid2 : r.id = id := of_decide_eq_true hid
    cases hf : List.find? (fun r => decide (r.id = id))
        (db.rows.map (fun r =>
          if r.id = id then
            { r with content := content, embedding := emb, updated_at := db.clock db.tick }
          else r)) with
    | some x =>
      simp only [hf] at h
      simp at h
    | none =>
      have := List.find?_eq_none.1 hf
        ({ r with content := content, embedding := emb, updated_at := db.clock db.tick })
        (List.mem_map.2 ⟨r, hr, by simp [hid2]⟩)
      simp [hid2] at this
  · have hno : ∀ r ∈ db.rows, ¬ r.id = id := by
      intro r hr hrid
      exact hany (List.any_eq_true.2 ⟨r, hr, by simp [hrid]⟩)
    conv_rhs => rw [← List.map_id db.rows]
    apply List.map_congr_left
    intro r hr
    simp [hno r hr]

/-- A failed merge over the SQLite store leaves the table as it was. -/
theorem envStore_merge_error_rows (sqrt : F → F) (thr : F) (id : Int) (content : String)
    (emb : List F) (w : World (core.Env F) F) (e : Error)
    (h : ((intelligence.NewDedupManager (core.envStore sqrt) thr).MergeMemories sqrt id content
      emb w).1 = .error e) :
    ((intelligence.NewDedupManager (core.envStore sqrt) thr).MergeMemories sqrt id content emb
      w).2.env.db.rows = w.env.db.rows := by
  cases hget : ((intelligence.NewDedupManager (core.envStore sqrt) thr).store.Get id w.env).1 with
  | error err =>
    simp only [intelligence.DedupManager.MergeMemories, World.call, hget]
    simp [intelligence.NewDedupManager, core.envStore, sqlite_get_state]
  | ok ex =>
    cases hupd : ((intelligence.NewDedupManager (core.envStore sqrt) thr).store.Update id
        (ex.Content ++ " " ++ content) (intelligence.averageEmbeddings sqrt ex.Embedding emb)
        ((intelligence.NewDedupManager (core.envStore sqrt) thr).store.Get id w.env).2).1 with
    | error err =>
      simp only [intelligence.DedupManager.MergeMemories, World.call, hget, hupd]
      simp only [intelligence.NewDedupManager, core.envStore, sqlite_get_state] at hupd ⊢
      exact sqlite_update_error_rows _ _ _ _ err hupd
    | ok updated =>
      simp only [intelligence.DedupManager.MergeMemories, World.call, hget, hupd] at h
      simp at h

/-- A failed step 3 of `Add` over the SQLite store leaves the table as it was. -/
theorem sqliteClient_addInsert_error_rows (sqrt : F → F) (embed : String → List F) (thr : F)
    (addOpts : core.AddOptions) (content : String) (emb : List F) (w : World (core.Env F) F)
    (err : Error)
    (h : ((core.sqliteClient sqrt embed thr).addInsert addOpts content emb w).1.2 = some err) :
    ((core.sqliteClient sqrt embed thr).addInsert addOpts content emb w).2.env.db.rows
      = w.env.db.rows := by
  rw [sqliteClient_addInsert_rows]
  by_cases hany : w.env.db.rows.any (fun r => decide (r.id = w.env.ids w.env.issued)) = true
  · rw [if_pos hany]
  · exfalso
    simp only [core.Client.addInsert, core.sqliteClient, core.NewClientWith, World.call,
      core.envNode, core.envStore, sqlite.Insert, core.toStorageMemory, if_neg hany] at h
    simp at h

end AbortHelpers
section AbortOverSqlite

variable {F : Type} [LinearOrderedField F]

/-- Whenever `Add` over the SQLite store returns an error, the table is as it was before. -/
theorem sqliteClient_add_error_rows (sqrt : F → F) (embed : String → List F) (thr : F)
    (content : String) (opts : List core.AddOption) (w : World (core.Env F) F) (err : Error)
    (h : ((core.sqliteClient sqrt embed thr).Add sqrt none content opts w).1.2 = some err) :
    ((core.sqliteClient sqrt embed thr).Add sqrt none content opts w).2.env.db.rows
      = w.env.db.rows := by
  have hemb : ((core.sqliteClient sqrt embed thr).embedder.Embed content w.env).1
      = .ok (embed content) := rfl
  have hins : ∀ w2 : World (core.Env F) F, w2.env.db.rows = w.env.db.rows →
      (core.sqliteClient sqrt embed thr).Add sqrt none content opts w
        = (core.sqliteClient sqrt embed thr).addInsert (core.applyAddOptions opts) content
            (embed content) w2 →
      ((core.sqliteClient sqrt embed thr).Add sqrt none content opts w).2.env.db.rows
        = w.env.db.rows := by
    intro w2 hrows heq
    rw [heq] at h ⊢
    rw [sqliteClient_addInsert_error_rows sqrt embed thr _ content _ w2 err h, hrows]
  rcases Bool.eq_false_or_eq_true (core.applyAddOptions opts).Infer with hinf | hinf
  · have hdm : (core.sqliteClient sqrt embed thr).dedupManager
        = some (intelligence.NewDedupManager (core.envStore sqrt) thr) := rfl
    have henv := checkDuplicate_env (intelligence.NewDedupManager (core.envStore sqrt) thr)
      (embed content) (core.applyAddOptions opts).UserID (core.applyAddOptions opts).AgentID
      { env := ((core.sqliteClient sqrt embed thr).embedder.Embed content w.env).2,
        log := w.log ++ [.embed content] }
    rcases hcd : (intelligence.NewDedupManager (core.envStore sqrt) thr).CheckDuplicate
      (embed content) (core.applyAddOptions opts).UserID (core.applyAddOptions opts).AgentID
      { env := ((core.sqliteClient sqrt embed thr).embedder.Embed content w.env).2,
        log := w.log ++ [.embed content] } with ⟨⟨b, id, oerr⟩, w2⟩
    rw [hcd] at henv
    have hrows : w2.env.db.rows = w.env.db.rows := by
      have := congrArg (fun s => s.db.rows) henv
      simpa [intelligence.NewDedupManager, core.envStore, sqlite.Search, core.sqliteClient,
        core.NewClientWith, core.envEmbedder] using this
    cases oerr with
    | some e =>
      have hcd1 := congrArg Prod.fst hcd
      rw [add_check_error sqrt _ content opts w _ (embed content) b id e hinf hdm hemb hcd1,
        hcd]
      exact hrows
    | none =>
      cases b with
      | false =>
        exact hins w2 hrows (add_infer_no_duplicate sqrt _ content opts w _ (embed content) id
          w2 hinf hdm hemb hcd)
      | true =>
        cases hmerge : ((intelligence.NewDedupManager (core.envStore sqrt) thr).MergeMemories
            sqrt id content (embed content) w2).1 with
        | error e =>
          rw [add_merge_error sqrt _ content opts w _ (embed content) id w2 e hinf hdm hemb
            hcd hmerge]
          rw [envStore_merge_error_rows sqrt thr id content (embed content) w2 e hmerge, hrows]
        | ok merged =>
          exfalso
          have hpair : (intelligence.NewDedupManager (core.envStore sqrt) thr).MergeMemories
              sqrt id content (embed content) w2
              = (.ok merged, ((intelligence.NewDedupManager (core.envStore sqrt) thr).MergeMemories
                  sqrt id content (embed content) w2).2) := by
            rw [← hmerge]
          simp only [core.Client.Add, World.call, hemb, hinf, hdm, hcd] at h
          rw [hpair] at h
          simp at h
  · exact hins
      { env := ((core.sqliteClient sqrt embed thr).embedder.Embed content w.env).2,
        log := w.log ++ [.embed content] } rfl
      (add_no_infer sqrt _ content opts w (embed content) hemb (Or.inl hinf))

end AbortOverSqlite
/-- C23: embedding or storage failures abort the whole operation. Under a live context: when the
embedder fails, `Add` returns the error with no memory after that single call; when the
duplicate check fails, `Add` returns the error with no memory after the embedding and the
search only; when `Insert` fails, `Add` returns the error with no memory and the failed `Insert`
is the last call; every error of `Add` comes without a memory. When the embedder or the store's
`Search` fails, `Search` returns the error and no results. A failed SQLite `Insert` leaves the
table unchanged, and so does every failed `Add` over the SQLite store. -/
theorem C23_failures_abort_add_and_search {σ F : Type} [LinearOrderedField F] (sqrt : F → F)
    (c : core.Client σ F) (w : World σ F) :
    (∀ content opts,
      (∀ e, (c.embedder.Embed content w.env).1 = .error e →
        c.Add sqrt none content opts w =
          ((none, some (.memoryError "Add" e)),
            { env := (c.embedder.Embed content w.env).2, log := w.log ++ [.embed content] })) ∧
      (∀ emb dm b id e, (c.embedder.Embed content w.env).1 = .ok emb →
        (core.applyAddOptions opts).Infer = true → c.dedupManager = some dm →
        (dm.CheckDuplicate emb (core.applyAddOptions opts).UserID
          (core.applyAddOptions opts).AgentID
          { env := (c.embedder.Embed content w.env).2, log := w.log ++ [.embed content] }).1
            = (b, id, some e) →
        (c.Add sqrt none content opts w).1 = (none, some (.memoryError "Add" e)) ∧
        (c.Add sqrt none content opts w).2.log =
          w.log ++ [.embed content] ++
            [.search emb
              { UserID := (core.applyAddOptions opts).UserID,
                AgentID := (core.applyAddOptions opts).AgentID, Limit := 5, MinScore := 0,
                Filters := [] }]) ∧
      (∀ addOpts emb w2 e,
        (c.storage.Insert (core.toStorageMemory
          { ID := (c.snowflakeNode w2.env).1, UserID := addOpts.UserID,
            AgentID := addOpts.AgentID, Content := content, Embedding := emb,
            SparseEmbedding := [], Metadata := addOpts.Metadata, CreatedAt := 0,
            UpdatedAt := 0, RetentionStrength := 1.0, LastAccessedAt := none, Score := 0 })
          (c.snowflakeNode w2.env).2).1 = some e →
        (c.addInsert addOpts content emb w2).1 = (none, some (.memoryError "Add" e)) ∧
        (c.addInsert addOpts content emb w2).2.log =
          w2.log ++ [.generate] ++
            [.insert (core.toStorageMemory
              { ID := (c.snowflakeNode w2.env).1, UserID := addOpts.UserID,
                AgentID := addOpts.AgentID, Content := content, Embedding := emb,
                SparseEmbedding := [], Metadata := addOpts.Metadata, CreatedAt := 0,
                UpdatedAt := 0, RetentionStrength := 1.0, LastAccessedAt := none,
                Score := 0 })]) ∧
      (∀ err, (c.Add sqrt none content opts w).1.2 = some err →
        (c.Add sqrt none content opts w).1.1 = none)) ∧
    (∀ query opts,
      (∀ e, (c.embedder.Embed query w.env).1 = .error e →
        c.Search query opts w =
          ((none, some (.memoryError "Search" e)),
            { env := (c.embedder.Embed query w.env).2, log := w.log ++ [.embed query] })) ∧
      (∀ emb e, (c.embedder.Embed query w.env).1 = .ok emb →
        (c.storage.Search emb
          { UserID := (core.applySearchOptions opts).UserID,
            AgentID := (core.applySearchOptions opts).AgentID,
            Limit := (core.applySearchOptions opts).Limit,
            MinScore := (core.applySearchOptions opts).MinScore,
            Filters := (core.applySearchOptions opts).Filters }
          (c.embedder.Embed query w.env).2).1 = .error e →
        (c.Search query opts w).1 = (none, some (.memoryError "Search" e))) ∧
      (∀ err, (c.Search query opts w).1.2 = some err → (c.Search query opts w).1.1 = none)) ∧
    (∀ (m : storage.Memory F) (db : sqlite.Client F) e, (sqlite.Insert m db).1 = some e →
      (sqlite.Insert m db).2.rows = db.rows) ∧
    (∀ embed thr content opts (w0 : World (core.Env F) F) err,
      ((core.sqliteClient sqrt embed thr).Add sqrt none content opts w0).1.2 = some err →
      ((core.sqliteClient sqrt embed thr).Add sqrt none content opts w0).1.1 = none ∧
      ((core.sqliteClient sqrt embed thr).Add sqrt none content opts w0).2.env.db.rows
        = w0.env.db.rows) := by
  refine ⟨?_, ?_, ?_, ?_⟩
  · intro content opts
    refine ⟨?_, ?_, ?_, ?_⟩
    · intro e h
      exact add_embed_error sqrt c content opts w e h
    · intro emb dm b id e hemb hinf hdm hcd
      rw [add_check_error sqrt c content opts w dm emb b id e hinf hdm hemb hcd]
      exact ⟨rfl, checkDuplicate_log dm emb _ _ _⟩
    · intro addOpts emb w2 e h
      rw [addInsert_error_world c addOpts content emb w2 e h]
      exact ⟨rfl, rfl⟩
    · intro err h
      exact (add_error_shape sqrt c content opts w err h).1
  · intro query opts
    refine ⟨?_, ?_, ?_⟩
    · intro e h
      simp only [core.Client.Search, World.call, h, core.NewMemoryError]
    · intro emb e hemb h
      simp only [core.Client.Search, World.call, hemb, h, core.NewMemoryError]
    · intro err h
      cases hemb : (c.embedder.Embed query w.env).1 with
      | error e => simp only [core.Client.Search, World.call, hemb]
      | ok emb =>
        cases hs : (c.storage.Search emb
          { UserID := (core.applySearchOptions opts).UserID,
            AgentID := (core.applySearchOptions opts).AgentID,
            Limit := (core.applySearchOptions opts).Limit,
            MinScore := (core.applySearchOptions opts).MinScore,
            Filters := (core.applySearchOptions opts).Filters }
          (c.embedder.Embed query w.env).2).1 with
        | error e => simp only [core.Client.Search, World.call, hemb, hs]
        | ok ms =>
          simp only [core.Client.Search, World.call, hemb, hs] at h
          simp at h
  · intro m db e h
    exact sqlite_insert_error_rows m db e h
  · intro embed thr content opts w0 err h
    exact ⟨(add_error_shape sqrt _ content opts w0 err h).1,
      sqliteClient_add_error_rows sqrt embed thr content opts w0 err h⟩

/-- C24 (failing input): `Add` is the only operation that looks at the context. With a cancelled
context `Add` returns the context's error and calls no collaborator; `Search`, `Get`, `Update`,
`Delete`, `GetAll` and `DeleteAll` have no such check, so whatever the state of the context
their first step is the call to the embedder (`Search`, `Update`) or to the store (the
others). -/
theorem C24_only_add_checks_the_context {σ F : Type} [LinearOrderedField F] (sqrt : F → F)
    (c : core.Client σ F) (w : World σ F) :
    (∀ e content opts, c.Add sqrt (some e) content opts w = ((none, some e), w)) ∧
    (∀ query opts, ∃ rest, (c.Search query opts w).2.log = w.log ++ Call.embed query :: rest) ∧
    (∀ id, (c.Get id w).2.log = w.log ++ [Call.get id]) ∧
    (∀ id content, ∃ rest,
      (c.Update id content w).2.log = w.log ++ Call.embed content :: rest) ∧
    (∀ id, (c.Delete id w).2.log = w.log ++ [Call.delete id]) ∧
    (∀ opts, (c.GetAll opts w).2.log =
      w.log ++ [Call.getAll
        { UserID := (core.applyGetAllOptions opts).UserID,
          AgentID := (core.applyGetAllOptions opts).AgentID,
          Limit := (core.applyGetAllOptions opts).Limit,
          Offset := (core.applyGetAllOptions opts).Offset }]) ∧
    (∀ opts, (c.DeleteAll opts w).2.log =
      w.log ++ [Call.deleteAll
        { UserID := (core.applyDeleteAllOptions opts).UserID,
          AgentID := (core.applyDeleteAllOptions opts).AgentID }]) := by
  refine ⟨?_, ?_, ?_, ?_, ?_, ?_, ?_⟩
  · intro e content opts
    rfl
  · intro query opts
    cases hemb : (c.embedder.Embed query w.env).1 with
    | error e =>
      exact ⟨[], by simp only [core.Client.Search, World.call, hemb]⟩
    | ok emb =>
      cases hs : (c.storage.Search emb
        { UserID := (core.applySearchOptions opts).UserID,
          AgentID := (core.applySearchOptions opts).AgentID,
          Limit := (core.applySearchOptions opts).Limit,
          MinScore := (core.applySearchOptions opts).MinScore,
          Filters := (core.applySearchOptions opts).Filters }
        (c.embedder.Embed query w.env).2).1 <;>
      exact ⟨[Call.search emb
        { UserID := (core.applySearchOptions opts).UserID,
          AgentID := (core.applySearchOptions opts).AgentID,
          Limit := (core.applySearchOptions opts).Limit,
          MinScore := (core.applySearchOptions opts).MinScore,
          Filters := (core.applySearchOptions opts).Filters }],
        by simp [core.Client.Search, World.call, hemb, hs]⟩
  · intro id
    cases h : (c.storage.Get id w.env).1 <;> simp only [core.Client.Get, World.call, h]
  · intro id content
    cases hemb : (c.embedder.Embed content w.env).1 with
    | error e =>
      exact ⟨[], by simp only [core.Client.Update, World.call, hemb]⟩
    | ok emb =>
      cases hs : (c.storage.Update id content emb (c.embedder.Embed content w.env).2).1 <;>
      exact ⟨[Call.update id content emb],
        by simp [core.Client.Update, World.call, hemb, hs]⟩
  · intro id
    cases h : (c.storage.Delete id w.env).1 <;> simp only [core.Client.Delete, World.call, h]
  · intro opts
    cases h : (c.storage.GetAll
      { UserID := (core.applyGetAllOptions opts).UserID,
        AgentID := (core.applyGetAllOptions opts).AgentID,
        Limit := (core.applyGetAllOptions opts).Limit,
        Offset := (core.applyGetAllOptions opts).Offset } w.env).1 <;>
      simp only [core.Client.GetAll, World.call, h]
  · intro opts
    cases h : (c.storage.DeleteAll
      { UserID := (core.applyDeleteAllOptions opts).UserID,
        AgentID := (core.applyDeleteAllOptions opts).AgentID } w.env).1 <;>
      simp only [core.Client.DeleteAll, World.call, h]

/-- C25: `Client.Close` calls `Close` on each configured collaborator exactly once, the store
first, then the LLM, then the embedder, whether or not an earlier one failed; it returns nil
exactly when none of them fails, and otherwise the first failure in that order; on a client
whose three collaborators are set the calls are the three `Close` calls in that order. -/
theorem C25_close_closes_each_once_and_returns_first_failure {σ F : Type}
    [LinearOrderedField F] (c : core.Collaborators σ F) (w : World σ F) :
    let s1 : Option Error × σ :=
      match c.storage with
      | some s => s.Close w.env
      | none => (none, w.env)
    let s2 : Option Error × σ :=
      match c.llm with
      | some l => l.Close s1.2
      | none => (none, s1.2)
    let s3 : Option Error × σ :=
      match c.embedder with
      | some e => e.Close s2.2
      | none => (none, s2.2)
    (core.Close c w).2.log =
      w.log ++ (c.storage.toList.map (fun _ => Call.close "storage")) ++
        (c.llm.toList.map (fun _ => Call.close "llm")) ++
        (c.embedder.toList.map (fun _ => Call.close "embedder")) ∧
    (core.Close c w).2.env = s3.2 ∧
    (core.Close c w).1 =
      (match s1.1, s2.1, s3.1 with
       | some e, _, _ => some e
       | none, some e, _ => some e
       | none, none, r => r) ∧
    ((core.Close c w).1 = none ↔ s1.1 = none ∧ s2.1 = none ∧ s3.1 = none) ∧
    (∀ (client : core.Client σ F) (llmProvider : llm.Provider σ),
      (client.Close (some llmProvider) w).2.log =
        w.log ++ [.close "storage", .close "llm", .close "embedder"]) := by
  have hclient : ∀ (client : core.Client σ F) (llmProvider : llm.Provider σ),
      (client.Close (some llmProvider) w).2.log =
        w.log ++ [.close "storage", .close "llm", .close "embedder"] := by
    intro client l
    cases h1 : (client.storage.Close w.env).1 <;>
      cases h2 : (l.Close (client.storage.Close w.env).2).1 <;>
      cases h3 : (client.embedder.Close (l.Close (client.storage.Close w.env).2).2).1 <;>
      simp [core.Client.Close, core.Close, core.closeOne, World.call, h1, h2, h3]
  rcases c with ⟨st, l, em⟩
  cases st with
  | none =>
    cases l with
    | none =>
      cases em with
      | none => simp [hclient, core.Close, core.closeOne, World.call]
      | some em =>
        cases h3 : (em.Close w.env).1 <;>
          simp [hclient, core.Close, core.closeOne, World.call, h3]
    | some l =>
      cases h2 : (l.Close w.env).1 <;>
      cases em with
      | none => simp [hclient, core.Close, core.closeOne, World.call, h2]
      | some em =>
        cases h3 : (em.Close (l.Close w.env).2).1 <;>
          simp [hclient, core.Close, core.closeOne, World.call, h2, h3]
  | some st =>
    cases h1 : (st.Close w.env).1 <;>
    cases l with
    | none =>
      cases em with
      | none => simp [hclient, core.Close, core.closeOne, World.call, h1]
      | some em =>
        cases h3 : (em.Close (st.Close w.env).2).1 <;>
          simp [hclient, core.Close, core.closeOne, World.call, h1, h3]
    | some l =>
      cases h2 : (l.Close (st.Close w.env).2).1 <;>
      cases em with
      | none => simp [hclient, core.Close, core.closeOne, World.call, h1, h2]
      | some em =>
        cases h3 : (em.Close (l.Close (st.Close w.env).2).2).1 <;>
          simp [hclient, core.Close, core.closeOne, World.call, h1, h2, h3]

/-- C26: `Config.Validate` returns an error exactly when at least one of `LLM.Provider`,
`Embedder.Provider` and `VectorStore.Provider` is the empty string, and returns nil otherwise;
the error it returns is the `MemoryError` with `Op` "Validate" whose cause is
`ErrInvalidConfig`. -/
theorem C26_validate_fails_iff_some_provider_empty {F : Type} [LinearOrderedField F]
    (c : core.Config F) :
    (c.Validate = some (.memoryError "Validate" core.ErrInvalidConfig) ↔
      (c.LLM.Provider = "" ∨ c.Embedder.Provider = "" ∨ c.VectorStore.Provider = "")) ∧
    (c.Validate = none ↔
      ¬ (c.LLM.Provider = "" ∨ c.Embedder.Provider = "" ∨ c.VectorStore.Provider = "")) ∧
    (∀ e, c.Validate = some e →
      e = .memoryError "Validate" core.ErrInvalidConfig ∧
      e.Unwrap = some core.ErrInvalidConfig ∧ e.Is core.ErrInvalidConfig = true) := by
  unfold core.Config.Validate core.NewMemoryError
  refine ⟨?_, ?_, ?_⟩
  · split_ifs <;> simp [*]
  · split_ifs <;> simp [*]
  · intro e he
    have : e = .memoryError "Validate" core.ErrInvalidConfig := by
      split_ifs at he <;> simp at he <;> exact he.symm
    subst this
    exact ⟨rfl, rfl, by simp [Error.Is, core.ErrInvalidConfig]⟩

/-- C27 (failing input): `NewClient` on a configuration that names the SQLite store but lacks
the store's keys panics at the first type assertion, and so it does when a number of the store
configuration is a `float64`, as after JSON decoding; an unsupported LLM name is reported as
`ErrInvalidConfig` only after the store's constructor has been invoked. What does hold: an
empty provider name makes `NewClient` return the `Validate` error, and an unsupported store name
the `initStorage` error, both wrapping `ErrInvalidConfig`, with no constructor invoked. -/
theorem C27_new_client_panics_or_constructs_before_invalid_config {F : Type}
    [LinearOrderedField F] (construct : core.Constructor → Option Error) :
    core.NewClient construct (Examples.sqliteConfig "openai" []) []
      = (.panicked "interface conversion: interface \x7b\x7d is nil, not string", []) ∧
    core.NewClient construct (Examples.sqliteConfig "openai" Examples.sqliteKeysFromJSON) []
      = (.panicked "interface conversion: interface \x7b\x7d is float64, not int", []) ∧
    core.NewClient (fun _ => none) (Examples.sqliteConfig "gemini" Examples.sqliteKeys) []
      = (.returned (.error (.memoryError "initLLM" core.ErrInvalidConfig)),
          [.sqlite "mem.db" "memories" 3]) ∧
    (core.NewClient construct (Examples.sqliteConfig "gemini" Examples.sqliteKeys) []).2
      = [.sqlite "mem.db" "memories" 3] ∧
    (∀ cfg : core.Config F,
      (cfg.LLM.Provider = "" ∨ cfg.Embedder.Provider = "" ∨ cfg.VectorStore.Provider = "") →
      core.NewClient construct cfg []
        = (.returned (.error (.memoryError "Validate" core.ErrInvalidConfig)), [])) ∧
    (∀ cfg : core.Config F, cfg.Validate = none →
      cfg.VectorStore.Provider ≠ "oceanbase" → cfg.VectorStore.Provider ≠ "sqlite" →
      cfg.VectorStore.Provider ≠ "postgres" →
      core.NewClient construct cfg []
        = (.returned (.error (.memoryError "initStorage" core.ErrInvalidConfig)), [])) ∧
    (Error.memoryError "Validate" core.ErrInvalidConfig).Is core.ErrInvalidConfig = true ∧
    (Error.memoryError "initStorage" core.ErrInvalidConfig).Is core.ErrInvalidConfig = true ∧
    (Error.memoryError "initLLM" core.ErrInvalidConfig).Is core.ErrInvalidConfig = true := by
  refine ⟨?_, ?_, ?_, ?_, ?_, ?_, ?_, ?_, ?_⟩
  · rfl
  · rfl
  · rfl
  · cases h : construct (.sqlite "mem.db" "memories" 3) <;>
      simp [core.NewClient, core.Config.Validate, Examples.sqliteConfig, Examples.sqliteKeys,
        core.initStorage, core.storageConstructor, core.assertString, core.assertInt,
        core.Outcome.bind, core.runConstructor, core.initLLM, List.lookup, h]
  · intro cfg h
    have hv : cfg.Validate = some (.memoryError "Validate" core.ErrInvalidConfig) := by
      unfold core.Config.Validate core.NewMemoryError
      split_ifs with h1 h2 h3
      · rfl
      · rfl
      · rfl
      · tauto
    simp only [core.NewClient, hv]
  · intro cfg hv h1 h2 h3
    simp only [core.NewClient, hv, core.initStorage, core.storageConstructor, h1, h2, h3,
      if_false]
  · simp [Error.Is, core.ErrInvalidConfig]
  · simp [Error.Is, core.ErrInvalidConfig]
  · simp [Error.Is, core.ErrInvalidConfig]

section NormalizeHelpers

variable {F : Type} [LinearOrderedField F]

/-- Dividing every component by `c` divides the sum of squares by `c * c`. -/
theorem sum_sq_map_div (v : List F) (c : F) :
    ((v.map (fun val => val / c)).map (fun x => x * x)).sum =
      (v.map (fun x => x * x)).sum / (c * c) := by
  induction v with
  | nil => simp
  | cons x xs ih =>
    simp only [List.map_cons, List.sum_cons, ih]
    rw [add_div, div_mul_div_comm]

/-- The components of the element-wise mean that `averageEmbeddings` builds. -/
theorem zip_mean_getElem (a b : List F) (i : Nat) (ha : i < a.length) (hb : i < b.length) :
    ((a.zip b).map (fun p => (p.1 + p.2) / 2))[i]? = some ((a[i] + b[i]) / 2) := by
  simp [List.getElem?_map, List.getElem?_zip_eq_some, List.getElem?_eq_getElem, ha, hb]

end NormalizeHelpers

/-- C28: `averageEmbeddings(a, b)` returns `a` unchanged when the lengths differ, and otherwise
`normalizeVector` of the element-wise mean `(a[i] + b[i]) / 2`; `normalizeVector(v)` returns `v`
unchanged when the L2 norm of `v` is 0 (that is, when `v` is empty or all zeros) and otherwise
`v` divided by its norm, which has L2 norm 1; so the average has unit L2 norm whenever the mean
is not the zero vector. -/
theorem C28_average_embeddings_is_normalized_mean (a b : List ℝ) :
    (a.length ≠ b.length → intelligence.averageEmbeddings Real.sqrt a b = a) ∧
    (a.length = b.length →
      intelligence.averageEmbeddings Real.sqrt a b =
        intelligence.normalizeVector Real.sqrt ((a.zip b).map (fun p => (p.1 + p.2) / 2)) ∧
      ((a.zip b).map (fun p => (p.1 + p.2) / 2)).length = a.length ∧
      (∀ i (ha : i < a.length) (hb : i < b.length),
        ((a.zip b).map (fun p => (p.1 + p.2) / 2))[i]? = some ((a[i] + b[i]) / 2)) ∧
      ((∃ x ∈ (a.zip b).map (fun p => (p.1 + p.2) / 2), x ≠ 0) →
        Real.sqrt ((intelligence.averageEmbeddings Real.sqrt a b).map (fun x => x * x)).sum
          = 1)) ∧
    (∀ v : List ℝ, Real.sqrt (v.map (fun x => x * x)).sum = 0 →
      intelligence.normalizeVector Real.sqrt v = v) ∧
    (∀ v : List ℝ, Real.sqrt (v.map (fun x => x * x)).sum = 0 ↔ ∀ x ∈ v, x = 0) ∧
    (∀ v : List ℝ, Real.sqrt (v.map (fun x => x * x)).sum ≠ 0 →
      intelligence.normalizeVector Real.sqrt v =
        v.map (fun x => x / Real.sqrt (v.map (fun x => x * x)).sum) ∧
      Real.sqrt ((intelligence.normalizeVector Real.sqrt v).map (fun x => x * x)).sum = 1) := by
  have hzero : ∀ v : List ℝ, Real.sqrt (v.map (fun x => x * x)).sum = 0 ↔ ∀ x ∈ v, x = 0 := by
    intro v
    rw [Real.sqrt_eq_zero (sum_sq_nonneg v)]
    exact sum_sq_eq_zero_iff v
  have hunit : ∀ v : List ℝ, Real.sqrt (v.map (fun x => x * x)).sum ≠ 0 →
      intelligence.normalizeVector Real.sqrt v =
        v.map (fun x => x / Real.sqrt (v.map (fun x => x * x)).sum) ∧
      Real.sqrt ((intelligence.normalizeVector Real.sqrt v).map (fun x => x * x)).sum = 1 := by
    intro v hv
    have e : intelligence.normalizeVector Real.sqrt v =
        v.map (fun x => x / Real.sqrt (v.map (fun x => x * x)).sum) := by
      simp only [intelligence.normalizeVector, if_neg hv]
    refine ⟨e, ?_⟩
    rw [e, sum_sq_map_div, Real.mul_self_sqrt (sum_sq_nonneg v)]
    have hS : (v.map (fun x => x * x)).sum ≠ 0 := by
      intro h
      apply hv
      rw [h, Real.sqrt_zero]
    rw [div_self hS, Real.sqrt_one]
  refine ⟨?_, ?_, ?_, hzero, hunit⟩
  · intro h
    simp only [intelligence.averageEmbeddings, if_pos h]
  · intro h
    have e : intelligence.averageEmbeddings Real.sqrt a b =
        intelligence.normalizeVector Real.sqrt ((a.zip b).map (fun p => (p.1 + p.2) / 2)) := by
      simp only [intelligence.averageEmbeddings, ne_eq, h, not_true_eq_false, if_false]
    refine ⟨e, by simp [h], zip_mean_getElem a b, ?_⟩
    intro hne
    rw [e]
    refine (hunit _ ?_).2
    intro h0
    obtain ⟨x, hx, hx0⟩ := hne
    exact hx0 ((hzero _).1 h0 x hx)
  · intro v hv
    simp only [intelligence.normalizeVector, if_pos hv]

/-- The rows read with `ORDER BY id` are in ascending id order. -/
theorem orderById_sorted {F : Type} (rows : List (sqlite.Row F)) :
    (sqlite.orderById rows).Pairwise (fun a b => a.id ≤ b.id) := by
  haveI : IsTotal (sqlite.Row F) (fun a b => a.id ≤ b.id) := ⟨fun a b => le_total a.id b.id⟩
  haveI : IsTrans (sqlite.Row F) (fun a b => a.id ≤ b.id) :=
    ⟨fun a b c hab hbc => le_trans hab hbc⟩
  exact List.sorted_insertionSort (fun a b => a.id ≤ b.id) rows

section StableHelpers

variable {F : Type} [LinearOrderedField F]

/-- One pass of the bubble sort never exchanges two records of equal score: for every score
`s`, the records of score `s` come out in the order they went in. -/
theorem bubblePass_filter (k : Nat) (l : List (storage.Memory F)) (s : F) :
    (sqlite.bubblePass k l).filter (fun m => decide (m.Score = s))
      = l.filter (fun m => decide (m.Score = s)) := by
  induction k generalizing l with
  | zero => cases l <;> simp [sqlite.bubblePass]
  | succ k ih =>
    match l with
    | [] => simp [sqlite.bubblePass]
    | [x] => simp [sqlite.bubblePass]
    | x :: y :: rest =>
      by_cases h : x.Score < y.Score
      · simp only [sqlite.bubblePass, if_pos h]
        rw [List.filter_cons, ih (x :: rest)]
        by_cases hx : x.Score = s
        · have hy : ¬ y.Score = s := fun hy => by rw [hx, hy] at h; exact lt_irrefl _ h
          simp [List.filter_cons, hx, hy]
        · simp [List.filter_cons, hx]
      · simp only [sqlite.bubblePass, if_neg h]
        simp only [List.filter_cons, ih (y :: rest)]

/-- The bubble sort keeps the records of each score in their input order. -/
theorem bubbleSort_filter (ms : List (storage.Memory F)) (s : F) :
    (sqlite.bubbleSort ms).filter (fun m => decide (m.Score = s))
      = ms.filter (fun m => decide (m.Score = s)) := by
  unfold sqlite.bubbleSort
  generalize ms.length = n
  generalize List.range (n - 1) = r
  induction r generalizing ms with
  | nil => rfl
  | cons i r ih =>
    rw [List.foldl_cons, ih, bubblePass_filter]

/-- The records of score `s` that `sortByScore` returns are an initial segment of the records of
score `s` of the input. -/
theorem sortByScore_filter (ms : List (storage.Memory F)) (limit : Int) (s : F) :
    ∃ t, ms.filter (fun m => decide (m.Score = s))
      = (sqlite.sortByScore ms limit).filter (fun m => decide (m.Score = s)) ++ t := by
  rw [sortByScore_eq]
  split_ifs with h
  · refine ⟨((sqlite.bubbleSort ms).drop limit.toNat).filter (fun m => decide (m.Score = s)), ?_⟩
    rw [← List.filter_append, List.take_append_drop, bubbleSort_filter]
  · exact ⟨[], by rw [List.append_nil, bubbleSort_filter]⟩

/-- A list whose records of each score are in a given order has its equally scored records in
that order. -/
theorem pairwise_of_filter (R : storage.Memory F → storage.Memory F → Prop)
    (l : List (storage.Memory F))
    (h : ∀ s, (l.filter (fun m => decide (m.Score = s))).Pairwise R) :
    l.Pairwise (fun a b => a.Score = b.Score → R a b) := by
  induction l with
  | nil => exact List.Pairwise.nil
  | cons a t ih =>
    refine List.pairwise_cons.2 ⟨?_, ih ?_⟩
    · intro b hb hab
      have h1 := h a.Score
      rw [List.filter_cons_of_pos (by simp)] at h1
      exact (List.pairwise_cons.1 h1).1 b (List.mem_filter.2 ⟨hb, by simp [hab]⟩)
    · intro s
      have h1 := h s
      by_cases ha : a.Score = s
      · rw [List.filter_cons_of_pos (by simp [ha])] at h1
        exact (List.pairwise_cons.1 h1).2
      · rw [List.filter_cons_of_neg (by simp [ha])] at h1
        exact h1

/-- The list that the SQLite `Search` hands to `sortByScore`: the rows in scope in id order, each
with its cosine score, those below `MinScore` dropped. -/
theorem sqlite_search_eq (sqrt : F → F) (e : List F) (opts : storage.SearchOptions F)
    (db : sqlite.Client F) :
    (sqlite.Search sqrt e opts db).1 = .ok (sqlite.sortByScore
      (((sqlite.orderById (db.rows.filter
          (sqlite.buildWhereClause opts.UserID opts.AgentID opts.Filters))).map (fun r =>
        { sqlite.scanMemory r with
          Score := sqlite.cosineSimilarity sqrt e (sqlite.scanMemory r).Embedding })).filter
        (fun m => decide (m.Score ≥ opts.MinScore))) opts.Limit) := rfl

/-- The candidates of the SQLite `Search` are in ascending id order. -/
theorem sqlite_candidates_sorted (sqrt : F → F) (e : List F) (opts : storage.SearchOptions F)
    (db : sqlite.Client F) :
    (((sqlite.orderById (db.rows.filter
          (sqlite.buildWhereClause opts.UserID opts.AgentID opts.Filters))).map (fun r =>
        { sqlite.scanMemory r with
          Score := sqlite.cosineSimilarity sqrt e (sqlite.scanMemory r).Embedding })).filter
        (fun m => decide (m.Score ≥ opts.MinScore))).Pairwise (fun a b => a.ID ≤ b.ID) := by
  apply List.Pairwise.filter
  rw [List.pairwise_map]
  exact orderById_sorted _

end StableHelpers
section StableSearch

variable {F : Type} [LinearOrderedField F]

/-- The list that `sortByScore` returns is in non-increasing score order. -/
theorem sortByScore_sorted (l : List (storage.Memory F)) (limit : Int) :
    (sqlite.sortByScore l limit).Pairwise (fun a b => b.Score ≤ a.Score) := by
  rw [sortByScore_eq]
  split_ifs
  · exact (bubbleSort_sorted l).sublist (List.take_sublist _ _)
  · exact bubbleSort_sorted l

/-- The first record that `sortByScore` returns has the highest score of the input. -/
theorem sortByScore_head (l : List (storage.Memory F)) (limit : Int) (x : storage.Memory F)
    (rest : List (storage.Memory F)) (h : sqlite.sortByScore l limit = x :: rest) :
    ∀ y ∈ l, y.Score ≤ x.Score := by
  have hb : ∃ tl, sqlite.bubbleSort l = x :: tl := by
    rw [sortByScore_eq] at h
    split_ifs at h
    · cases hs : sqlite.bubbleSort l with
      | nil => rw [hs] at h; simp at h
      | cons a tl =>
        rw [hs] at h
        cases hn : limit.toNat with
        | zero => rw [hn] at h; simp at h
        | succ n =>
          rw [hn, List.take_succ_cons] at h
          exact ⟨tl, by rw [(List.cons.inj h).1]⟩
    · exact ⟨rest, h⟩
  obtain ⟨tl, htl⟩ := hb
  have hsorted := bubbleSort_sorted l
  rw [htl] at hsorted
  intro y hy
  have hy2 : y ∈ x :: tl := by
    rw [← htl]
    exact (bubbleSort_perm l).symm.subset hy
  rcases List.mem_cons.1 hy2 with rfl | hyt
  · exact le_rfl
  · exact (List.pairwise_cons.1 hsorted).1 y hyt

/-- On a list in non-increasing score order the duplicate check matches the first record. -/
theorem firstDuplicate_sorted (t : F) (ms : List (storage.Memory F))
    (hs : ms.Pairwise (fun a b => b.Score ≤ a.Score))
    (h : (intelligence.firstDuplicate t ms).1 = true) :
    ∃ x rest, ms = x :: rest ∧ x.Score ≥ t ∧ (intelligence.firstDuplicate t ms).2 = x.ID := by
  obtain ⟨pre, x, post, hms, hpre, hx, hid⟩ := firstDuplicate_first t ms h
  cases pre with
  | nil => exact ⟨x, post, hms, hx, hid⟩
  | cons y pre =>
    exfalso
    rw [hms] at hs
    have h1 : x.Score ≤ y.Score :=
      (List.pairwise_cons.1 hs).1 x (List.mem_append_right _ (List.mem_cons_self _ _))
    have h2 : y.Score < t := hpre y (List.mem_cons_self _ _)
    exact absurd (lt_of_le_of_lt (le_trans hx h1) h2) (lt_irrefl _)

/-- The SQLite `Search` returns equally scored records in ascending id order. -/
theorem sqlite_search_ties (sqrt : F → F) (e : List F) (opts : storage.SearchOptions F)
    (db : sqlite.Client F) (ms : List (storage.Memory F))
    (h : (sqlite.Search sqrt e opts db).1 = .ok ms) :
    ms.Pairwise (fun a b => a.Score = b.Score → a.ID ≤ b.ID) := by
  rw [sqlite_search_eq] at h
  have h2 := Except.ok.inj h
  subst h2
  apply pairwise_of_filter
  intro s
  obtain ⟨t, ht⟩ := sortByScore_filter
    (((sqlite.orderById (db.rows.filter
          (sqlite.buildWhereClause opts.UserID opts.AgentID opts.Filters))).map (fun r =>
        { sqlite.scanMemory r with
          Score := sqlite.cosineSimilarity sqrt e (sqlite.scanMemory r).Embedding })).filter
        (fun m => decide (m.Score ≥ opts.MinScore))) opts.Limit s
  have hc := (sqlite_candidates_sorted sqrt e opts db).sublist
    (List.filter_sublist (p := fun m => decide (m.Score = s)) _)
  rw [ht] at hc
  exact (List.pairwise_append.1 hc).1

end StableSearch
section StableDuplicate

variable {F : Type} [LinearOrderedField F]

/-- Over the SQLite store the duplicate check matches, among the rows in scope, one of the
highest cosine score, and among those of that score the one of the smallest id. -/
theorem sqlite_checkDuplicate_smallest_id (sqrt : F → F) (thr : F) (e : List F)
    (u a : String) (w : World (sqlite.Client F) F) (id : Int)
    (h : ((intelligence.NewDedupManager (sqlite.store sqrt) thr).CheckDuplicate e u a w).1
      = (true, id, none)) :
    ∃ r0 ∈ w.env.rows, sqlite.buildWhereClause u a [] r0 = true ∧ r0.id = id ∧
      sqlite.cosineSimilarity sqrt e r0.embedding
        ≥ (intelligence.NewDedupManager (sqlite.store sqrt) thr).threshold ∧
      (∀ r ∈ w.env.rows, sqlite.buildWhereClause u a [] r = true →
        sqlite.cosineSimilarity sqrt e r.embedding
          ≤ sqlite.cosineSimilarity sqrt e r0.embedding) ∧
      (∀ r ∈ w.env.rows, sqlite.buildWhereClause u a [] r = true →
        sqlite.cosineSimilarity sqrt e r.embedding
          = sqlite.cosineSimilarity sqrt e r0.embedding → r0.id ≤ r.id) := by
  have hsearch := sqlite_search_eq sqrt e
    { UserID := u, AgentID := a, Limit := 5, MinScore := 0, Filters := [] } w.env
  have hcd := checkDuplicate_of_search_ok (intelligence.NewDedupManager (sqlite.store sqrt) thr)
    e u a w _ hsearch
  rw [hcd] at h
  simp only [Prod.mk.injEq, and_true] at h
  obtain ⟨hdup, hid⟩ := h
  generalize hcand : (((sqlite.orderById (w.env.rows.filter
      (sqlite.buildWhereClause u a []))).map (fun r =>
        ({ sqlite.scanMemory r with
          Score := sqlite.cosineSimilarity sqrt e (sqlite.scanMemory r).Embedding } :
            storage.Memory F))).filter
        (fun m => decide (m.Score ≥ (0 : F)))) = cand at hdup hid
  have hcsorted : cand.Pairwise (fun x y => x.ID ≤ y.ID) := by
    rw [← hcand]
    exact sqlite_candidates_sorted sqrt e
      { UserID := u, AgentID := a, Limit := 5, MinScore := 0, Filters := [] } w.env
  have hmemc : ∀ r ∈ w.env.rows, sqlite.buildWhereClause u a [] r = true →
      0 ≤ sqlite.cosineSimilarity sqrt e r.embedding →
      ({ sqlite.scanMemory r with
          Score := sqlite.cosineSimilarity sqrt e (sqlite.scanMemory r).Embedding } :
            storage.Memory F) ∈ cand := by
    intro r hr hw h0
    rw [← hcand]
    refine List.mem_filter.2 ⟨List.mem_map.2 ⟨r, mem_orderById.2 (List.mem_filter.2 ⟨hr, hw⟩),
      rfl⟩, ?_⟩
    simpa [sqlite.scanMemory] using h0
  obtain ⟨x, rest, hms, hx, hxid⟩ := firstDuplicate_sorted _ _ (sortByScore_sorted cand 5) hdup
  have hxc : x ∈ cand := mem_sortByScore (by rw [hms]; exact List.mem_cons_self _ _)
  have hxc2 := hxc
  rw [← hcand] at hxc2
  obtain ⟨hxm, hx0⟩ := List.mem_filter.1 hxc2
  obtain ⟨r0, hr0, hr0x⟩ := List.mem_map.1 hxm
  have hr0' := List.mem_filter.1 (mem_orderById.1 hr0)
  have hscore : x.Score = sqlite.cosineSimilarity sqrt e r0.embedding := by
    rw [← hr0x]
    rfl
  have hxid2 : x.ID = r0.id := by
    rw [← hr0x]
    rfl
  have hx0' : (0 : F) ≤ x.Score := by simpa using hx0
  have hmax := sortByScore_head cand 5 x rest hms
  refine ⟨r0, hr0'.1, hr0'.2, ?_, ?_, ?_, ?_⟩
  · rw [← hxid2, ← hxid, hid]
  · rw [← hscore]
    exact hx
  · intro r hr hw
    rw [← hscore]
    by_cases h0 : 0 ≤ sqlite.cosineSimilarity sqrt e r.embedding
    · exact hmax _ (hmemc r hr hw h0)
    · exact le_trans (le_of_lt (not_le.1 h0)) hx0'
  · intro r hr hw heq
    rw [← hscore] at heq
    have h0 : 0 ≤ sqlite.cosineSimilarity sqrt e r.embedding := by rw [heq]; exact hx0'
    have hy := hmemc r hr hw h0
    obtain ⟨t, ht⟩ := sortByScore_filter cand 5 x.Score
    rw [hms, List.filter_cons_of_pos (by simp), List.cons_append] at ht
    have hyf : ({ sqlite.scanMemory r with
          Score := sqlite.cosineSimilarity sqrt e (sqlite.scanMemory r).Embedding } :
            storage.Memory F) ∈ cand.filter (fun m => decide (m.Score = x.Score)) :=
      List.mem_filter.2 ⟨hy, by simpa [sqlite.scanMemory] using heq⟩
    have hfs := hcsorted.sublist
      (List.filter_sublist (p := fun m => decide (m.Score = x.Score)) cand)
    rw [ht] at hfs hyf
    rw [← hxid2]
    rcases List.mem_cons.1 hyf with hyx | hyt
    · have : r.id = x.ID := by
        have := congrArg (fun m : storage.Memory F => m.ID) hyx
        simpa [sqlite.scanMemory] using this
      rw [this]
    · have := (List.pairwise_cons.1 hfs).1 _ hyt
      simpa [sqlite.scanMemory] using this

end StableDuplicate

/-- C29: `sortByScore` is stable: for every input list, limit and score `s`, the returned
records of score `s` are an initial segment of the input's records of score `s`, in the same
order (all of them when the list is not cut). Hence the SQLite `Search`, which reads the rows in
id order, returns equally scored records in ascending id order, and over the SQLite store the
record that `CheckDuplicate` matches has the highest score among the rows in scope and the
smallest id among the rows in scope of that score. -/
theorem C29_sort_by_score_is_stable {F : Type} [LinearOrderedField F] (sqrt : F → F) :
    (∀ (ms : List (storage.Memory F)) (limit : Int) (s : F),
      ∃ t, ms.filter (fun m => decide (m.Score = s))
        = (sqlite.sortByScore ms limit).filter (fun m => decide (m.Score = s)) ++ t) ∧
    (∀ (ms : List (storage.Memory F)) (limit : Int) (s : F),
      (limit ≤ 0 ∨ (ms.length : Int) ≤ limit) →
      (sqlite.sortByScore ms limit).filter (fun m => decide (m.Score = s))
        = ms.filter (fun m => decide (m.Score = s))) ∧
    (∀ (e : List F) (opts : storage.SearchOptions F) (db : sqlite.Client F)
      (ms : List (storage.Memory F)), (sqlite.Search sqrt e opts db).1 = .ok ms →
      ms.Pairwise (fun a b => a.Score = b.Score → a.ID ≤ b.ID)) ∧
    (∀ (thr : F) (e : List F) (u a : String) (w : World (sqlite.Client F) F) (id : Int),
      ((intelligence.NewDedupManager (sqlite.store sqrt) thr).CheckDuplicate e u a w).1
        = (true, id, none) →
      ∃ r0 ∈ w.env.rows, sqlite.buildWhereClause u a [] r0 = true ∧ r0.id = id ∧
        sqlite.cosineSimilarity sqrt e r0.embedding
          ≥ (intelligence.NewDedupManager (sqlite.store sqrt) thr).threshold ∧
        (∀ r ∈ w.env.rows, sqlite.buildWhereClause u a [] r = true →
          sqlite.cosineSimilarity sqrt e r.embedding
            ≤ sqlite.cosineSimilarity sqrt e r0.embedding) ∧
        (∀ r ∈ w.env.rows, sqlite.buildWhereClause u a [] r = true →
          sqlite.cosineSimilarity sqrt e r.embedding
            = sqlite.cosineSimilarity sqrt e r0.embedding → r0.id ≤ r.id)) := by
  refine ⟨sortByScore_filter, ?_, sqlite_search_ties sqrt, sqlite_checkDuplicate_smallest_id sqrt⟩
  intro ms limit s h
  have hlen : (sqlite.bubbleSort ms).length = ms.length := (bubbleSort_perm ms).length_eq
  rw [sortByScore_eq]
  split_ifs with hl
  · rw [List.take_of_length_le (by omega), bubbleSort_filter]
  · exact bubbleSort_filter ms s

section IterateHelpers

variable {F : Type} [LinearOrderedField F]

/-- Closed form of `n` reinforcements when neither the factor nor the strength exceeds 1. -/
theorem reinforce_iterate (m : intelligence.EbbinghausManager F) (s : F) (n : Nat)
    (hf1 : m.reinforcementFactor ≤ 1) (hs1 : s ≤ 1) :
    (m.Reinforce)^[n] s = 1 - (1 - m.reinforcementFactor) ^ n * (1 - s) := by
  induction n with
  | zero => simp
  | succ n ih =>
    rw [Function.iterate_succ_apply', ih, reinforce_eq_min]
    have h1 : 0 ≤ (1 - m.reinforcementFactor) ^ (n + 1) * (1 - s) :=
      mul_nonneg (pow_nonneg (by linarith) _) (by linarith)
    rw [min_eq_right]
    · ring
    · have e : 1 - (1 - m.reinforcementFactor) ^ n * (1 - s) +
          m.reinforcementFactor * (1 - (1 - (1 - m.reinforcementFactor) ^ n * (1 - s))) =
          1 - (1 - m.reinforcementFactor) ^ (n + 1) * (1 - s) := by ring
      rw [e]
      linarith

end IterateHelpers

/-- C30: for every reinforcement factor `f` in `(0, 1]`, every strength `s` in `[0, 1]` (the
proof uses only `s ≤ 1`) and every `n`, applying `Reinforce` `n` times to `s` yields
`1 - (1 - f)^n * (1 - s)`; the value is non-decreasing in `n` and lies in `[s, 1]`. -/
theorem C30_repeated_reinforce_closed_form {F : Type} [LinearOrderedField F]
    (m : intelligence.EbbinghausManager F) (s : F) (n : Nat)
    (hf0 : 0 < m.reinforcementFactor) (hf1 : m.reinforcementFactor ≤ 1)
    (hs1 : s ≤ 1) :
    (m.Reinforce)^[n] s = 1 - (1 - m.reinforcementFactor) ^ n * (1 - s) ∧
    (m.Reinforce)^[n] s ≤ (m.Reinforce)^[n + 1] s ∧
    (∀ k, k ≤ n → (m.Reinforce)^[k] s ≤ (m.Reinforce)^[n] s) ∧
    s ≤ (m.Reinforce)^[n] s ∧ (m.Reinforce)^[n] s ≤ 1 := by
  have hq0 : 0 ≤ 1 - m.reinforcementFactor := by linarith
  have hq1 : 1 - m.reinforcementFactor ≤ 1 := by linarith
  have hs : 0 ≤ 1 - s := by linarith
  have hstep : ∀ j, (m.Reinforce)^[j] s ≤ (m.Reinforce)^[j + 1] s := by
    intro j
    rw [reinforce_iterate m s j hf1 hs1, reinforce_iterate m s (j + 1) hf1 hs1]
    have : (1 - m.reinforcementFactor) ^ (j + 1) ≤ (1 - m.reinforcementFactor) ^ j :=
      pow_le_pow_of_le_one hq0 hq1 (Nat.le_succ j)
    nlinarith [mul_le_mul_of_nonneg_right this hs]
  have hmono : Monotone (fun j => (m.Reinforce)^[j] s) := monotone_nat_of_le_succ hstep
  refine ⟨reinforce_iterate m s n hf1 hs1, hstep n, fun k hk => hmono hk, ?_, ?_⟩
  · have := hmono (Nat.zero_le n)
    simpa using this
  · rw [reinforce_iterate m s n hf1 hs1]
    have : 0 ≤ (1 - m.reinforcementFactor) ^ n * (1 - s) := mul_nonneg (pow_nonneg hq0 _) hs
    linarith

/-- Witness of C30: factor 0.3, strength 1/2, two reinforcements. -/
theorem C30_witness :
    ((intelligence.NewEbbinghausManager (0.1 : ℚ) 0.3).Reinforce)^[2] (1 / 2) =
      1 - (1 - (intelligence.NewEbbinghausManager (0.1 : ℚ) 0.3).reinforcementFactor) ^ 2 *
        (1 - 1 / 2) :=
  (C30_repeated_reinforce_closed_form (intelligence.NewEbbinghausManager (0.1 : ℚ) 0.3) (1 / 2) 2
    (by norm_num [intelligence.NewEbbinghausManager])
    (by norm_num [intelligence.NewEbbinghausManager])
    (by norm_num)).1
